import Mathlib

/-!
# Mesh generators `GlGeomCylinder` and `GlGeomTorus`

A shallow embedding of the buffer-filling code of `GlGeomCylinder.cpp/.h` and
`GlGeomTorus.cpp/.h`, followed by theorems about the index and vertex buffers
they produce.

Modelling conventions.

* C++ `int` is `Int`; `%` on `int` is `Int.tmod` (truncating).  The resolutions
  are at most 255 wherever the fill is analysed, so no `int` expression of the
  index computations leaves the 32-bit range; values stored into the
  `unsigned int` index buffer go through `toUnsigned` (reduction mod 2^32).
* Pointers into the two caller-supplied buffers are offsets (counted in
  elements) from `VBOdataBuffer` / `EBOdataBuffer`.  Pointer arithmetic is
  unbounded integer arithmetic: the model is that of a buffer that fits the
  address space.
* The fills are given at two levels.  In `SetDiscVerts`, `fillVbo`, `fillEbo` and
  `CalcVboAndEbo` the products with `stride` (`stride*(i*numRings + j)`,
  `GetNumVerticesDisk()*stride`, `(2*GetNumVerticesDisk() + i*(numStacks + 1))*stride`)
  are unbounded and `%` is total.  In the machine-level runs `SetDiscVertsM`,
  `fillVboM`, `fillEboM` and `CalcVboAndEboM` these products are reduced to 32
  bits and a `%` with a zero divisor ends the run.  The two levels make the same
  stores for a valid resolution and a buffer of fewer than 2^31 floats
  (`cylRun_eq`, `torRun_eq`).
* A buffer is represented by the log of the stores made into it, in program
  order.  A store into the index buffer is a pair (position, value); a store into
  the vertex buffer is a `VboWrite`.
* `float` values are symbolic expressions `FExpr`; no rounding is modelled.
  `FExpr.exact` is the exact rational value of a trigonometry-free expression, and
  the outcome of a `float` comparison `==` is a parameter of the code that makes it.
* `for (int i = lo; i < hi; i++)` is `forLoop lo hi body`.
-/

/-! ## Common infrastructure -/

/-- Symbolic single-precision expressions, as they are written in the sources. -/
inductive FExpr where
  | ofInt (n : Int)
  | half
  | pi2
  | neg (a : FExpr)
  | add (a b : FExpr)
  | sub (a b : FExpr)
  | mul (a b : FExpr)
  | div (a b : FExpr)
  | cosf (a : FExpr)
  | sinf (a : FExpr)
  deriving DecidableEq

/-- Part of a mesh a vertex belongs to: the cylinder's bottom disk, top disk and
side, or the torus surface. -/
inductive Region where
  | bottom
  | top
  | side
  | tube
  deriving DecidableEq

/-- Per-vertex attribute fields of the interleaved vertex record. -/
inductive Attr where
  | pos
  | normal
  | texcoord
  deriving DecidableEq

/-- One store of a `float` into the vertex buffer.  `slot` is the offset of the
stored float from `VBOdataBuffer` and `val` the stored value.  The other fields
say which source statement made the store: the vertex being handled (`region`,
slice/ring number `i`, ring/stack/side number `j`), the attribute and component
written, and `base`, the offset of the record base pointer in use (`basePtr`,
`toPtr`, `basePtrBottom`, the latter plus `delta` for the top disk). -/
structure VboWrite where
  region : Region
  i : Int
  j : Int
  attr : Attr
  comp : Int
  base : Int
  slot : Int
  val : FExpr
  deriving DecidableEq

/-- Conversion of an `int` to `unsigned int`. -/
def toUnsigned (x : Int) : Nat := (x % 4294967296).toNat

/-- An `unsigned int*` cursor into an index array together with the stores made
through it: `eboPtr` is the offset of the cursor from the start of the array,
`written` the (position, value) pairs stored so far, oldest first. -/
structure EboState where
  eboPtr : Nat
  written : List (Nat × Nat)
  deriving DecidableEq

/-- The statement `*(eboPtr++) = v;`. -/
def EboState.put (st : EboState) (v : Int) : EboState :=
  { eboPtr := st.eboPtr + 1, written := st.written ++ [(st.eboPtr, toUnsigned v)] }

/-- A run of consecutive statements `*(eboPtr++) = v;`, one per element. -/
def EboState.putAll (st : EboState) (vs : List Int) : EboState :=
  vs.foldl EboState.put st

/-- The loop `for (int i = lo; i < hi; i++) body`, as a state transformer. -/
def forLoop {σ : Type} (lo hi : Int) (body : σ → Int → σ) (st : σ) : σ :=
  (List.range (hi - lo).toNat).foldl (fun s (k : Nat) => body s (lo + (k : Int))) st

/-- The values taken by the loop variable of `for (int i = lo; i < hi; i++)`. -/
def loopRange (lo hi : Int) : List Int :=
  (List.range (hi - lo).toNat).map (fun (k : Nat) => lo + (k : Int))

/-- A sub-range of the index buffer as handed to `GlGeomBase::RenderEBO`:
`count` entries beginning at entry number `start`. -/
structure EboRange where
  count : Int
  start : Int
  deriving DecidableEq

/-- Modelled from the spec: `GlGeomBase::RenderEBO(mode, count, start)` is not
among the sources; by section 4.5 it is an offset/count lookup into the index
buffer that was built by the fill.  The result lists the index values stored at
positions `start, …, start + count - 1`. -/
def RenderEBO (ebo : EboState) (r : EboRange) : List Nat :=
  (ebo.written.filter
    (fun e => decide (r.start ≤ (e.1 : Int) ∧ (e.1 : Int) < r.start + r.count))).map Prod.snd

/-- The vertices that a vertex-buffer log writes, in program order: one entry
(region, i, j, base) per store of a first position component. -/
def vertsWritten (log : List VboWrite) : List (Region × Int × Int × Int) :=
  (log.filter (fun w => decide (w.attr = Attr.pos ∧ w.comp = 0))).map
    (fun w => (w.region, w.i, w.j, w.base))

/-! ## `GlGeomCylinder` -/

/-- The data members of `GlGeomCylinder`. -/
structure GlGeomCylinder where
  numSlices : Int
  numStacks : Int
  numRings : Int
  VboEboLoaded : Bool
  deriving DecidableEq

namespace GlGeomCylinder

def GetNumElementsDisk (g : GlGeomCylinder) : Int := 3 * (2 * g.numRings - 1) * g.numSlices

def GetNumVerticesDisk (g : GlGeomCylinder) : Int := 1 + g.numRings * g.numSlices

def GetNumElementsSide (g : GlGeomCylinder) : Int := 6 * g.numStacks * g.numSlices

def GetNumVerticesSideTexCoords (g : GlGeomCylinder) : Int :=
  (g.numStacks + 1) * (g.numSlices + 1)

def GetNumVerticesSideNoTexCoords (g : GlGeomCylinder) : Int :=
  (g.numStacks + 1) * g.numSlices

def GetNumElements (g : GlGeomCylinder) : Int :=
  2 * g.GetNumElementsDisk + g.GetNumElementsSide

def GetNumVerticesTexCoords (g : GlGeomCylinder) : Int :=
  2 * g.GetNumVerticesDisk + g.GetNumVerticesSideTexCoords

def GetNumVerticesNoTexCoords (g : GlGeomCylinder) : Int :=
  2 * g.GetNumVerticesDisk + g.GetNumVerticesSideNoTexCoords

/-- The vertex count a caller sizes the vertex buffer with, by texcoord mode. -/
def vertexCount (g : GlGeomCylinder) (calcTexCoords : Bool) : Int :=
  if calcTexCoords then g.GetNumVerticesTexCoords else g.GetNumVerticesNoTexCoords

/-- The resolution ranges of the data model: slices in [3,255], stacks and rings
in [1,255]. -/
def ValidResolution (g : GlGeomCylinder) : Prop :=
  (3 ≤ g.numSlices ∧ g.numSlices ≤ 255) ∧ (1 ≤ g.numStacks ∧ g.numStacks ≤ 255) ∧
    (1 ≤ g.numRings ∧ g.numRings ≤ 255)

instance (g : GlGeomCylinder) : Decidable g.ValidResolution := by
  unfold ValidResolution; exact inferInstance

/-- `GlGeomCylinder::SetDiscVerts`: stores the bottom-disk and the top-disk vertex
of slice `i`, ring `j` (`j = 0`: the centres). -/
def SetDiscVerts (g : GlGeomCylinder) (x z : FExpr) (i j : Int)
    (vertPosOffset vertNormalOffset vertTexCoordsOffset stride : Int)
    (log : List VboWrite) : List VboWrite :=
  let basePtrBottom := stride * (i * g.numRings + j)
  let delta := g.GetNumVerticesDisk * stride
  let vPtrBottom := basePtrBottom + vertPosOffset
  let vPtrTop := vPtrBottom + delta
  let log := log ++
    [ ⟨Region.bottom, i, j, Attr.pos, 0, basePtrBottom, vPtrBottom, x⟩,
      ⟨Region.bottom, i, j, Attr.pos, 1, basePtrBottom, vPtrBottom + 1, FExpr.neg (FExpr.ofInt 1)⟩,
      ⟨Region.bottom, i, j, Attr.pos, 2, basePtrBottom, vPtrBottom + 2, z⟩,
      ⟨Region.top, i, j, Attr.pos, 0, basePtrBottom + delta, vPtrTop, x⟩,
      ⟨Region.top, i, j, Attr.pos, 1, basePtrBottom + delta, vPtrTop + 1, FExpr.ofInt 1⟩,
      ⟨Region.top, i, j, Attr.pos, 2, basePtrBottom + delta, vPtrTop + 2, z⟩ ]
  let log :=
    if vertNormalOffset ≥ 0 then
      let nPtrBottom := basePtrBottom + vertNormalOffset
      let nPtrTop := nPtrBottom + delta
      log ++
        [ ⟨Region.bottom, i, j, Attr.normal, 0, basePtrBottom, nPtrBottom, FExpr.ofInt 0⟩,
          ⟨Region.bottom, i, j, Attr.normal, 1, basePtrBottom, nPtrBottom + 1,
            FExpr.neg (FExpr.ofInt 1)⟩,
          ⟨Region.bottom, i, j, Attr.normal, 2, basePtrBottom, nPtrBottom + 2, FExpr.ofInt 0⟩,
          ⟨Region.top, i, j, Attr.normal, 0, basePtrBottom + delta, nPtrTop, FExpr.ofInt 0⟩,
          ⟨Region.top, i, j, Attr.normal, 1, basePtrBottom + delta, nPtrTop + 1, FExpr.ofInt 1⟩,
          ⟨Region.top, i, j, Attr.normal, 2, basePtrBottom + delta, nPtrTop + 2, FExpr.ofInt 0⟩ ]
    else log
  if vertTexCoordsOffset ≥ 0 then
    let sCoord := FExpr.mul FExpr.half (FExpr.add x (FExpr.ofInt 1))
    let tCoord := FExpr.mul FExpr.half (FExpr.add (FExpr.neg z) (FExpr.ofInt 1))
    let tcPtrBottom := basePtrBottom + vertTexCoordsOffset
    let tcPtrTop := tcPtrBottom + delta
    log ++
      [ ⟨Region.bottom, i, j, Attr.texcoord, 0, basePtrBottom, tcPtrBottom,
          FExpr.sub (FExpr.ofInt 1) sCoord⟩,
        ⟨Region.bottom, i, j, Attr.texcoord, 1, basePtrBottom, tcPtrBottom + 1, tCoord⟩,
        ⟨Region.top, i, j, Attr.texcoord, 0, basePtrBottom + delta, tcPtrTop, sCoord⟩,
        ⟨Region.top, i, j, Attr.texcoord, 1, basePtrBottom + delta, tcPtrTop + 1, tCoord⟩ ]
  else log

/-- Body of the side-vertex loop of `CalcVboAndEbo` (lines 73-90), including its
step `basePtr += stride`; the state is (`basePtr`, log). -/
def sideVertex (g : GlGeomCylinder) (s c sCoord : FExpr) (i : Int)
    (vertPosOffset vertNormalOffset vertTexCoordsOffset stride : Int)
    (st : Int × List VboWrite) (j : Int) : Int × List VboWrite :=
  let basePtr := st.1
  let log := st.2
  let vPtr := basePtr + vertPosOffset
  let tCoord := FExpr.div (FExpr.ofInt j) (FExpr.ofInt g.numStacks)
  let log := log ++
    [ ⟨Region.side, i, j, Attr.pos, 0, basePtr, vPtr, s⟩,
      ⟨Region.side, i, j, Attr.pos, 1, basePtr, vPtr + 1,
        FExpr.add (FExpr.neg (FExpr.ofInt 1)) (FExpr.mul (FExpr.ofInt 2) tCoord)⟩,
      ⟨Region.side, i, j, Attr.pos, 2, basePtr, vPtr + 2, c⟩ ]
  let log :=
    if vertNormalOffset ≥ 0 then
      let nPtr := basePtr + vertNormalOffset
      log ++
        [ ⟨Region.side, i, j, Attr.normal, 0, basePtr, nPtr, s⟩,
          ⟨Region.side, i, j, Attr.normal, 1, basePtr, nPtr + 1, FExpr.ofInt 0⟩,
          ⟨Region.side, i, j, Attr.normal, 2, basePtr, nPtr + 2, c⟩ ]
    else log
  let log :=
    if vertTexCoordsOffset ≥ 0 then
      let tcPtr := basePtr + vertTexCoordsOffset
      log ++
        [ ⟨Region.side, i, j, Attr.texcoord, 0, basePtr, tcPtr, sCoord⟩,
          ⟨Region.side, i, j, Attr.texcoord, 1, basePtr, tcPtr + 1, tCoord⟩ ]
    else log
  (basePtr + stride, log)

/-- Body of the slice loop of the vertex fill (lines 58-90). -/
def sliceVertices (g : GlGeomCylinder)
    (vertPosOffset vertNormalOffset vertTexCoordsOffset stride : Int)
    (log : List VboWrite) (i : Int) : List VboWrite :=
  let theta := FExpr.div (FExpr.mul (FExpr.ofInt (i.tmod g.numSlices)) FExpr.pi2)
    (FExpr.ofInt g.numSlices)
  let c := FExpr.neg (FExpr.cosf theta)
  let s := FExpr.neg (FExpr.sinf theta)
  let log :=
    if i < g.numSlices then
      forLoop 1 (g.numRings + 1) (fun log j =>
        let radius := FExpr.div (FExpr.ofInt j) (FExpr.ofInt g.numRings)
        g.SetDiscVerts (FExpr.mul s radius) (FExpr.mul c radius) i j
          vertPosOffset vertNormalOffset vertTexCoordsOffset stride log) log
    else log
  let basePtr := (2 * g.GetNumVerticesDisk + i * (g.numStacks + 1)) * stride
  let sCoord := FExpr.div (FExpr.ofInt i) (FExpr.ofInt g.numSlices)
  (forLoop 0 (g.numStacks + 1)
    (g.sideVertex s c sCoord i vertPosOffset vertNormalOffset vertTexCoordsOffset stride)
    (basePtr, log)).2

/-- The vertex-buffer part of `CalcVboAndEbo` (lines 52-91). -/
def fillVbo (g : GlGeomCylinder)
    (vertPosOffset vertNormalOffset vertTexCoordsOffset stride : Int) : List VboWrite :=
  let calcTexCoords := decide (vertTexCoordsOffset ≥ 0)
  let log := g.SetDiscVerts (FExpr.ofInt 0) (FExpr.ofInt 0) 0 0
    vertPosOffset vertNormalOffset vertTexCoordsOffset stride []
  let stopSlices := if calcTexCoords then g.numSlices else g.numSlices - 1
  forLoop 0 (stopSlices + 1)
    (g.sliceVertices vertPosOffset vertNormalOffset vertTexCoordsOffset stride) log

/-- Body of the bottom-disk index loop (lines 97-110). -/
def bottomSlice (g : GlGeomCylinder) (st : EboState) (i : Int) : EboState :=
  let r := i * g.numRings + 1
  let rightR := ((i + 1).tmod g.numSlices) * g.numRings + 1
  let st := st.putAll [0, rightR, r]
  forLoop 0 (g.numRings - 1) (fun st j =>
    st.putAll [r + j, rightR + j, rightR + j + 1, r + j, rightR + j + 1, r + j + 1]) st

/-- Body of the top-disk index loop (lines 115-128). -/
def topSlice (g : GlGeomCylinder) (delta : Int) (st : EboState) (i : Int) : EboState :=
  let r := delta + i * g.numRings + 1
  let leftR := delta + ((i + 1).tmod g.numSlices) * g.numRings + 1
  let st := st.putAll [delta, r, leftR]
  forLoop 0 (g.numRings - 1) (fun st j =>
    st.putAll [leftR + j, r + j, r + j + 1, leftR + j, r + j + 1, leftR + j + 1]) st

/-- Body of the side index loop (lines 132-143). -/
def sideSlice (g : GlGeomCylinder) (calcTexCoords : Bool) (delta : Int)
    (st : EboState) (i : Int) : EboState :=
  let r := i * (g.numStacks + 1) + 2 * delta
  let ii := if calcTexCoords then i + 1 else (i + 1).tmod g.numSlices
  let rightR := ii * (g.numStacks + 1) + 2 * delta
  forLoop 0 g.numStacks (fun st j =>
    st.putAll [rightR + j, r + j + 1, r + j, rightR + j, rightR + j + 1, r + j + 1]) st

/-- The index-buffer part of `CalcVboAndEbo` (lines 93-144). -/
def fillEbo (g : GlGeomCylinder) (calcTexCoords : Bool) : EboState :=
  let st : EboState := ⟨0, []⟩
  let st := forLoop 0 g.numSlices g.bottomSlice st
  let delta := g.GetNumVerticesDisk
  let st := forLoop 0 g.numSlices (g.topSlice delta) st
  forLoop 0 g.numSlices (g.sideSlice calcTexCoords delta) st

/-- `GlGeomCylinder::CalcVboAndEbo`.  The result is `none` when the `assert` fails,
and otherwise the stores made into the vertex buffer and into the index buffer. -/
def CalcVboAndEbo (g : GlGeomCylinder)
    (vertPosOffset vertNormalOffset vertTexCoordsOffset : Int) (stride : Nat) :
    Option (List VboWrite × EboState) :=
  if vertPosOffset ≥ 0 ∧ stride > 0 then
    let calcTexCoords := decide (vertTexCoordsOffset ≥ 0)
    some (g.fillVbo vertPosOffset vertNormalOffset vertTexCoordsOffset stride,
      g.fillEbo calcTexCoords)
  else none

/-- `GlGeomCylinder::RenderTop`: the arguments it hands to `RenderEBO`. -/
def RenderTop (g : GlGeomCylinder) : EboRange :=
  { count := g.GetNumElementsDisk, start := 0 }

/-- `GlGeomCylinder::RenderBase`: the arguments it hands to `RenderEBO`. -/
def RenderBase (g : GlGeomCylinder) : EboRange :=
  let n := g.GetNumElementsDisk
  { count := n, start := n }

/-- `GlGeomCylinder::RenderSide`: the arguments it hands to `RenderEBO`. -/
def RenderSide (g : GlGeomCylinder) : EboRange :=
  { count := g.GetNumElementsSide, start := 2 * g.GetNumElementsDisk }

/-- The vertex-record number that the numbering scheme of the data model gives
to a cylinder vertex: disk vertices slice-major and ring-minor, the top disk
after the bottom disk, side vertices slice-major and stack-minor after both. -/
def recordOf (g : GlGeomCylinder) (region : Region) (i j : Int) : Int :=
  match region with
  | Region.bottom => i * g.numRings + j
  | Region.top => g.GetNumVerticesDisk + i * g.numRings + j
  | _ => 2 * g.GetNumVerticesDisk + i * (g.numStacks + 1) + j

end GlGeomCylinder

/-! ## `GlGeomTorus` -/

/-- The data members of `GlGeomTorus`. -/
structure GlGeomTorus where
  numSides : Int
  numRings : Int
  radius : FExpr
  VboEboLoaded : Bool
  deriving DecidableEq

namespace GlGeomTorus

def GetNumElements (g : GlGeomTorus) : Int := 6 * g.numRings * g.numSides

def GetNumVerticesNoTexCoords (g : GlGeomTorus) : Int := g.numRings * g.numSides

def GetNumVerticesTexCoords (g : GlGeomTorus) : Int := (g.numRings + 1) * (g.numSides + 1)

def GetNumElementsPerRing (g : GlGeomTorus) : Int := g.numSides * 6

/-- The vertex count a caller sizes the vertex buffer with, by texcoord mode. -/
def vertexCount (g : GlGeomTorus) (calcTexCoords : Bool) : Int :=
  if calcTexCoords then g.GetNumVerticesTexCoords else g.GetNumVerticesNoTexCoords

/-- The resolution ranges of the data model: rings and sides in [3,255]. -/
def ValidResolution (g : GlGeomTorus) : Prop :=
  (3 ≤ g.numRings ∧ g.numRings ≤ 255) ∧ (3 ≤ g.numSides ∧ g.numSides ≤ 255)

instance (g : GlGeomTorus) : Decidable g.ValidResolution := by
  unfold ValidResolution; exact inferInstance

/-- Body of the inner vertex loop of `CalcVboAndEbo` (lines 70-89), including its
step `toPtr += stride`; the state is (`toPtr`, log). -/
def ringVertex (g : GlGeomTorus) (s c sCoord : FExpr) (i : Int)
    (vertNormalOffset vertTexCoordsOffset stride : Int)
    (st : Int × List VboWrite) (j : Int) : Int × List VboWrite :=
  let toPtr := st.1
  let log := st.2
  let tCoord := FExpr.div (FExpr.ofInt j) (FExpr.ofInt g.numSides)
  let phi := FExpr.div (FExpr.mul FExpr.pi2 (FExpr.ofInt (j.tmod g.numSides)))
    (FExpr.ofInt g.numSides)
  let cphi := FExpr.neg (FExpr.cosf phi)
  let sphi := FExpr.neg (FExpr.sinf phi)
  let posPtr := toPtr
  let log := log ++
    [ ⟨Region.tube, i, j, Attr.pos, 0, toPtr, posPtr,
        FExpr.mul s (FExpr.add (FExpr.ofInt 1) (FExpr.mul g.radius cphi))⟩,
      ⟨Region.tube, i, j, Attr.pos, 1, toPtr, posPtr + 1, FExpr.mul g.radius sphi⟩,
      ⟨Region.tube, i, j, Attr.pos, 2, toPtr, posPtr + 2,
        FExpr.mul c (FExpr.add (FExpr.ofInt 1) (FExpr.mul g.radius cphi))⟩ ]
  let log :=
    if vertNormalOffset ≥ 0 then
      let nPtr := toPtr + vertNormalOffset
      log ++
        [ ⟨Region.tube, i, j, Attr.normal, 0, toPtr, nPtr, FExpr.mul s cphi⟩,
          ⟨Region.tube, i, j, Attr.normal, 1, toPtr, nPtr + 1, sphi⟩,
          ⟨Region.tube, i, j, Attr.normal, 2, toPtr, nPtr + 2, FExpr.mul c cphi⟩ ]
    else log
  let log :=
    if vertTexCoordsOffset ≥ 0 then
      let tcPtr := toPtr + vertTexCoordsOffset
      log ++
        [ ⟨Region.tube, i, j, Attr.texcoord, 0, toPtr, tcPtr, sCoord⟩,
          ⟨Region.tube, i, j, Attr.texcoord, 1, toPtr, tcPtr + 1, tCoord⟩ ]
    else log
  (toPtr + stride, log)

/-- Body of the outer vertex loop of `CalcVboAndEbo` (lines 62-90); the state is
(`toPtr`, log). -/
def ringVertices (g : GlGeomTorus) (vertNormalOffset vertTexCoordsOffset stride : Int)
    (st : Int × List VboWrite) (i : Int) : Int × List VboWrite :=
  let calcTexCoords := decide (vertTexCoordsOffset ≥ 0)
  let sCoord := FExpr.div (FExpr.ofInt i) (FExpr.ofInt g.numRings)
  let theta := FExpr.div (FExpr.mul FExpr.pi2 (FExpr.ofInt (i.tmod g.numRings)))
    (FExpr.ofInt g.numRings)
  let c := FExpr.neg (FExpr.cosf theta)
  let s := FExpr.neg (FExpr.sinf theta)
  let stopSides := if calcTexCoords then g.numSides else g.numSides - 1
  forLoop 0 (stopSides + 1)
    (g.ringVertex s c sCoord i vertNormalOffset vertTexCoordsOffset stride) st

/-- The vertex-buffer part of `CalcVboAndEbo` (lines 55-91).  The parameter
`vertPosOffset` is accepted, as in the source, and not used by it. -/
def fillVbo (g : GlGeomTorus)
    (_vertPosOffset vertNormalOffset vertTexCoordsOffset stride : Int) : List VboWrite :=
  let calcTexCoords := decide (vertTexCoordsOffset ≥ 0)
  let stopRings := if calcTexCoords then g.numRings else g.numRings - 1
  (forLoop 0 (stopRings + 1) (g.ringVertices vertNormalOffset vertTexCoordsOffset stride)
    ((0 : Int), ([] : List VboWrite))).2

/-- Body of the inner index loop (lines 101-108). -/
def quadIndices (g : GlGeomTorus) (calcTexCoords : Bool) (leftR rightR : Int)
    (st : EboState) (j : Int) : EboState :=
  let jj := if calcTexCoords then j + 1 else (j + 1).tmod g.numSides
  st.putAll [rightR + j, leftR + jj, leftR + j, rightR + j, rightR + jj, leftR + jj]

/-- Body of the outer index loop (lines 97-109). -/
def ringIndices (g : GlGeomTorus) (calcTexCoords : Bool) (ringDelta : Int)
    (st : EboState) (ii : Int) : EboState :=
  let iii := if calcTexCoords then ii + 1 else (ii + 1).tmod g.numRings
  let leftR := ii * ringDelta
  let rightR := iii * ringDelta
  forLoop 0 g.numSides (g.quadIndices calcTexCoords leftR rightR) st

/-- The index-buffer part of `CalcVboAndEbo` (lines 93-110). -/
def fillEbo (g : GlGeomTorus) (calcTexCoords : Bool) : EboState :=
  let st : EboState := ⟨0, []⟩
  let ringDelta := if calcTexCoords then g.numSides + 1 else g.numSides
  forLoop 0 g.numRings (g.ringIndices calcTexCoords ringDelta) st

/-- `GlGeomTorus::CalcVboAndEbo`.  The result is `none` when the `assert` fails,
and otherwise the stores made into the vertex buffer and into the index buffer. -/
def CalcVboAndEbo (g : GlGeomTorus)
    (vertPosOffset vertNormalOffset vertTexCoordsOffset : Int) (stride : Nat) :
    Option (List VboWrite × EboState) :=
  if vertPosOffset ≥ 0 ∧ stride > 0 then
    let calcTexCoords := decide (vertTexCoordsOffset ≥ 0)
    some (g.fillVbo vertPosOffset vertNormalOffset vertTexCoordsOffset stride,
      g.fillEbo calcTexCoords)
  else none

/-- `GlGeomTorus::RenderSideStrip(j)`: `none` when the `assert` fails, otherwise
`numElts` (the length of the array `sideElts` and the count handed to
`RenderElements`) and the stores made into `sideElts` through `toElt`.
`UseTexCoords()` belongs to `GlGeomBase`, which is not among the sources; its
value is the parameter `useTexCoords`. -/
def RenderSideStrip (g : GlGeomTorus) (useTexCoords : Bool) (j : Int) :
    Option (Int × EboState) :=
  if j ≥ 0 ∧ j < g.numSides then
    let numElts := 2 * (g.numRings + 1)
    let numEltsPerRing := if useTexCoords then g.numSides + 1 else g.numSides
    let delta := if useTexCoords then 1 else ((j + 1).tmod g.numRings) - j
    some (numElts, forLoop 0 (g.numRings + 1) (fun st i =>
      let ii := if useTexCoords then i else i.tmod g.numRings
      let eltA := ii * numEltsPerRing + j
      st.putAll [eltA + delta, eltA]) ⟨0, []⟩)
  else none

end GlGeomTorus

/-! ## Triangle lists

The index stores of the two fills, grouped into triangles.  These lists are
shown below to be what the state-passing code stores, three values per
triangle. -/

/-- The three index values of a triangle, in storing order. -/
def flat3 (t : Int × Int × Int) : List Int := [t.1, t.2.1, t.2.2]

namespace GlGeomCylinder

/-- Triangles stored by one pass of the bottom-disk loop. -/
def bottomTris (g : GlGeomCylinder) (i : Int) : List (Int × Int × Int) :=
  let r := i * g.numRings + 1
  let rightR := ((i + 1).tmod g.numSlices) * g.numRings + 1
  (0, rightR, r) :: (loopRange 0 (g.numRings - 1)).flatMap (fun j =>
    [(r + j, rightR + j, rightR + j + 1), (r + j, rightR + j + 1, r + j + 1)])

/-- Triangles stored by one pass of the top-disk loop. -/
def topTris (g : GlGeomCylinder) (delta : Int) (i : Int) : List (Int × Int × Int) :=
  let r := delta + i * g.numRings + 1
  let leftR := delta + ((i + 1).tmod g.numSlices) * g.numRings + 1
  (delta, r, leftR) :: (loopRange 0 (g.numRings - 1)).flatMap (fun j =>
    [(leftR + j, r + j, r + j + 1), (leftR + j, r + j + 1, leftR + j + 1)])

/-- Triangles stored by one pass of the side loop. -/
def sideTris (g : GlGeomCylinder) (calcTexCoords : Bool) (delta : Int) (i : Int) :
    List (Int × Int × Int) :=
  let r := i * (g.numStacks + 1) + 2 * delta
  let ii := if calcTexCoords then i + 1 else (i + 1).tmod g.numSlices
  let rightR := ii * (g.numStacks + 1) + 2 * delta
  (loopRange 0 g.numStacks).flatMap (fun j =>
    [(rightR + j, r + j + 1, r + j), (rightR + j, rightR + j + 1, r + j + 1)])

/-- Triangles of the bottom-disk block. -/
def bottomBlock (g : GlGeomCylinder) : List (Int × Int × Int) :=
  (loopRange 0 g.numSlices).flatMap g.bottomTris

/-- Triangles of the top-disk block. -/
def topBlock (g : GlGeomCylinder) : List (Int × Int × Int) :=
  (loopRange 0 g.numSlices).flatMap (g.topTris g.GetNumVerticesDisk)

/-- Triangles of the side block. -/
def sideBlock (g : GlGeomCylinder) (calcTexCoords : Bool) : List (Int × Int × Int) :=
  (loopRange 0 g.numSlices).flatMap (g.sideTris calcTexCoords g.GetNumVerticesDisk)

/-- All triangles of the cylinder, in storing order. -/
def tris (g : GlGeomCylinder) (calcTexCoords : Bool) : List (Int × Int × Int) :=
  g.bottomBlock ++ g.topBlock ++ g.sideBlock calcTexCoords

end GlGeomCylinder

namespace GlGeomTorus

/-- The two triangles stored by one pass of the inner index loop. -/
def quadTris (g : GlGeomTorus) (calcTexCoords : Bool) (leftR rightR : Int) (j : Int) :
    List (Int × Int × Int) :=
  let jj := if calcTexCoords then j + 1 else (j + 1).tmod g.numSides
  [(rightR + j, leftR + jj, leftR + j), (rightR + j, rightR + jj, leftR + jj)]

/-- Triangles stored by one pass of the outer index loop. -/
def ringTris (g : GlGeomTorus) (calcTexCoords : Bool) (ringDelta : Int) (ii : Int) :
    List (Int × Int × Int) :=
  let iii := if calcTexCoords then ii + 1 else (ii + 1).tmod g.numRings
  let leftR := ii * ringDelta
  let rightR := iii * ringDelta
  (loopRange 0 g.numSides).flatMap (g.quadTris calcTexCoords leftR rightR)

/-- All triangles of the torus, in storing order. -/
def tris (g : GlGeomTorus) (calcTexCoords : Bool) : List (Int × Int × Int) :=
  (loopRange 0 g.numRings).flatMap
    (g.ringTris calcTexCoords (if calcTexCoords then g.numSides + 1 else g.numSides))

end GlGeomTorus

/-- All three indices of a triangle lie in `[lo, hi)`. -/
def TriIn (lo hi : Int) (t : Int × Int × Int) : Prop :=
  (lo ≤ t.1 ∧ t.1 < hi) ∧ (lo ≤ t.2.1 ∧ t.2.1 < hi) ∧ (lo ≤ t.2.2 ∧ t.2.2 < hi)

/-- The three indices of a triangle are pairwise distinct. -/
def TriDistinct (t : Int × Int × Int) : Prop :=
  t.1 ≠ t.2.1 ∧ t.2.1 ≠ t.2.2 ∧ t.1 ≠ t.2.2

/-! ## Vertex stores, vertex by vertex

The stores that one pass of a vertex loop adds to the log, obtained by running
the loop body of the source on an empty log. -/

/-- The caller-supplied offset of an attribute field within a vertex record. -/
def fieldOffset (vertPosOffset vertNormalOffset vertTexCoordsOffset : Int) : Attr → Int
  | Attr.pos => vertPosOffset
  | Attr.normal => vertNormalOffset
  | Attr.texcoord => vertTexCoordsOffset

namespace GlGeomCylinder

/-- Stores of the call `SetDiscVerts(s*radius, c*radius, i, j, …)` made for slice
`i` and ring `j` by the slice loop. -/
def ringPairWrites (g : GlGeomCylinder)
    (vertPosOffset vertNormalOffset vertTexCoordsOffset stride : Int) (i j : Int) :
    List VboWrite :=
  let theta := FExpr.div (FExpr.mul (FExpr.ofInt (i.tmod g.numSlices)) FExpr.pi2)
    (FExpr.ofInt g.numSlices)
  let c := FExpr.neg (FExpr.cosf theta)
  let s := FExpr.neg (FExpr.sinf theta)
  let radius := FExpr.div (FExpr.ofInt j) (FExpr.ofInt g.numRings)
  g.SetDiscVerts (FExpr.mul s radius) (FExpr.mul c radius) i j
    vertPosOffset vertNormalOffset vertTexCoordsOffset stride []

/-- Stores of the side-vertex loop body for slice `i` and stack `j`, entered with
`basePtr` at offset `basePtr`. -/
def sideWrites (g : GlGeomCylinder)
    (vertPosOffset vertNormalOffset vertTexCoordsOffset stride : Int) (i : Int)
    (basePtr : Int) (j : Int) : List VboWrite :=
  let theta := FExpr.div (FExpr.mul (FExpr.ofInt (i.tmod g.numSlices)) FExpr.pi2)
    (FExpr.ofInt g.numSlices)
  let c := FExpr.neg (FExpr.cosf theta)
  let s := FExpr.neg (FExpr.sinf theta)
  let sCoord := FExpr.div (FExpr.ofInt i) (FExpr.ofInt g.numSlices)
  (g.sideVertex s c sCoord i vertPosOffset vertNormalOffset vertTexCoordsOffset stride
    (basePtr, []) j).2

/-- Stores of one pass of the slice loop. -/
def sliceWrites (g : GlGeomCylinder)
    (vertPosOffset vertNormalOffset vertTexCoordsOffset stride : Int) (i : Int) :
    List VboWrite :=
  (if i < g.numSlices then
      (loopRange 1 (g.numRings + 1)).flatMap
        (g.ringPairWrites vertPosOffset vertNormalOffset vertTexCoordsOffset stride i)
    else []) ++
  (loopRange 0 (g.numStacks + 1)).flatMap (fun j =>
    g.sideWrites vertPosOffset vertNormalOffset vertTexCoordsOffset stride i
      ((2 * g.GetNumVerticesDisk + i * (g.numStacks + 1)) * stride + (j - 0) * stride) j)

end GlGeomCylinder

namespace GlGeomTorus

/-- Stores of the inner vertex loop body for ring `i` and side `j`, entered with
`toPtr` at offset `toPtr`. -/
def vertexWrites (g : GlGeomTorus) (vertNormalOffset vertTexCoordsOffset stride : Int)
    (i : Int) (toPtr : Int) (j : Int) : List VboWrite :=
  let sCoord := FExpr.div (FExpr.ofInt i) (FExpr.ofInt g.numRings)
  let theta := FExpr.div (FExpr.mul FExpr.pi2 (FExpr.ofInt (i.tmod g.numRings)))
    (FExpr.ofInt g.numRings)
  let c := FExpr.neg (FExpr.cosf theta)
  let s := FExpr.neg (FExpr.sinf theta)
  (g.ringVertex s c sCoord i vertNormalOffset vertTexCoordsOffset stride (toPtr, []) j).2

/-- The value of `stopSides + 1`: the number of vertices stored per ring. -/
def sideStride (g : GlGeomTorus) (calcTexCoords : Bool) : Int :=
  (if calcTexCoords then g.numSides else g.numSides - 1) + 1

/-- The value of `stopRings + 1`: the number of rings of vertices stored. -/
def ringCount (g : GlGeomTorus) (calcTexCoords : Bool) : Int :=
  (if calcTexCoords then g.numRings else g.numRings - 1) + 1

end GlGeomTorus

/-! ## Resolution model: constructors and `Remesh` -/

/-- Modelled from the spec: `ClampRange` (declared in `MathMisc.h`) is not among
the sources; by sections 4.1 and 7 an out-of-range value is clamped to the
nearest bound of its valid range and a value within the range is kept. -/
def ClampRange (x lo hi : Int) : Int :=
  if x < lo then lo else if x > hi then hi else x

namespace GlGeomCylinder

/-- The constructor `GlGeomCylinder(int slices, int stacks, int rings)`; the
member initialiser sets `VboEboLoaded` to `false`.  (The default arguments of the
source are `stacks = 1`, `rings = 1`, and `GlGeomCylinder()` is
`GlGeomCylinder(3, 1, 1)`.) -/
def construct (slices stacks' rings : Int) : GlGeomCylinder :=
  { numSlices := slices, numStacks := stacks', numRings := rings, VboEboLoaded := false }

/-- `GlGeomCylinder::Remesh`. -/
def Remesh (g : GlGeomCylinder) (slices stacks' rings : Int) : GlGeomCylinder :=
  if slices = g.numSlices ∧ stacks' = g.numStacks ∧ rings = g.numRings then g
  else
    { numSlices := ClampRange slices 3 255
      numStacks := ClampRange stacks' 1 255
      numRings := ClampRange rings 1 255
      VboEboLoaded := false }

/-- The generator states that a constructor call followed by a sequence of
`Remesh` calls can produce. -/
inductive Reachable : GlGeomCylinder → Prop where
  | init (slices stacks' rings : Int) : Reachable (construct slices stacks' rings)
  | remesh (g : GlGeomCylinder) (slices stacks' rings : Int) :
      Reachable g → Reachable (g.Remesh slices stacks' rings)

end GlGeomCylinder

namespace GlGeomTorus

/-- The constructor `GlGeomTorus(int rings, int sides, float minorRadius)`; the
member initialiser sets `VboEboLoaded` to `false`.  (The default argument of the
source is `minorRadius = 0.5`, and `GlGeomTorus()` is `GlGeomTorus(8, 8)`.) -/
def construct (rings sides : Int) (minorRadius : FExpr) : GlGeomTorus :=
  { numSides := sides, numRings := rings, radius := minorRadius, VboEboLoaded := false }

/-- `GlGeomTorus::Remesh(int rings, int sides, float minorRadius)`.  The outcome of
the comparison `minorRadius == radius` of two `float`s is given by the parameter
`floatEq`. -/
def Remesh (g : GlGeomTorus) (floatEq : FExpr → FExpr → Bool) (rings sides : Int)
    (minorRadius : FExpr) : GlGeomTorus :=
  if sides = g.numSides ∧ rings = g.numRings ∧ floatEq minorRadius g.radius = true then g
  else
    { numSides := ClampRange sides 3 255
      numRings := ClampRange rings 3 255
      radius := minorRadius
      VboEboLoaded := false }

/-- The generator states that a constructor call followed by a sequence of
`Remesh` calls can produce. -/
inductive Reachable (floatEq : FExpr → FExpr → Bool) : GlGeomTorus → Prop where
  | init (rings sides : Int) (minorRadius : FExpr) :
      Reachable floatEq (construct rings sides minorRadius)
  | remesh (g : GlGeomTorus) (rings sides : Int) (minorRadius : FExpr) :
      Reachable floatEq g → Reachable floatEq (g.Remesh floatEq rings sides minorRadius)

/-- `GlGeomTorus::RenderRing(i)`: `none` when the `assert` fails, otherwise the
arguments it hands to `RenderEBO`. -/
def RenderRing (g : GlGeomTorus) (i : Int) : Option EboRange :=
  if i ≥ 0 ∧ i < g.numRings then
    let numElementsPerRing := g.GetNumElementsPerRing
    some { count := numElementsPerRing, start := i * numElementsPerRing }
  else none

end GlGeomTorus

/-- Position `k` of the index buffer lies in the sub-range `r`. -/
def EboRange.covers (r : EboRange) (k : Int) : Prop :=
  r.start ≤ k ∧ k < r.start + r.count

/-- The exact rational value of an expression built without `PI2`, `cosf` and
`sinf` (`none` for the others and for a division by zero).  The IEEE operations
return the exact result rounded, so where the exact value is representable as a
`float`, as 0 and 1 are, it is the value computed. -/
def FExpr.exact : FExpr → Option ℚ
  | FExpr.ofInt n => some (n : ℚ)
  | FExpr.half => some (1 / 2)
  | FExpr.pi2 => none
  | FExpr.neg a => (FExpr.exact a).map (fun x => -x)
  | FExpr.add a b => (FExpr.exact a).bind (fun x => (FExpr.exact b).map (fun y => x + y))
  | FExpr.sub a b => (FExpr.exact a).bind (fun x => (FExpr.exact b).map (fun y => x - y))
  | FExpr.mul a b => (FExpr.exact a).bind (fun x => (FExpr.exact b).map (fun y => x * y))
  | FExpr.div a b =>
    (FExpr.exact a).bind (fun x =>
      (FExpr.exact b).bind (fun y => if y = 0 then none else some (x / y)))
  | FExpr.cosf _ => none
  | FExpr.sinf _ => none

/-! ## Machine-level runs

The definitions above compute the products with `stride` in unbounded integers and
read `%` as the total `Int.tmod`.  The runs below follow the same source lines
with the two effects put in: a product formed in `int` or `unsigned int` is
reduced to 32 bits, and `%` with a zero divisor ends the run.  A run is the
stores made so far together with the abort that ended it, if one did. -/

/-- The ways a call ends without returning: a failed `assert`, or the trap of an
integer `%` whose divisor is zero. -/
inductive Abort where
  | assertion
  | divideByZero
  deriving DecidableEq

/-- A value brought into the range of `int` (32 bits, two's complement): the
conversion of an `unsigned int` argument to an `int` parameter, and the result
of an `int` product that overflows.  The C++ standard leaves the overflow
undefined; the wrap-around is what the compiled multiplication computes. -/
def toInt32 (x : Int) : Int := (x + 2147483648) % 4294967296 - 2147483648

/-- The statement `a % b` on `int`: no value when the divisor is zero. -/
def cmod (a b : Int) : Option Int := if b = 0 then none else some (a.tmod b)

/-- The loop `for (int i = lo; i < hi; i++) body` with a body that can abort:
after an abort no further statement runs. -/
def forLoopT {σ : Type} (lo hi : Int) (body : σ → Int → σ × Option Abort) (st : σ) :
    σ × Option Abort :=
  (List.range (hi - lo).toNat).foldl
    (fun acc (k : Nat) =>
      match acc.2 with
      | none => body acc.1 (lo + (k : Int))
      | some _ => acc)
    (st, none)

/-- What a call of `CalcVboAndEbo` did: the stores made into the vertex buffer and
into the index buffer, and the abort that ended the call (`none`: it returned). -/
structure Run where
  vbo : List VboWrite
  ebo : EboState
  abort : Option Abort
  deriving DecidableEq

namespace GlGeomCylinder

/-- `GlGeomCylinder::SetDiscVerts` with its parameter `int stride`: the products
`stride*(i*numRings + j)` and `GetNumVerticesDisk()*stride` are `int` products. -/
def SetDiscVertsM (g : GlGeomCylinder) (x z : FExpr) (i j : Int)
    (vertPosOffset vertNormalOffset vertTexCoordsOffset stride : Int)
    (log : List VboWrite) : List VboWrite :=
  let basePtrBottom := toInt32 (stride * (i * g.numRings + j))
  let delta := toInt32 (g.GetNumVerticesDisk * stride)
  let vPtrBottom := basePtrBottom + vertPosOffset
  let vPtrTop := vPtrBottom + delta
  let log := log ++
    [ ⟨Region.bottom, i, j, Attr.pos, 0, basePtrBottom, vPtrBottom, x⟩,
      ⟨Region.bottom, i, j, Attr.pos, 1, basePtrBottom, vPtrBottom + 1, FExpr.neg (FExpr.ofInt 1)⟩,
      ⟨Region.bottom, i, j, Attr.pos, 2, basePtrBottom, vPtrBottom + 2, z⟩,
      ⟨Region.top, i, j, Attr.pos, 0, basePtrBottom + delta, vPtrTop, x⟩,
      ⟨Region.top, i, j, Attr.pos, 1, basePtrBottom + delta, vPtrTop + 1, FExpr.ofInt 1⟩,
      ⟨Region.top, i, j, Attr.pos, 2, basePtrBottom + delta, vPtrTop + 2, z⟩ ]
  let log :=
    if vertNormalOffset ≥ 0 then
      let nPtrBottom := basePtrBottom + vertNormalOffset
      let nPtrTop := nPtrBottom + delta
      log ++
        [ ⟨Region.bottom, i, j, Attr.normal, 0, basePtrBottom, nPtrBottom, FExpr.ofInt 0⟩,
          ⟨Region.bottom, i, j, Attr.normal, 1, basePtrBottom, nPtrBottom + 1,
            FExpr.neg (FExpr.ofInt 1)⟩,
          ⟨Region.bottom, i, j, Attr.normal, 2, basePtrBottom, nPtrBottom + 2, FExpr.ofInt 0⟩,
          ⟨Region.top, i, j, Attr.normal, 0, basePtrBottom + delta, nPtrTop, FExpr.ofInt 0⟩,
          ⟨Region.top, i, j, Attr.normal, 1, basePtrBottom + delta, nPtrTop + 1, FExpr.ofInt 1⟩,
          ⟨Region.top, i, j, Attr.normal, 2, basePtrBottom + delta, nPtrTop + 2, FExpr.ofInt 0⟩ ]
    else log
  if vertTexCoordsOffset ≥ 0 then
    let sCoord := FExpr.mul FExpr.half (FExpr.add x (FExpr.ofInt 1))
    let tCoord := FExpr.mul FExpr.half (FExpr.add (FExpr.neg z) (FExpr.ofInt 1))
    let tcPtrBottom := basePtrBottom + vertTexCoordsOffset
    let tcPtrTop := tcPtrBottom + delta
    log ++
      [ ⟨Region.bottom, i, j, Attr.texcoord, 0, basePtrBottom, tcPtrBottom,
          FExpr.sub (FExpr.ofInt 1) sCoord⟩,
        ⟨Region.bottom, i, j, Attr.texcoord, 1, basePtrBottom, tcPtrBottom + 1, tCoord⟩,
        ⟨Region.top, i, j, Attr.texcoord, 0, basePtrBottom + delta, tcPtrTop, sCoord⟩,
        ⟨Region.top, i, j, Attr.texcoord, 1, basePtrBottom + delta, tcPtrTop + 1, tCoord⟩ ]
  else log

/-- Body of the slice loop of the vertex fill (lines 58-90).  `i%numSlices`
(line 60) is its first statement; `SetDiscVerts` receives the `unsigned int stride`
as an `int`; the product `(2*GetNumVerticesDisk() + i*(numStacks + 1))*stride` is
formed in `unsigned int`; the side-vertex loop steps its pointer by `stride` and
is `sideVertex`. -/
def sliceVerticesM (g : GlGeomCylinder)
    (vertPosOffset vertNormalOffset vertTexCoordsOffset : Int) (stride : Nat)
    (log : List VboWrite) (i : Int) : List VboWrite × Option Abort :=
  match cmod i g.numSlices with
  | none => (log, some Abort.divideByZero)
  | some m =>
    let theta := FExpr.div (FExpr.mul (FExpr.ofInt m) FExpr.pi2) (FExpr.ofInt g.numSlices)
    let c := FExpr.neg (FExpr.cosf theta)
    let s := FExpr.neg (FExpr.sinf theta)
    let log :=
      if i < g.numSlices then
        forLoop 1 (g.numRings + 1) (fun log j =>
          let radius := FExpr.div (FExpr.ofInt j) (FExpr.ofInt g.numRings)
          g.SetDiscVertsM (FExpr.mul s radius) (FExpr.mul c radius) i j
            vertPosOffset vertNormalOffset vertTexCoordsOffset (toInt32 stride) log) log
      else log
    let basePtr := ((2 * g.GetNumVerticesDisk + i * (g.numStacks + 1)) * stride) % 4294967296
    let sCoord := FExpr.div (FExpr.ofInt i) (FExpr.ofInt g.numSlices)
    ((forLoop 0 (g.numStacks + 1)
      (g.sideVertex s c sCoord i vertPosOffset vertNormalOffset vertTexCoordsOffset stride)
      (basePtr, log)).2, none)

/-- The vertex-buffer part of `CalcVboAndEbo` (lines 52-91). -/
def fillVboM (g : GlGeomCylinder)
    (vertPosOffset vertNormalOffset vertTexCoordsOffset : Int) (stride : Nat) :
    List VboWrite × Option Abort :=
  let calcTexCoords := decide (vertTexCoordsOffset ≥ 0)
  let log := g.SetDiscVertsM (FExpr.ofInt 0) (FExpr.ofInt 0) 0 0
    vertPosOffset vertNormalOffset vertTexCoordsOffset (toInt32 stride) []
  let stopSlices := if calcTexCoords then g.numSlices else g.numSlices - 1
  forLoopT 0 (stopSlices + 1)
    (g.sliceVerticesM vertPosOffset vertNormalOffset vertTexCoordsOffset stride) log

/-- Body of the bottom-disk index loop (lines 97-110): `(i+1)%numSlices` (line 98)
precedes the stores, which are those of `bottomSlice`. -/
def bottomSliceM (g : GlGeomCylinder) (st : EboState) (i : Int) : EboState × Option Abort :=
  match cmod (i + 1) g.numSlices with
  | none => (st, some Abort.divideByZero)
  | some _ => (g.bottomSlice st i, none)

/-- Body of the top-disk index loop (lines 115-128): `(i + 1) % numSlices`
(line 116) precedes the stores, which are those of `topSlice`. -/
def topSliceM (g : GlGeomCylinder) (delta : Int) (st : EboState) (i : Int) :
    EboState × Option Abort :=
  match cmod (i + 1) g.numSlices with
  | none => (st, some Abort.divideByZero)
  | some _ => (g.topSlice delta st i, none)

/-- Body of the side index loop (lines 132-143): without texture coordinates
`(i + 1) % numSlices` (line 134) precedes the stores, which are those of
`sideSlice`. -/
def sideSliceM (g : GlGeomCylinder) (calcTexCoords : Bool) (delta : Int)
    (st : EboState) (i : Int) : EboState × Option Abort :=
  match (if calcTexCoords then some (i + 1) else cmod (i + 1) g.numSlices) with
  | none => (st, some Abort.divideByZero)
  | some _ => (g.sideSlice calcTexCoords delta st i, none)

/-- The index-buffer part of `CalcVboAndEbo` (lines 93-144). -/
def fillEboM (g : GlGeomCylinder) (calcTexCoords : Bool) : EboState × Option Abort :=
  let st : EboState := ⟨0, []⟩
  let r := forLoopT 0 g.numSlices g.bottomSliceM st
  match r.2 with
  | some a => (r.1, some a)
  | none =>
    let delta := g.GetNumVerticesDisk
    let r := forLoopT 0 g.numSlices (g.topSliceM delta) r.1
    match r.2 with
    | some a => (r.1, some a)
    | none => forLoopT 0 g.numSlices (g.sideSliceM calcTexCoords delta) r.1

/-- `GlGeomCylinder::CalcVboAndEbo` as a run: the `assert` is its first statement,
the vertex fill and the index fill follow. -/
def CalcVboAndEboM (g : GlGeomCylinder)
    (vertPosOffset vertNormalOffset vertTexCoordsOffset : Int) (stride : Nat) : Run :=
  if vertPosOffset ≥ 0 ∧ stride > 0 then
    let calcTexCoords := decide (vertTexCoordsOffset ≥ 0)
    let v := g.fillVboM vertPosOffset vertNormalOffset vertTexCoordsOffset stride
    match v.2 with
    | some a => { vbo := v.1, ebo := ⟨0, []⟩, abort := some a }
    | none =>
      let e := g.fillEboM calcTexCoords
      { vbo := v.1, ebo := e.1, abort := e.2 }
  else { vbo := [], ebo := ⟨0, []⟩, abort := some Abort.assertion }

end GlGeomCylinder

namespace GlGeomTorus

/-- Body of the inner vertex loop of `CalcVboAndEbo` (lines 70-89): `j % numSides`
(line 72) precedes the stores, which are those of `ringVertex`. -/
def ringVertexM (g : GlGeomTorus) (s c sCoord : FExpr) (i : Int)
    (vertNormalOffset vertTexCoordsOffset stride : Int)
    (st : Int × List VboWrite) (j : Int) : (Int × List VboWrite) × Option Abort :=
  match cmod j g.numSides with
  | none => (st, some Abort.divideByZero)
  | some _ => (g.ringVertex s c sCoord i vertNormalOffset vertTexCoordsOffset stride st j, none)

/-- Body of the outer vertex loop of `CalcVboAndEbo` (lines 62-90): `i % numRings`
(line 65) precedes the inner loop. -/
def ringVerticesM (g : GlGeomTorus) (vertNormalOffset vertTexCoordsOffset stride : Int)
    (st : Int × List VboWrite) (i : Int) : (Int × List VboWrite) × Option Abort :=
  let calcTexCoords := decide (vertTexCoordsOffset ≥ 0)
  let sCoord := FExpr.div (FExpr.ofInt i) (FExpr.ofInt g.numRings)
  match cmod i g.numRings with
  | none => (st, some Abort.divideByZero)
  | some m =>
    let theta := FExpr.div (FExpr.mul FExpr.pi2 (FExpr.ofInt m)) (FExpr.ofInt g.numRings)
    let c := FExpr.neg (FExpr.cosf theta)
    let s := FExpr.neg (FExpr.sinf theta)
    let stopSides := if calcTexCoords then g.numSides else g.numSides - 1
    forLoopT 0 (stopSides + 1)
      (g.ringVertexM s c sCoord i vertNormalOffset vertTexCoordsOffset stride) st

/-- The vertex-buffer part of `CalcVboAndEbo` (lines 55-91); `toPtr` advances by
pointer arithmetic only. -/
def fillVboM (g : GlGeomTorus)
    (_vertPosOffset vertNormalOffset vertTexCoordsOffset : Int) (stride : Nat) :
    List VboWrite × Option Abort :=
  let calcTexCoords := decide (vertTexCoordsOffset ≥ 0)
  let stopRings := if calcTexCoords then g.numRings else g.numRings - 1
  let r := forLoopT 0 (stopRings + 1)
    (g.ringVerticesM vertNormalOffset vertTexCoordsOffset stride)
    ((0 : Int), ([] : List VboWrite))
  (r.1.2, r.2)

/-- Body of the inner index loop (lines 101-108): without texture coordinates
`(j + 1) % numSides` (line 102) precedes the stores, which are those of
`quadIndices`. -/
def quadIndicesM (g : GlGeomTorus) (calcTexCoords : Bool) (leftR rightR : Int)
    (st : EboState) (j : Int) : EboState × Option Abort :=
  match (if calcTexCoords then some (j + 1) else cmod (j + 1) g.numSides) with
  | none => (st, some Abort.divideByZero)
  | some _ => (g.quadIndices calcTexCoords leftR rightR st j, none)

/-- Body of the outer index loop (lines 97-109): without texture coordinates
`(ii + 1) % numRings` (line 98) precedes the inner loop. -/
def ringIndicesM (g : GlGeomTorus) (calcTexCoords : Bool) (ringDelta : Int)
    (st : EboState) (ii : Int) : EboState × Option Abort :=
  match (if calcTexCoords then some (ii + 1) else cmod (ii + 1) g.numRings) with
  | none => (st, some Abort.divideByZero)
  | some iii =>
    let leftR := ii * ringDelta
    let rightR := iii * ringDelta
    forLoopT 0 g.numSides (g.quadIndicesM calcTexCoords leftR rightR) st

/-- The index-buffer part of `CalcVboAndEbo` (lines 93-110). -/
def fillEboM (g : GlGeomTorus) (calcTexCoords : Bool) : EboState × Option Abort :=
  let st : EboState := ⟨0, []⟩
  let ringDelta := if calcTexCoords then g.numSides + 1 else g.numSides
  forLoopT 0 g.numRings (g.ringIndicesM calcTexCoords ringDelta) st

/-- `GlGeomTorus::CalcVboAndEbo` as a run: the `assert` is its first statement, the
vertex fill and the index fill follow. -/
def CalcVboAndEboM (g : GlGeomTorus)
    (vertPosOffset vertNormalOffset vertTexCoordsOffset : Int) (stride : Nat) : Run :=
  if vertPosOffset ≥ 0 ∧ stride > 0 then
    let calcTexCoords := decide (vertTexCoordsOffset ≥ 0)
    let v := g.fillVboM vertPosOffset vertNormalOffset vertTexCoordsOffset stride
    match v.2 with
    | some a => { vbo := v.1, ebo := ⟨0, []⟩, abort := some a }
    | none =>
      let e := g.fillEboM calcTexCoords
      { vbo := v.1, ebo := e.1, abort := e.2 }
  else { vbo := [], ebo := ⟨0, []⟩, abort := some Abort.assertion }

end GlGeomTorus

/-! ## Theorems -/

/-! ### Loops, the index cursor, and the triangle lists of the two fills -/

theorem toUnsigned_cast (v : Int) (h0 : 0 ≤ v) (h1 : v < 4294967296) :
    ((toUnsigned v : Nat) : Int) = v := by
  unfold toUnsigned
  omega

theorem tmod_succ (i n : Int) (h0 : 0 ≤ i) (h1 : i < n) :
    ((i + 1).tmod n = i + 1 ∧ i + 1 < n) ∨ ((i + 1).tmod n = 0 ∧ i + 1 = n) := by
  rw [Int.tmod_eq_emod (by omega) (by omega)]
  rcases lt_or_le (i + 1) n with h | h
  · left; exact ⟨Int.emod_eq_of_lt (by omega) h, h⟩
  · right
    have : i + 1 = n := by omega
    exact ⟨by rw [this]; exact Int.emod_self, this⟩

theorem mem_loopRange (lo hi i : Int) : i ∈ loopRange lo hi ↔ lo ≤ i ∧ i < hi := by
  unfold loopRange
  simp only [List.mem_map, List.mem_range]
  constructor
  · rintro ⟨k, hk, rfl⟩
    omega
  · rintro ⟨h1, h2⟩
    exact ⟨(i - lo).toNat, by omega, by omega⟩

theorem length_loopRange (lo hi : Int) : (loopRange lo hi).length = (hi - lo).toNat := by
  unfold loopRange
  rw [List.length_map, List.length_range]

theorem putAll_append (st : EboState) (a b : List Int) :
    (st.putAll a).putAll b = st.putAll (a ++ b) := by
  simp [EboState.putAll, List.foldl_append]

theorem putAll_eboPtr (vs : List Int) (st : EboState) :
    (st.putAll vs).eboPtr = st.eboPtr + vs.length := by
  induction vs generalizing st with
  | nil => rfl
  | cons v vs ih =>
    show ((st.put v).putAll vs).eboPtr = _
    rw [ih]
    simp [EboState.put]
    omega

theorem putAll_written (vs : List Int) (st : EboState) :
    (st.putAll vs).written =
      st.written ++ List.zip (List.range' st.eboPtr vs.length) (vs.map toUnsigned) := by
  induction vs generalizing st with
  | nil => simp [EboState.putAll]
  | cons v vs ih =>
    show ((st.put v).putAll vs).written = _
    rw [ih]
    simp [EboState.put, List.range'_succ]

theorem forLoop_putAll (lo hi : Int) (body : EboState → Int → EboState) (f : Int → List Int)
    (h : ∀ s i, body s i = s.putAll (f i)) (st : EboState) :
    forLoop lo hi body st = st.putAll ((loopRange lo hi).flatMap f) := by
  unfold forLoop loopRange
  generalize List.range (hi - lo).toNat = l
  induction l generalizing st with
  | nil => rfl
  | cons k l ih =>
    simp only [List.foldl_cons, List.map_cons, List.flatMap_cons]
    rw [ih, h, putAll_append]

theorem length_flatMap_const {α β : Type} (l : List α) (f : α → List β) (c : Nat)
    (h : ∀ x ∈ l, (f x).length = c) : (l.flatMap f).length = l.length * c := by
  induction l with
  | nil => simp
  | cons a l ih =>
    simp only [List.flatMap_cons, List.length_append, List.length_cons]
    rw [ih (fun x hx => h x (List.mem_cons_of_mem _ hx)), h a (List.mem_cons_self _ _)]
    ring

theorem flatMap_flatMap {α β γ : Type} (l : List α) (f : α → List β) (g : β → List γ) :
    (l.flatMap f).flatMap g = l.flatMap (fun x => (f x).flatMap g) := by
  induction l with
  | nil => rfl
  | cons a l ih => simp [List.flatMap_cons, List.flatMap_append, ih]

namespace GlGeomCylinder

theorem bottomSlice_eq (g : GlGeomCylinder) (st : EboState) (i : Int) :
    g.bottomSlice st i = st.putAll ((g.bottomTris i).flatMap flat3) := by
  unfold bottomSlice bottomTris
  simp only []
  rw [forLoop_putAll 0 (g.numRings - 1) _ _ (fun _ _ => rfl), putAll_append,
    List.flatMap_cons, flatMap_flatMap]
  rfl

theorem topSlice_eq (g : GlGeomCylinder) (delta : Int) (st : EboState) (i : Int) :
    g.topSlice delta st i = st.putAll ((g.topTris delta i).flatMap flat3) := by
  unfold topSlice topTris
  simp only []
  rw [forLoop_putAll 0 (g.numRings - 1) _ _ (fun _ _ => rfl), putAll_append,
    List.flatMap_cons, flatMap_flatMap]
  rfl

theorem sideSlice_eq (g : GlGeomCylinder) (tc : Bool) (delta : Int) (st : EboState) (i : Int) :
    g.sideSlice tc delta st i = st.putAll ((g.sideTris tc delta i).flatMap flat3) := by
  unfold sideSlice sideTris
  simp only []
  rw [forLoop_putAll 0 g.numStacks _ _ (fun _ _ => rfl), flatMap_flatMap]
  rfl

theorem cylFillEbo_eq (g : GlGeomCylinder) (tc : Bool) :
    g.fillEbo tc = EboState.putAll ⟨0, []⟩ ((g.tris tc).flatMap flat3) := by
  unfold fillEbo tris bottomBlock topBlock sideBlock
  simp only []
  rw [forLoop_putAll 0 g.numSlices _ _ (fun s i => g.bottomSlice_eq s i),
    forLoop_putAll 0 g.numSlices _ _ (fun s i => g.topSlice_eq _ s i),
    forLoop_putAll 0 g.numSlices _ _ (fun s i => g.sideSlice_eq tc _ s i),
    putAll_append, putAll_append, List.flatMap_append, List.flatMap_append,
    flatMap_flatMap, flatMap_flatMap, flatMap_flatMap, List.append_assoc]

end GlGeomCylinder

namespace GlGeomTorus

theorem ringIndices_eq (g : GlGeomTorus) (tc : Bool) (ringDelta : Int) (st : EboState)
    (ii : Int) :
    g.ringIndices tc ringDelta st ii = st.putAll ((g.ringTris tc ringDelta ii).flatMap flat3) := by
  unfold ringIndices ringTris
  simp only []
  rw [forLoop_putAll 0 g.numSides (g.quadIndices tc _ _)
    (fun j => (g.quadTris tc (ii * ringDelta)
      ((if tc = true then ii + 1 else (ii + 1).tmod g.numRings) * ringDelta) j).flatMap flat3)
    (fun _ _ => rfl), flatMap_flatMap]

theorem torFillEbo_eq (g : GlGeomTorus) (tc : Bool) :
    g.fillEbo tc = EboState.putAll ⟨0, []⟩ ((g.tris tc).flatMap flat3) := by
  unfold fillEbo tris
  simp only []
  rw [forLoop_putAll 0 g.numRings _ _ (fun s i => g.ringIndices_eq tc _ s i), flatMap_flatMap]

end GlGeomTorus

/-! ### Range and distinctness of the triangles, block by block -/

namespace GlGeomCylinder

theorem bottomBlock_ok (g : GlGeomCylinder) (hv : g.ValidResolution) :
    ∀ t ∈ g.bottomBlock, TriIn 0 g.GetNumVerticesDisk t ∧ TriDistinct t := by
  obtain ⟨⟨hS3, hS⟩, ⟨hT1, hT⟩, ⟨hR1, hR⟩⟩ := hv
  intro t ht
  unfold bottomBlock at ht
  rw [List.mem_flatMap] at ht
  obtain ⟨i, hi, ht⟩ := ht
  rw [mem_loopRange] at hi
  obtain ⟨hi0, hi1⟩ := hi
  unfold bottomTris at ht
  simp only [List.mem_cons, List.mem_flatMap, mem_loopRange, List.mem_singleton,
    List.not_mem_nil, or_false] at ht
  have hP0 : 0 ≤ i * g.numRings := mul_nonneg hi0 (by omega)
  have hP1 : i * g.numRings + g.numRings ≤ g.numSlices * g.numRings := by nlinarith
  have hP2 : 3 * g.numRings ≤ g.numSlices * g.numRings := by nlinarith
  unfold GetNumVerticesDisk TriIn TriDistinct
  rcases tmod_succ i g.numSlices hi0 hi1 with ⟨hm, hlt⟩ | ⟨hm, heq⟩
  · rw [hm] at ht
    have hP3 : i * g.numRings + 2 * g.numRings ≤ g.numSlices * g.numRings := by nlinarith
    rcases ht with rfl | ⟨j, ⟨hj0, hj1⟩, rfl | rfl⟩ <;>
    · dsimp only
      refine ⟨⟨⟨?_, ?_⟩, ⟨?_, ?_⟩, ⟨?_, ?_⟩⟩, ?_, ?_, ?_⟩ <;> linarith
  · rw [hm] at ht
    have hi2 : i = g.numSlices - 1 := by omega
    subst hi2
    rcases ht with rfl | ⟨j, ⟨hj0, hj1⟩, rfl | rfl⟩ <;>
    · dsimp only
      refine ⟨⟨⟨?_, ?_⟩, ⟨?_, ?_⟩, ⟨?_, ?_⟩⟩, ?_, ?_, ?_⟩ <;> linarith

theorem topBlock_ok (g : GlGeomCylinder) (hv : g.ValidResolution) :
    ∀ t ∈ g.topBlock,
      TriIn g.GetNumVerticesDisk (2 * g.GetNumVerticesDisk) t ∧ TriDistinct t := by
  obtain ⟨⟨hS3, hS⟩, ⟨hT1, hT⟩, ⟨hR1, hR⟩⟩ := hv
  intro t ht
  unfold topBlock at ht
  rw [List.mem_flatMap] at ht
  obtain ⟨i, hi, ht⟩ := ht
  rw [mem_loopRange] at hi
  obtain ⟨hi0, hi1⟩ := hi
  unfold topTris at ht
  simp only [List.mem_cons, List.mem_flatMap, mem_loopRange, List.mem_singleton,
    List.not_mem_nil, or_false] at ht
  have hP0 : 0 ≤ i * g.numRings := mul_nonneg hi0 (by omega)
  have hP1 : i * g.numRings + g.numRings ≤ g.numSlices * g.numRings := by nlinarith
  have hP2 : 3 * g.numRings ≤ g.numSlices * g.numRings := by nlinarith
  unfold GetNumVerticesDisk at ht ⊢
  unfold TriIn TriDistinct
  rcases tmod_succ i g.numSlices hi0 hi1 with ⟨hm, hlt⟩ | ⟨hm, heq⟩
  · rw [hm] at ht
    have hP3 : i * g.numRings + 2 * g.numRings ≤ g.numSlices * g.numRings := by nlinarith
    rcases ht with rfl | ⟨j, ⟨hj0, hj1⟩, rfl | rfl⟩ <;>
    · dsimp only
      refine ⟨⟨⟨?_, ?_⟩, ⟨?_, ?_⟩, ⟨?_, ?_⟩⟩, ?_, ?_, ?_⟩ <;> linarith
  · rw [hm] at ht
    have hi2 : i = g.numSlices - 1 := by omega
    subst hi2
    rcases ht with rfl | ⟨j, ⟨hj0, hj1⟩, rfl | rfl⟩ <;>
    · dsimp only
      refine ⟨⟨⟨?_, ?_⟩, ⟨?_, ?_⟩, ⟨?_, ?_⟩⟩, ?_, ?_, ?_⟩ <;> linarith

theorem sideBlock_ok (g : GlGeomCylinder) (hv : g.ValidResolution) (tc : Bool) :
    ∀ t ∈ g.sideBlock tc,
      TriIn (2 * g.GetNumVerticesDisk) (g.vertexCount tc) t ∧ TriDistinct t := by
  obtain ⟨⟨hS3, hS⟩, ⟨hT1, hT⟩, ⟨hR1, hR⟩⟩ := hv
  intro t ht
  unfold sideBlock at ht
  rw [List.mem_flatMap] at ht
  obtain ⟨i, hi, ht⟩ := ht
  rw [mem_loopRange] at hi
  obtain ⟨hi0, hi1⟩ := hi
  unfold sideTris at ht
  simp only [List.mem_cons, List.mem_flatMap, mem_loopRange, List.mem_singleton,
    List.not_mem_nil, or_false] at ht
  obtain ⟨j, ⟨hj0, hj1⟩, ht⟩ := ht
  have hP0 : 0 ≤ i * g.numStacks := mul_nonneg hi0 (by omega)
  have hP1 : i * g.numStacks + g.numStacks ≤ g.numSlices * g.numStacks := by nlinarith
  have hP2 : 3 * g.numStacks ≤ g.numSlices * g.numStacks := by nlinarith
  unfold vertexCount GetNumVerticesTexCoords GetNumVerticesNoTexCoords
    GetNumVerticesSideTexCoords GetNumVerticesSideNoTexCoords
  unfold TriIn TriDistinct
  cases tc with
  | true =>
    simp only [if_true] at ht ⊢
    rcases ht with rfl | rfl <;>
    · dsimp only
      refine ⟨⟨⟨?_, ?_⟩, ⟨?_, ?_⟩, ⟨?_, ?_⟩⟩, ?_, ?_, ?_⟩ <;> linarith
  | false =>
    simp only [Bool.false_eq_true, if_false] at ht ⊢
    rcases tmod_succ i g.numSlices hi0 hi1 with ⟨hm, hlt⟩ | ⟨hm, heq⟩
    · rw [hm] at ht
      have hP3 : i * g.numStacks + 2 * g.numStacks ≤ g.numSlices * g.numStacks := by nlinarith
      rcases ht with rfl | rfl <;>
      · dsimp only
        refine ⟨⟨⟨?_, ?_⟩, ⟨?_, ?_⟩, ⟨?_, ?_⟩⟩, ?_, ?_, ?_⟩ <;> linarith
    · rw [hm] at ht
      have hi2 : i = g.numSlices - 1 := by omega
      subst hi2
      rcases ht with rfl | rfl <;>
      · dsimp only
        refine ⟨⟨⟨?_, ?_⟩, ⟨?_, ?_⟩, ⟨?_, ?_⟩⟩, ?_, ?_, ?_⟩ <;> linarith

end GlGeomCylinder

namespace GlGeomTorus

theorem torTris_ok (g : GlGeomTorus) (hv : g.ValidResolution) (tc : Bool) :
    ∀ t ∈ g.tris tc, TriIn 0 (g.vertexCount tc) t ∧ TriDistinct t := by
  obtain ⟨⟨hR3, hR⟩, ⟨hS3, hS⟩⟩ := hv
  intro t ht
  unfold tris at ht
  rw [List.mem_flatMap] at ht
  obtain ⟨i, hi, ht⟩ := ht
  rw [mem_loopRange] at hi
  obtain ⟨hi0, hi1⟩ := hi
  unfold ringTris quadTris at ht
  simp only [List.mem_cons, List.mem_flatMap, mem_loopRange, List.mem_singleton,
    List.not_mem_nil, or_false] at ht
  obtain ⟨j, ⟨hj0, hj1⟩, ht⟩ := ht
  have hP0 : 0 ≤ i * g.numSides := mul_nonneg hi0 (by omega)
  have hP1 : i * g.numSides + g.numSides ≤ g.numRings * g.numSides := by nlinarith
  have hP2 : 3 * g.numSides ≤ g.numRings * g.numSides := by nlinarith
  unfold vertexCount GetNumVerticesTexCoords GetNumVerticesNoTexCoords
  unfold TriIn TriDistinct
  cases tc with
  | true =>
    simp only [if_true] at ht ⊢
    rcases ht with rfl | rfl <;>
    · dsimp only
      refine ⟨⟨⟨?_, ?_⟩, ⟨?_, ?_⟩, ⟨?_, ?_⟩⟩, ?_, ?_, ?_⟩ <;> linarith
  | false =>
    simp only [Bool.false_eq_true, if_false] at ht ⊢
    rcases tmod_succ i g.numRings hi0 hi1 with ⟨hm, hlt⟩ | ⟨hm, heq⟩ <;>
    rcases tmod_succ j g.numSides hj0 hj1 with ⟨hn, hlt2⟩ | ⟨hn, heq2⟩
    · rw [hm, hn] at ht
      have hP3 : i * g.numSides + 2 * g.numSides ≤ g.numRings * g.numSides := by nlinarith
      rcases ht with rfl | rfl <;>
      · dsimp only
        refine ⟨⟨⟨?_, ?_⟩, ⟨?_, ?_⟩, ⟨?_, ?_⟩⟩, ?_, ?_, ?_⟩ <;> linarith
    · rw [hm, hn] at ht
      have hP3 : i * g.numSides + 2 * g.numSides ≤ g.numRings * g.numSides := by nlinarith
      rcases ht with rfl | rfl <;>
      · dsimp only
        refine ⟨⟨⟨?_, ?_⟩, ⟨?_, ?_⟩, ⟨?_, ?_⟩⟩, ?_, ?_, ?_⟩ <;> linarith
    · rw [hm, hn] at ht
      have hi2 : i = g.numRings - 1 := by omega
      subst hi2
      rcases ht with rfl | rfl <;>
      · dsimp only
        refine ⟨⟨⟨?_, ?_⟩, ⟨?_, ?_⟩, ⟨?_, ?_⟩⟩, ?_, ?_, ?_⟩ <;> linarith
    · rw [hm, hn] at ht
      have hi2 : i = g.numRings - 1 := by omega
      subst hi2
      rcases ht with rfl | rfl <;>
      · dsimp only
        refine ⟨⟨⟨?_, ?_⟩, ⟨?_, ?_⟩, ⟨?_, ?_⟩⟩, ?_, ?_, ?_⟩ <;> linarith

end GlGeomTorus

/-! ### From triangle lists to the stores of the index buffer -/

theorem written_init (vals : List Int) :
    (EboState.putAll ⟨0, []⟩ vals).written =
      List.zip (List.range vals.length) (vals.map toUnsigned) := by
  rw [putAll_written]
  simp [List.range_eq_range']

theorem written_fst (vals : List Int) :
    (EboState.putAll ⟨0, []⟩ vals).written.map Prod.fst = List.range vals.length := by
  rw [written_init, List.map_fst_zip]
  simp

theorem written_length (vals : List Int) :
    (EboState.putAll ⟨0, []⟩ vals).written.length = vals.length := by
  rw [written_init]
  simp

theorem written_get (vals : List Int) (n : Nat) (v : Int) (h : vals[n]? = some v) :
    (EboState.putAll ⟨0, []⟩ vals).written[n]? = some (n, toUnsigned v) := by
  rw [written_init, List.getElem?_zip_eq_some]
  have hn : n < vals.length := by
    rcases Nat.lt_or_ge n vals.length with h1 | h1
    · exact h1
    · rw [List.getElem?_eq_none h1] at h
      cases h
  constructor
  · rw [List.getElem?_range hn]
  · rw [List.getElem?_map, h]
    rfl

theorem written_mem (vals : List Int) (e : Nat × Nat)
    (he : e ∈ (EboState.putAll ⟨0, []⟩ vals).written) : ∃ v ∈ vals, e.2 = toUnsigned v := by
  rw [written_init] at he
  obtain ⟨a, b⟩ := e
  have h := (List.of_mem_zip he).2
  rw [List.mem_map] at h
  obtain ⟨v, hv, rfl⟩ := h
  exact ⟨v, hv, rfl⟩

theorem length_flat3 (ts : List (Int × Int × Int)) :
    (ts.flatMap flat3).length = ts.length * 3 :=
  length_flatMap_const ts flat3 3 (fun _ _ => rfl)

theorem flat3_get (ts : List (Int × Int × Int)) (k : Nat) (t : Int × Int × Int)
    (h : ts[k]? = some t) :
    (ts.flatMap flat3)[3 * k]? = some t.1 ∧ (ts.flatMap flat3)[3 * k + 1]? = some t.2.1 ∧
      (ts.flatMap flat3)[3 * k + 2]? = some t.2.2 := by
  induction ts generalizing k with
  | nil => simp at h
  | cons a ts ih =>
    cases k with
    | zero =>
      simp only [List.getElem?_cons_zero, Option.some.injEq] at h
      subst h
      simp [List.flatMap_cons, flat3]
    | succ k =>
      simp only [List.getElem?_cons_succ] at h
      have h3 : 3 * (k + 1) = 3 * k + 1 + 1 + 1 := by ring
      simpa [List.flatMap_cons, flat3, h3] using ih k h

theorem mem_flat3 (ts : List (Int × Int × Int)) (v : Int) (h : v ∈ ts.flatMap flat3) :
    ∃ t ∈ ts, v = t.1 ∨ v = t.2.1 ∨ v = t.2.2 := by
  rw [List.mem_flatMap] at h
  obtain ⟨t, ht, hv⟩ := h
  refine ⟨t, ht, ?_⟩
  simpa [flat3] using hv

theorem TriIn.mono {lo hi lo' hi' : Int} {t : Int × Int × Int} (h : TriIn lo hi t)
    (h1 : lo' ≤ lo) (h2 : hi ≤ hi') : TriIn lo' hi' t := by
  unfold TriIn at *
  omega

namespace GlGeomCylinder

theorem cylVertexCount_bounds (g : GlGeomCylinder) (hv : g.ValidResolution) (tc : Bool) :
    0 < g.GetNumVerticesDisk ∧ 2 * g.GetNumVerticesDisk < g.vertexCount tc ∧
      g.vertexCount tc < 4294967296 := by
  obtain ⟨⟨hS3, hS⟩, ⟨hT1, hT⟩, ⟨hR1, hR⟩⟩ := hv
  unfold vertexCount GetNumVerticesTexCoords GetNumVerticesNoTexCoords
    GetNumVerticesSideTexCoords GetNumVerticesSideNoTexCoords GetNumVerticesDisk
  have h1 : 0 < g.numRings * g.numSlices := by positivity
  have h2 : g.numRings * g.numSlices ≤ 255 * 255 := by nlinarith
  have h3 : 0 < g.numStacks * g.numSlices := by positivity
  have h4 : g.numStacks * g.numSlices ≤ 255 * 255 := by nlinarith
  cases tc <;> simp only [Bool.false_eq_true, if_true, if_false] <;>
    refine ⟨?_, ?_, ?_⟩ <;> linarith

theorem cylTris_ok (g : GlGeomCylinder) (hv : g.ValidResolution) (tc : Bool) :
    ∀ t ∈ g.tris tc, TriIn 0 (g.vertexCount tc) t ∧ TriDistinct t := by
  obtain ⟨hD, hD2, -⟩ := g.cylVertexCount_bounds hv tc
  intro t ht
  unfold tris at ht
  rw [List.mem_append, List.mem_append] at ht
  rcases ht with (ht | ht) | ht
  · exact ⟨(g.bottomBlock_ok hv t ht).1.mono (le_refl _) (by omega), (g.bottomBlock_ok hv t ht).2⟩
  · exact ⟨(g.topBlock_ok hv t ht).1.mono (by omega) (by omega), (g.topBlock_ok hv t ht).2⟩
  · exact ⟨(g.sideBlock_ok hv tc t ht).1.mono (by omega) (le_refl _), (g.sideBlock_ok hv tc t ht).2⟩

end GlGeomCylinder

namespace GlGeomTorus

theorem torVertexCount_bounds (g : GlGeomTorus) (hv : g.ValidResolution) (tc : Bool) :
    0 < g.vertexCount tc ∧ g.vertexCount tc < 4294967296 := by
  obtain ⟨⟨hR3, hR⟩, ⟨hS3, hS⟩⟩ := hv
  unfold vertexCount GetNumVerticesTexCoords GetNumVerticesNoTexCoords
  have h1 : 0 < g.numRings * g.numSides := by positivity
  have h2 : g.numRings * g.numSides ≤ 255 * 255 := by nlinarith
  cases tc <;> simp only [Bool.false_eq_true, if_true, if_false] <;>
    refine ⟨?_, ?_⟩ <;> linarith

end GlGeomTorus

/-- Index values of a fill whose triangles all lie below `n`: every stored value
is below `n`. -/
theorem written_lt_of_tris (ts : List (Int × Int × Int)) (n : Int) (hn : n < 4294967296)
    (h : ∀ t ∈ ts, TriIn 0 n t) :
    ∀ e ∈ (EboState.putAll ⟨0, []⟩ (ts.flatMap flat3)).written, ((e.2 : Nat) : Int) < n := by
  intro e he
  obtain ⟨v, hv, hev⟩ := written_mem _ e he
  obtain ⟨t, ht, hvt⟩ := mem_flat3 ts v hv
  have hin := h t ht
  unfold TriIn at hin
  have hv0 : 0 ≤ v ∧ v < n := by
    rcases hvt with rfl | rfl | rfl <;> omega
  rw [hev, toUnsigned_cast v hv0.1 (by omega)]
  exact hv0.2

/-- Consecutive triples of a fill whose triangles are non-degenerate and within
the 32-bit range: the three stored values are pairwise distinct. -/
theorem written_triples (ts : List (Int × Int × Int)) (n : Int) (hn : n < 4294967296)
    (h : ∀ t ∈ ts, TriIn 0 n t ∧ TriDistinct t) (k : Nat) (hk : k < ts.length) :
    ∃ a b c : Nat,
      (EboState.putAll ⟨0, []⟩ (ts.flatMap flat3)).written[3 * k]? = some (3 * k, a) ∧
      (EboState.putAll ⟨0, []⟩ (ts.flatMap flat3)).written[3 * k + 1]? = some (3 * k + 1, b) ∧
      (EboState.putAll ⟨0, []⟩ (ts.flatMap flat3)).written[3 * k + 2]? = some (3 * k + 2, c) ∧
      a ≠ b ∧ b ≠ c ∧ a ≠ c := by
  have hget : ts[k]? = some ts[k] := List.getElem?_eq_getElem hk
  obtain ⟨h1, h2, h3⟩ := flat3_get ts k ts[k] hget
  obtain ⟨hin, hd⟩ := h ts[k] (List.getElem_mem hk)
  unfold TriIn at hin
  unfold TriDistinct at hd
  refine ⟨_, _, _, written_get _ _ _ h1, written_get _ _ _ h2, written_get _ _ _ h3, ?_, ?_, ?_⟩
  · intro he
    have := congrArg (fun x : Nat => (x : Int)) he
    simp only [] at this
    rw [toUnsigned_cast _ (by omega) (by omega), toUnsigned_cast _ (by omega) (by omega)] at this
    exact hd.1 this
  · intro he
    have := congrArg (fun x : Nat => (x : Int)) he
    simp only [] at this
    rw [toUnsigned_cast _ (by omega) (by omega), toUnsigned_cast _ (by omega) (by omega)] at this
    exact hd.2.1 this
  · intro he
    have := congrArg (fun x : Nat => (x : Int)) he
    simp only [] at this
    rw [toUnsigned_cast _ (by omega) (by omega), toUnsigned_cast _ (by omega) (by omega)] at this
    exact hd.2.2 this

/-! ### Index counts, index bounds, non-degenerate triangles -/

namespace GlGeomCylinder

theorem cylTris_length (g : GlGeomCylinder) (hv : g.ValidResolution) (tc : Bool) :
    (((g.tris tc).length : Nat) : Int) * 3 = g.GetNumElements := by
  obtain ⟨⟨hS3, hS⟩, ⟨hT1, hT⟩, ⟨hR1, hR⟩⟩ := hv
  have hb : g.bottomBlock.length = g.numSlices.toNat * (1 + (g.numRings - 1).toNat * 2) := by
    unfold bottomBlock
    rw [length_flatMap_const _ _ (1 + (g.numRings - 1).toNat * 2), length_loopRange]
    · simp
    · intro i _
      unfold bottomTris
      simp only [List.length_cons]
      rw [length_flatMap_const _ _ 2]
      · rw [length_loopRange]
        simp
        omega
      · intro _ _
        rfl
  have ht : g.topBlock.length = g.numSlices.toNat * (1 + (g.numRings - 1).toNat * 2) := by
    unfold topBlock
    rw [length_flatMap_const _ _ (1 + (g.numRings - 1).toNat * 2), length_loopRange]
    · simp
    · intro i _
      unfold topTris
      simp only [List.length_cons]
      rw [length_flatMap_const _ _ 2]
      · rw [length_loopRange]
        simp
        omega
      · intro _ _
        rfl
  have hs : (g.sideBlock tc).length = g.numSlices.toNat * (g.numStacks.toNat * 2) := by
    unfold sideBlock
    rw [length_flatMap_const _ _ (g.numStacks.toNat * 2), length_loopRange]
    · simp
    · intro i _
      unfold sideTris
      simp only []
      rw [length_flatMap_const _ _ 2]
      · rw [length_loopRange]
        simp
      · intro _ _
        rfl
  unfold tris
  rw [List.length_append, List.length_append, hb, ht, hs]
  unfold GetNumElements GetNumElementsDisk GetNumElementsSide
  push_cast
  rw [Int.toNat_of_nonneg (by omega : (0 : Int) ≤ g.numSlices),
    Int.toNat_of_nonneg (by omega : (0 : Int) ≤ g.numRings - 1),
    Int.toNat_of_nonneg (by omega : (0 : Int) ≤ g.numStacks)]
  ring

end GlGeomCylinder

namespace GlGeomTorus

theorem torTris_length (g : GlGeomTorus) (hv : g.ValidResolution) (tc : Bool) :
    (((g.tris tc).length : Nat) : Int) * 3 = g.GetNumElements := by
  obtain ⟨⟨hR3, hR⟩, ⟨hS3, hS⟩⟩ := hv
  have hb : (g.tris tc).length = g.numRings.toNat * (g.numSides.toNat * 2) := by
    unfold tris
    rw [length_flatMap_const _ _ (g.numSides.toNat * 2), length_loopRange]
    · simp
    · intro i _
      unfold ringTris
      simp only []
      rw [length_flatMap_const _ _ 2]
      · rw [length_loopRange]
        simp
      · intro _ _
        rfl
  rw [hb]
  unfold GetNumElements
  push_cast
  rw [Int.toNat_of_nonneg (by omega : (0 : Int) ≤ g.numRings),
    Int.toNat_of_nonneg (by omega : (0 : Int) ≤ g.numSides)]
  ring

end GlGeomTorus

/-- C1. Cylinder index bound: for a resolution with slices in [3,255], stacks and
rings in [1,255] and a layout that passes the assertion, `CalcVboAndEbo` returns,
and every value it stores into the index buffer is below
`GetNumVerticesTexCoords()` when texture coordinates are requested
(`vertTexCoordsOffset >= 0`) and below `GetNumVerticesNoTexCoords()` when they
are not. -/
theorem cylinder_index_bound (g : GlGeomCylinder) (hv : g.ValidResolution)
    (vertPosOffset vertNormalOffset vertTexCoordsOffset : Int) (stride : Nat)
    (hp : vertPosOffset ≥ 0) (hs : stride > 0) :
    ∃ vbo ebo,
      g.CalcVboAndEbo vertPosOffset vertNormalOffset vertTexCoordsOffset stride =
        some (vbo, ebo) ∧
      ∀ e ∈ ebo.written,
        (vertTexCoordsOffset ≥ 0 → ((e.2 : Nat) : Int) < g.GetNumVerticesTexCoords) ∧
        (vertTexCoordsOffset < 0 → ((e.2 : Nat) : Int) < g.GetNumVerticesNoTexCoords) := by
  refine ⟨_, _, by unfold GlGeomCylinder.CalcVboAndEbo; rw [if_pos ⟨hp, hs⟩], ?_⟩
  intro e he
  rw [GlGeomCylinder.cylFillEbo_eq] at he
  have hlt := written_lt_of_tris _ _ (g.cylVertexCount_bounds hv _).2.2
    (fun t ht => (g.cylTris_ok hv _ t ht).1) e he
  constructor
  · intro h
    simpa [GlGeomCylinder.vertexCount, h] using hlt
  · intro h
    have h' : ¬ vertTexCoordsOffset ≥ 0 := by omega
    simpa [GlGeomCylinder.vertexCount, h'] using hlt

theorem cylinder_index_bound_witness :
    (⟨4, 1, 1, false⟩ : GlGeomCylinder).ValidResolution ∧ (0 : Int) ≥ 0 ∧ 3 > 0 ∧
    ∃ vbo ebo,
      (⟨4, 1, 1, false⟩ : GlGeomCylinder).CalcVboAndEbo 0 (-1) (-1) 3 = some (vbo, ebo) ∧
      ∀ e ∈ ebo.written,
        ((-1 : Int) ≥ 0 →
          ((e.2 : Nat) : Int) < (⟨4, 1, 1, false⟩ : GlGeomCylinder).GetNumVerticesTexCoords) ∧
        ((-1 : Int) < 0 →
          ((e.2 : Nat) : Int) < (⟨4, 1, 1, false⟩ : GlGeomCylinder).GetNumVerticesNoTexCoords) :=
  ⟨by decide, by decide, by decide,
    cylinder_index_bound ⟨4, 1, 1, false⟩ (by decide) 0 (-1) (-1) 3 (by decide) (by decide)⟩

/-- C2. Torus index bound: for a resolution with rings and sides in [3,255] and a
layout that passes the assertion, `CalcVboAndEbo` returns, and every value it
stores into the index buffer is below `GetNumVerticesTexCoords()` =
(rings+1)*(sides+1) when texture coordinates are requested and below
`GetNumVerticesNoTexCoords()` = rings*sides when they are not. -/
theorem torus_index_bound (g : GlGeomTorus) (hv : g.ValidResolution)
    (vertPosOffset vertNormalOffset vertTexCoordsOffset : Int) (stride : Nat)
    (hp : vertPosOffset ≥ 0) (hs : stride > 0) :
    ∃ vbo ebo,
      g.CalcVboAndEbo vertPosOffset vertNormalOffset vertTexCoordsOffset stride =
        some (vbo, ebo) ∧
      g.GetNumVerticesTexCoords = (g.numRings + 1) * (g.numSides + 1) ∧
      g.GetNumVerticesNoTexCoords = g.numRings * g.numSides ∧
      ∀ e ∈ ebo.written,
        (vertTexCoordsOffset ≥ 0 → ((e.2 : Nat) : Int) < g.GetNumVerticesTexCoords) ∧
        (vertTexCoordsOffset < 0 → ((e.2 : Nat) : Int) < g.GetNumVerticesNoTexCoords) := by
  refine ⟨_, _, by unfold GlGeomTorus.CalcVboAndEbo; rw [if_pos ⟨hp, hs⟩], rfl, rfl, ?_⟩
  intro e he
  rw [GlGeomTorus.torFillEbo_eq] at he
  have hlt := written_lt_of_tris _ _ (g.torVertexCount_bounds hv _).2
    (fun t ht => (g.torTris_ok hv _ t ht).1) e he
  constructor
  · intro h
    simpa [GlGeomTorus.vertexCount, h] using hlt
  · intro h
    have h' : ¬ vertTexCoordsOffset ≥ 0 := by omega
    simpa [GlGeomTorus.vertexCount, h'] using hlt

theorem torus_index_bound_witness :
    (⟨3, 4, FExpr.half, false⟩ : GlGeomTorus).ValidResolution ∧ (0 : Int) ≥ 0 ∧ 8 > 0 ∧
    ∃ vbo ebo,
      (⟨3, 4, FExpr.half, false⟩ : GlGeomTorus).CalcVboAndEbo 0 3 6 8 = some (vbo, ebo) ∧
      (⟨3, 4, FExpr.half, false⟩ : GlGeomTorus).GetNumVerticesTexCoords = (4 + 1) * (3 + 1) ∧
      (⟨3, 4, FExpr.half, false⟩ : GlGeomTorus).GetNumVerticesNoTexCoords = 4 * 3 ∧
      ∀ e ∈ ebo.written,
        ((6 : Int) ≥ 0 →
          ((e.2 : Nat) : Int) < (⟨3, 4, FExpr.half, false⟩ : GlGeomTorus).GetNumVerticesTexCoords) ∧
        ((6 : Int) < 0 →
          ((e.2 : Nat) : Int) <
            (⟨3, 4, FExpr.half, false⟩ : GlGeomTorus).GetNumVerticesNoTexCoords) :=
  ⟨by decide, by decide, by decide,
    torus_index_bound ⟨3, 4, FExpr.half, false⟩ (by decide) 0 3 6 8 (by decide) (by decide)⟩

/-- C3. Cylinder index-buffer length: for a valid resolution and a layout that
passes the assertion (either texcoord mode), `CalcVboAndEbo` returns having made
exactly `GetNumElements()` = 2*3*(2*rings-1)*slices + 6*stacks*slices stores into
the index buffer, the k-th of them at position k, so that the positions written
are 0, 1, …, `GetNumElements()`-1 in this order and the cursor ends at
`GetNumElements()`; for slices=4, stacks=1, rings=1 the number of stores is 48. -/
theorem cylinder_index_count (g : GlGeomCylinder) (hv : g.ValidResolution)
    (vertPosOffset vertNormalOffset vertTexCoordsOffset : Int) (stride : Nat)
    (hp : vertPosOffset ≥ 0) (hs : stride > 0) :
    ∃ vbo ebo,
      g.CalcVboAndEbo vertPosOffset vertNormalOffset vertTexCoordsOffset stride =
        some (vbo, ebo) ∧
      g.GetNumElements = 2 * 3 * (2 * g.numRings - 1) * g.numSlices +
        6 * g.numStacks * g.numSlices ∧
      ((ebo.written.length : Nat) : Int) = g.GetNumElements ∧
      ebo.written.map Prod.fst = List.range g.GetNumElements.toNat ∧
      ((ebo.eboPtr : Nat) : Int) = g.GetNumElements ∧
      (g.numSlices = 4 → g.numStacks = 1 → g.numRings = 1 → ebo.written.length = 48) := by
  have hlen := g.cylTris_length hv (decide (vertTexCoordsOffset ≥ 0))
  have hl : (((g.tris (decide (vertTexCoordsOffset ≥ 0))).flatMap flat3).length : Int) =
      g.GetNumElements := by
    rw [length_flat3]
    push_cast
    exact hlen
  have hform : g.GetNumElements = 2 * 3 * (2 * g.numRings - 1) * g.numSlices +
      6 * g.numStacks * g.numSlices := by
    unfold GlGeomCylinder.GetNumElements GlGeomCylinder.GetNumElementsDisk
      GlGeomCylinder.GetNumElementsSide
    ring
  refine ⟨_, _, by unfold GlGeomCylinder.CalcVboAndEbo; rw [if_pos ⟨hp, hs⟩], hform, ?_, ?_, ?_, ?_⟩
  · rw [GlGeomCylinder.cylFillEbo_eq, written_length]
    exact hl
  · rw [GlGeomCylinder.cylFillEbo_eq, written_fst, ← hl]
    rfl
  · rw [GlGeomCylinder.cylFillEbo_eq, putAll_eboPtr]
    simpa using hl
  · intro h1 h2 h3
    have h48 : g.GetNumElements = 48 := by
      rw [hform, h1, h2, h3]
      rfl
    rw [GlGeomCylinder.cylFillEbo_eq, written_length]
    omega

theorem cylinder_index_count_witness :
    (⟨4, 1, 1, false⟩ : GlGeomCylinder).ValidResolution ∧ (0 : Int) ≥ 0 ∧ 3 > 0 ∧
    ∃ vbo ebo,
      (⟨4, 1, 1, false⟩ : GlGeomCylinder).CalcVboAndEbo 0 (-1) (-1) 3 = some (vbo, ebo) ∧
      (⟨4, 1, 1, false⟩ : GlGeomCylinder).GetNumElements =
        2 * 3 * (2 * 1 - 1) * 4 + 6 * 1 * 4 ∧
      ((ebo.written.length : Nat) : Int) = (⟨4, 1, 1, false⟩ : GlGeomCylinder).GetNumElements ∧
      ebo.written.map Prod.fst =
        List.range (⟨4, 1, 1, false⟩ : GlGeomCylinder).GetNumElements.toNat ∧
      ((ebo.eboPtr : Nat) : Int) = (⟨4, 1, 1, false⟩ : GlGeomCylinder).GetNumElements ∧
      ((4 : Int) = 4 → (1 : Int) = 1 → (1 : Int) = 1 → ebo.written.length = 48) :=
  ⟨by decide, by decide, by decide,
    cylinder_index_count ⟨4, 1, 1, false⟩ (by decide) 0 (-1) (-1) 3 (by decide) (by decide)⟩

/-- C4. Torus index-buffer length: for a valid resolution and a layout that passes
the assertion (either texcoord mode), `CalcVboAndEbo` returns having made exactly
`GetNumElements()` = 6*rings*sides stores into the index buffer, the k-th of them
at position k, so that the positions written are 0, 1, …, `GetNumElements()`-1 in
this order and the cursor ends at `GetNumElements()`. -/
theorem torus_index_count (g : GlGeomTorus) (hv : g.ValidResolution)
    (vertPosOffset vertNormalOffset vertTexCoordsOffset : Int) (stride : Nat)
    (hp : vertPosOffset ≥ 0) (hs : stride > 0) :
    ∃ vbo ebo,
      g.CalcVboAndEbo vertPosOffset vertNormalOffset vertTexCoordsOffset stride =
        some (vbo, ebo) ∧
      g.GetNumElements = 6 * g.numRings * g.numSides ∧
      ((ebo.written.length : Nat) : Int) = g.GetNumElements ∧
      ebo.written.map Prod.fst = List.range g.GetNumElements.toNat ∧
      ((ebo.eboPtr : Nat) : Int) = g.GetNumElements := by
  have hlen := g.torTris_length hv (decide (vertTexCoordsOffset ≥ 0))
  have hl : (((g.tris (decide (vertTexCoordsOffset ≥ 0))).flatMap flat3).length : Int) =
      g.GetNumElements := by
    rw [length_flat3]
    push_cast
    exact hlen
  refine ⟨_, _, by unfold GlGeomTorus.CalcVboAndEbo; rw [if_pos ⟨hp, hs⟩], rfl, ?_, ?_, ?_⟩
  · rw [GlGeomTorus.torFillEbo_eq, written_length]
    exact hl
  · rw [GlGeomTorus.torFillEbo_eq, written_fst, ← hl]
    rfl
  · rw [GlGeomTorus.torFillEbo_eq, putAll_eboPtr]
    simpa using hl

theorem torus_index_count_witness :
    (⟨3, 4, FExpr.half, false⟩ : GlGeomTorus).ValidResolution ∧ (0 : Int) ≥ 0 ∧ 8 > 0 ∧
    ∃ vbo ebo,
      (⟨3, 4, FExpr.half, false⟩ : GlGeomTorus).CalcVboAndEbo 0 3 6 8 = some (vbo, ebo) ∧
      (⟨3, 4, FExpr.half, false⟩ : GlGeomTorus).GetNumElements = 6 * 4 * 3 ∧
      ((ebo.written.length : Nat) : Int) =
        (⟨3, 4, FExpr.half, false⟩ : GlGeomTorus).GetNumElements ∧
      ebo.written.map Prod.fst =
        List.range (⟨3, 4, FExpr.half, false⟩ : GlGeomTorus).GetNumElements.toNat ∧
      ((ebo.eboPtr : Nat) : Int) = (⟨3, 4, FExpr.half, false⟩ : GlGeomTorus).GetNumElements :=
  ⟨by decide, by decide, by decide,
    torus_index_count ⟨3, 4, FExpr.half, false⟩ (by decide) 0 3 6 8 (by decide) (by decide)⟩

/-- C5. No degenerate triangles: for a valid cylinder resolution and a valid torus
resolution, a layout that passes the assertion (either texcoord mode), both
`GlGeomCylinder::CalcVboAndEbo` and `GlGeomTorus::CalcVboAndEbo` return, and in
each of the two index buffers every consecutive triple, the entries stored at
positions 3k, 3k+1, 3k+2 below `GetNumElements()`, exists and consists of three
pairwise distinct vertex indices. -/
theorem no_degenerate_triangles (gc : GlGeomCylinder) (gt : GlGeomTorus)
    (hc : gc.ValidResolution) (ht : gt.ValidResolution)
    (vertPosOffset vertNormalOffset vertTexCoordsOffset : Int) (stride : Nat)
    (hp : vertPosOffset ≥ 0) (hs : stride > 0) :
    (∃ vbo ebo,
      gc.CalcVboAndEbo vertPosOffset vertNormalOffset vertTexCoordsOffset stride =
        some (vbo, ebo) ∧
      ∀ k : Nat, 3 * (k : Int) + 2 < gc.GetNumElements →
        ∃ a b c : Nat, ebo.written[3 * k]? = some (3 * k, a) ∧
          ebo.written[3 * k + 1]? = some (3 * k + 1, b) ∧
          ebo.written[3 * k + 2]? = some (3 * k + 2, c) ∧ a ≠ b ∧ b ≠ c ∧ a ≠ c) ∧
    (∃ vbo ebo,
      gt.CalcVboAndEbo vertPosOffset vertNormalOffset vertTexCoordsOffset stride =
        some (vbo, ebo) ∧
      ∀ k : Nat, 3 * (k : Int) + 2 < gt.GetNumElements →
        ∃ a b c : Nat, ebo.written[3 * k]? = some (3 * k, a) ∧
          ebo.written[3 * k + 1]? = some (3 * k + 1, b) ∧
          ebo.written[3 * k + 2]? = some (3 * k + 2, c) ∧ a ≠ b ∧ b ≠ c ∧ a ≠ c) := by
  constructor
  · refine ⟨_, _, by unfold GlGeomCylinder.CalcVboAndEbo; rw [if_pos ⟨hp, hs⟩], ?_⟩
    intro k hk
    have hlen := gc.cylTris_length hc (decide (vertTexCoordsOffset ≥ 0))
    rw [GlGeomCylinder.cylFillEbo_eq]
    exact written_triples _ _ (gc.cylVertexCount_bounds hc _).2.2 (gc.cylTris_ok hc _) k (by omega)
  · refine ⟨_, _, by unfold GlGeomTorus.CalcVboAndEbo; rw [if_pos ⟨hp, hs⟩], ?_⟩
    intro k hk
    have hlen := gt.torTris_length ht (decide (vertTexCoordsOffset ≥ 0))
    rw [GlGeomTorus.torFillEbo_eq]
    exact written_triples _ _ (gt.torVertexCount_bounds ht _).2 (gt.torTris_ok ht _) k (by omega)

theorem no_degenerate_triangles_witness :
    (⟨3, 1, 2, false⟩ : GlGeomCylinder).ValidResolution ∧
    (⟨3, 3, FExpr.half, false⟩ : GlGeomTorus).ValidResolution ∧ (0 : Int) ≥ 0 ∧ 5 > 0 ∧
    (∃ vbo ebo,
      (⟨3, 1, 2, false⟩ : GlGeomCylinder).CalcVboAndEbo 0 (-1) 3 5 = some (vbo, ebo) ∧
      ∀ k : Nat, 3 * (k : Int) + 2 < (⟨3, 1, 2, false⟩ : GlGeomCylinder).GetNumElements →
        ∃ a b c : Nat, ebo.written[3 * k]? = some (3 * k, a) ∧
          ebo.written[3 * k + 1]? = some (3 * k + 1, b) ∧
          ebo.written[3 * k + 2]? = some (3 * k + 2, c) ∧ a ≠ b ∧ b ≠ c ∧ a ≠ c) ∧
    (∃ vbo ebo,
      (⟨3, 3, FExpr.half, false⟩ : GlGeomTorus).CalcVboAndEbo 0 (-1) 3 5 = some (vbo, ebo) ∧
      ∀ k : Nat, 3 * (k : Int) + 2 < (⟨3, 3, FExpr.half, false⟩ : GlGeomTorus).GetNumElements →
        ∃ a b c : Nat, ebo.written[3 * k]? = some (3 * k, a) ∧
          ebo.written[3 * k + 1]? = some (3 * k + 1, b) ∧
          ebo.written[3 * k + 2]? = some (3 * k + 2, c) ∧ a ≠ b ∧ b ≠ c ∧ a ≠ c) :=
  ⟨by decide, by decide, by decide, by decide,
    no_degenerate_triangles ⟨3, 1, 2, false⟩ ⟨3, 3, FExpr.half, false⟩ (by decide) (by decide)
      0 (-1) 3 5 (by decide) (by decide)⟩

/-! ### Loops that extend a store log -/

theorem forLoop_append {α : Type} (lo hi : Int) (body : List α → Int → List α)
    (f : Int → List α) (h : ∀ log i, body log i = log ++ f i) (log : List α) :
    forLoop lo hi body log = log ++ (loopRange lo hi).flatMap f := by
  unfold forLoop loopRange
  generalize List.range (hi - lo).toNat = l
  induction l generalizing log with
  | nil => simp
  | cons k l ih =>
    simp only [List.foldl_cons, List.map_cons, List.flatMap_cons]
    rw [ih, h, List.append_assoc]

theorem forLoop_ptr {α : Type} (lo hi : Int) (body : Int × List α → Int → Int × List α)
    (d : Int) (f : Int → Int → List α)
    (h : ∀ st j, body st j = (st.1 + d, st.2 ++ f st.1 j)) (st : Int × List α) :
    forLoop lo hi body st =
      (st.1 + ((hi - lo).toNat : Int) * d,
        st.2 ++ (loopRange lo hi).flatMap (fun j => f (st.1 + (j - lo) * d) j)) := by
  unfold forLoop loopRange
  generalize (hi - lo).toNat = n
  induction n with
  | zero => simp
  | succ n ih =>
    rw [List.range_succ, List.foldl_append, ih]
    simp only [List.foldl_cons, List.foldl_nil, h, List.map_append, List.map_cons, List.map_nil,
      List.flatMap_append, List.flatMap_cons, List.flatMap_nil, List.append_nil,
      List.append_assoc]
    refine Prod.ext ?_ ?_
    · simp only []
      push_cast
      ring
    · simp only []
      congr 3
      ring

theorem vertsWritten_append (a b : List VboWrite) :
    vertsWritten (a ++ b) = vertsWritten a ++ vertsWritten b := by
  simp [vertsWritten]

theorem vertsWritten_flatMap {α : Type} (l : List α) (f : α → List VboWrite) :
    vertsWritten (l.flatMap f) = l.flatMap (fun x => vertsWritten (f x)) := by
  induction l with
  | nil => rfl
  | cons a l ih => rw [List.flatMap_cons, vertsWritten_append, ih, List.flatMap_cons]

/-- A list of length at most `n` that contains every element of a duplicate-free
list of length `n` is a permutation of it. -/
theorem perm_of_cover {α : Type} (target l : List α) (hnd : target.Nodup)
    (hsub : ∀ x ∈ target, x ∈ l) (hlen : l.length ≤ target.length) : List.Perm l target :=
  ((hnd.subperm hsub).perm_of_length_le hlen).symm

theorem flatMap_congr_mem {α β : Type} (l : List α) (f g : α → List β)
    (h : ∀ x ∈ l, f x = g x) : l.flatMap f = l.flatMap g := by
  induction l with
  | nil => rfl
  | cons a l ih =>
    rw [List.flatMap_cons, List.flatMap_cons, h a (List.mem_cons_self _ _),
      ih (fun x hx => h x (List.mem_cons_of_mem _ hx))]

theorem length_flatMap_append {α β : Type} (l : List α) (f g : α → List β) :
    (l.flatMap (fun x => f x ++ g x)).length = (l.flatMap f).length + (l.flatMap g).length := by
  induction l with
  | nil => rfl
  | cons a l ih =>
    simp only [List.flatMap_cons, List.length_append, ih]
    omega

theorem loopRange_succ (lo hi : Int) (h : lo ≤ hi) :
    loopRange lo (hi + 1) = loopRange lo hi ++ [hi] := by
  unfold loopRange
  have h1 : (hi + 1 - lo).toNat = (hi - lo).toNat + 1 := by omega
  rw [h1, List.range_succ, List.map_append]
  simp only [List.map_cons, List.map_nil]
  congr 2
  omega

/-! ### Vertex fill of the cylinder -/

namespace GlGeomCylinder

theorem SetDiscVerts_eq (g : GlGeomCylinder) (x z : FExpr) (i j p n t stride : Int)
    (log : List VboWrite) :
    g.SetDiscVerts x z i j p n t stride log =
      log ++ g.SetDiscVerts x z i j p n t stride [] := by
  unfold SetDiscVerts
  split_ifs <;> simp

theorem sideVertex_eq (g : GlGeomCylinder) (s c sCoord : FExpr) (i p n t stride : Int)
    (st : Int × List VboWrite) (j : Int) :
    g.sideVertex s c sCoord i p n t stride st j =
      (st.1 + stride, st.2 ++ (g.sideVertex s c sCoord i p n t stride (st.1, []) j).2) := by
  unfold sideVertex
  split_ifs <;> simp

theorem sliceVertices_eq (g : GlGeomCylinder) (p n t stride : Int) (log : List VboWrite)
    (i : Int) :
    g.sliceVertices p n t stride log i = log ++ g.sliceWrites p n t stride i := by
  unfold sliceVertices sliceWrites
  simp only []
  rw [forLoop_ptr 0 _ _ stride (fun b j => g.sideWrites p n t stride i b j)
    (fun st j => g.sideVertex_eq _ _ _ i p n t stride st j)]
  simp only []
  split_ifs with h
  · rw [forLoop_append 1 _ _ (g.ringPairWrites p n t stride i)
      (fun log j => g.SetDiscVerts_eq _ _ i j p n t stride log), List.append_assoc]
  · simp

theorem cylFillVbo_eq (g : GlGeomCylinder) (p n t stride : Int) :
    g.fillVbo p n t stride =
      g.SetDiscVerts (FExpr.ofInt 0) (FExpr.ofInt 0) 0 0 p n t stride [] ++
        (loopRange 0 ((if t ≥ 0 then g.numSlices else g.numSlices - 1) + 1)).flatMap
          (g.sliceWrites p n t stride) := by
  unfold fillVbo
  simp only [decide_eq_true_eq]
  rw [forLoop_append 0 _ _ (g.sliceWrites p n t stride)
    (fun log i => g.sliceVertices_eq p n t stride log i)]

theorem SetDiscVerts_spec (g : GlGeomCylinder) (x z : FExpr) (i j p n t stride : Int) :
    ∀ w ∈ g.SetDiscVerts x z i j p n t stride [],
      w.i = i ∧ w.j = j ∧ (w.region = Region.bottom ∨ w.region = Region.top) ∧
      w.base = g.recordOf w.region i j * stride ∧
      w.slot = w.base + fieldOffset p n t w.attr + w.comp ∧
      (w.attr = Attr.normal → n ≥ 0) ∧ (w.attr = Attr.texcoord → t ≥ 0) := by
  intro w hw
  unfold SetDiscVerts at hw
  simp only [] at hw
  split_ifs at hw with h1 h2 h2 <;>
    simp only [List.nil_append, List.cons_append, List.mem_cons, List.mem_singleton,
      List.not_mem_nil, or_false] at hw <;>
    rcases hw with rfl | rfl | rfl | rfl | rfl | rfl | rfl | rfl | rfl | rfl | rfl | rfl |
      rfl | rfl | rfl | rfl <;>
    refine ⟨rfl, rfl, by simp, ?_, ?_, by simp [h1, h2], by simp [h1, h2]⟩ <;>
    simp only [recordOf, fieldOffset] <;> ring

theorem sideWrites_spec (g : GlGeomCylinder) (p n t stride i b j : Int) :
    ∀ w ∈ g.sideWrites p n t stride i b j,
      w.i = i ∧ w.j = j ∧ w.region = Region.side ∧ w.base = b ∧
      w.slot = w.base + fieldOffset p n t w.attr + w.comp ∧
      (w.attr = Attr.normal → n ≥ 0) ∧ (w.attr = Attr.texcoord → t ≥ 0) := by
  intro w hw
  unfold sideWrites sideVertex at hw
  simp only [] at hw
  split_ifs at hw with h1 h2 h2 <;>
    simp only [List.nil_append, List.cons_append, List.mem_cons, List.mem_singleton,
      List.not_mem_nil, or_false] at hw <;>
    rcases hw with rfl | rfl | rfl | rfl | rfl | rfl | rfl | rfl <;>
    simp [h1, h2, fieldOffset]

theorem vertsWritten_SetDiscVerts (g : GlGeomCylinder) (x z : FExpr) (i j p n t stride : Int) :
    vertsWritten (g.SetDiscVerts x z i j p n t stride []) =
      [(Region.bottom, i, j, stride * (i * g.numRings + j)),
        (Region.top, i, j, stride * (i * g.numRings + j) + g.GetNumVerticesDisk * stride)] := by
  unfold SetDiscVerts
  simp only []
  split_ifs <;> simp [vertsWritten]

theorem vertsWritten_sideWrites (g : GlGeomCylinder) (p n t stride i b j : Int) :
    vertsWritten (g.sideWrites p n t stride i b j) = [(Region.side, i, j, b)] := by
  unfold sideWrites sideVertex
  simp only []
  split_ifs <;> simp [vertsWritten]

theorem vertsWritten_sliceWrites (g : GlGeomCylinder) (p n t stride i : Int) :
    vertsWritten (g.sliceWrites p n t stride i) =
      (if i < g.numSlices then
        (loopRange 1 (g.numRings + 1)).flatMap (fun j =>
          [(Region.bottom, i, j, stride * (i * g.numRings + j)),
            (Region.top, i, j, stride * (i * g.numRings + j) + g.GetNumVerticesDisk * stride)])
        else []) ++
      (loopRange 0 (g.numStacks + 1)).flatMap (fun j =>
        [(Region.side, i, j,
          (2 * g.GetNumVerticesDisk + i * (g.numStacks + 1)) * stride + (j - 0) * stride)]) := by
  unfold sliceWrites
  rw [vertsWritten_append, vertsWritten_flatMap]
  congr 1
  · split_ifs
    · rw [vertsWritten_flatMap]
      unfold ringPairWrites
      simp only [vertsWritten_SetDiscVerts]
    · rfl
  · simp only [vertsWritten_sideWrites]

theorem length_diskPart (g : GlGeomCylinder) (hv : g.ValidResolution) (stride : Int) (tc : Prop)
    [Decidable tc] :
    ((loopRange 0 ((if tc then g.numSlices else g.numSlices - 1) + 1)).flatMap (fun i =>
      if i < g.numSlices then
        (loopRange 1 (g.numRings + 1)).flatMap (fun j =>
          [(Region.bottom, i, j, stride * (i * g.numRings + j)),
            (Region.top, i, j, stride * (i * g.numRings + j) + g.GetNumVerticesDisk * stride)])
        else [])).length = g.numSlices.toNat * (g.numRings.toNat * 2) := by
  obtain ⟨⟨hS3, hS⟩, ⟨hT1, hT⟩, ⟨hR1, hR⟩⟩ := hv
  have hmain : ((loopRange 0 g.numSlices).flatMap (fun i =>
      if i < g.numSlices then
        (loopRange 1 (g.numRings + 1)).flatMap (fun j =>
          [(Region.bottom, i, j, stride * (i * g.numRings + j)),
            (Region.top, i, j, stride * (i * g.numRings + j) + g.GetNumVerticesDisk * stride)])
        else [])).length = g.numSlices.toNat * (g.numRings.toNat * 2) := by
    rw [length_flatMap_const _ _ (g.numRings.toNat * 2), length_loopRange]
    · simp
    · intro i hi
      rw [mem_loopRange] at hi
      rw [if_pos hi.2, length_flatMap_const _ _ 2, length_loopRange]
      · simp
      · intro _ _
        rfl
  split_ifs with h
  · rw [loopRange_succ 0 g.numSlices (by omega), List.flatMap_append, List.length_append, hmain]
    simp
  · rw [sub_add_cancel]
    exact hmain

theorem cyl_length_vertsWritten (g : GlGeomCylinder) (hv : g.ValidResolution)
    (p n t stride : Int) :
    (vertsWritten (g.fillVbo p n t stride)).length = (g.vertexCount (decide (t ≥ 0))).toNat := by
  have hd := g.length_diskPart hv stride (t ≥ 0)
  obtain ⟨hD, hD2, -⟩ := g.cylVertexCount_bounds hv (decide (t ≥ 0))
  obtain ⟨⟨hS3, hS⟩, ⟨hT1, hT⟩, ⟨hR1, hR⟩⟩ := hv
  rw [cylFillVbo_eq, vertsWritten_append, vertsWritten_SetDiscVerts, vertsWritten_flatMap]
  simp only [vertsWritten_sliceWrites]
  rw [List.length_append, length_flatMap_append, hd,
    length_flatMap_const _ _ (g.numStacks + 1).toNat, length_loopRange]
  · have hsc : (0 : Int) ≤ (if t ≥ 0 then g.numSlices else g.numSlices - 1) + 1 := by
      split_ifs <;> omega
    zify
    rw [sub_zero, Int.toNat_of_nonneg hsc, Int.toNat_of_nonneg (by omega : (0 : Int) ≤ g.numSlices),
      Int.toNat_of_nonneg (by omega : (0 : Int) ≤ g.numRings),
      Int.toNat_of_nonneg (by omega : (0 : Int) ≤ g.numStacks + 1),
      Int.toNat_of_nonneg (by omega : (0 : Int) ≤ g.vertexCount (decide (t ≥ 0)))]
    unfold vertexCount GetNumVerticesTexCoords GetNumVerticesNoTexCoords
      GetNumVerticesSideTexCoords GetNumVerticesSideNoTexCoords GetNumVerticesDisk
    simp only [decide_eq_true_eq, List.length_cons, List.length_nil]
    split_ifs <;> push_cast <;> ring
  · intro i _
    rw [length_flatMap_const _ _ 1, length_loopRange]
    · simp
    · intro _ _
      rfl

theorem fillVbo_spec (g : GlGeomCylinder) (p n t stride : Int) :
    ∀ w ∈ g.fillVbo p n t stride,
      w.base = g.recordOf w.region w.i w.j * stride ∧
      w.slot = w.base + fieldOffset p n t w.attr + w.comp ∧
      (w.attr = Attr.normal → n ≥ 0) ∧ (w.attr = Attr.texcoord → t ≥ 0) := by
  intro w hw
  rw [cylFillVbo_eq, List.mem_append, List.mem_flatMap] at hw
  rcases hw with hw | ⟨i, -, hw⟩
  · obtain ⟨h1, h2, -, h4, h5, h6⟩ := g.SetDiscVerts_spec _ _ _ _ _ _ _ _ w hw
    rw [h1, h2]
    exact ⟨h4, h5, h6⟩
  · unfold sliceWrites at hw
    rw [List.mem_append] at hw
    rcases hw with hw | hw
    · split_ifs at hw
      · rw [List.mem_flatMap] at hw
        obtain ⟨j, -, hw⟩ := hw
        obtain ⟨h1, h2, -, h4, h5, h6⟩ := g.SetDiscVerts_spec _ _ _ _ _ _ _ _ w hw
        rw [h1, h2]
        exact ⟨h4, h5, h6⟩
      · simp at hw
    · rw [List.mem_flatMap] at hw
      obtain ⟨j, -, hw⟩ := hw
      obtain ⟨h1, h2, h3, h4, h5, h6⟩ := g.sideWrites_spec _ _ _ _ _ _ _ w hw
      rw [h1, h2, h3]
      refine ⟨?_, h5, h6⟩
      rw [h4]
      simp only [recordOf]
      ring

end GlGeomCylinder

namespace GlGeomTorus

theorem ringVertex_eq (g : GlGeomTorus) (s c sCoord : FExpr) (i : Int)
    (n t stride : Int) (st : Int × List VboWrite) (j : Int) :
    g.ringVertex s c sCoord i n t stride st j =
      (st.1 + stride, st.2 ++ (g.ringVertex s c sCoord i n t stride (st.1, []) j).2) := by
  unfold ringVertex
  split_ifs <;> simp

theorem torFillVbo_eq (g : GlGeomTorus) (p n t stride : Int) :
    g.fillVbo p n t stride =
      (loopRange 0 (g.ringCount (decide (t ≥ 0)))).flatMap (fun i =>
        (loopRange 0 (g.sideStride (decide (t ≥ 0)))).flatMap (fun j =>
          g.vertexWrites n t stride i
            (0 + (i - 0) * (((g.sideStride (decide (t ≥ 0)) - 0).toNat : Int) * stride) +
              (j - 0) * stride) j)) := by
  unfold fillVbo
  simp only []
  rw [forLoop_ptr 0 _ (g.ringVertices n t stride)
    (((g.sideStride (decide (t ≥ 0)) - 0).toNat : Int) * stride)
    (fun p i => (loopRange 0 (g.sideStride (decide (t ≥ 0)))).flatMap (fun j =>
      g.vertexWrites n t stride i (p + (j - 0) * stride) j))]
  · simp only [List.nil_append]
    rfl
  · intro st i
    unfold ringVertices
    simp only []
    rw [forLoop_ptr 0 _ _ stride (fun p j => g.vertexWrites n t stride i p j)
      (fun st j => g.ringVertex_eq _ _ _ i n t stride st j)]
    rfl

theorem vertexWrites_spec (g : GlGeomTorus) (n t stride i p j : Int) :
    ∀ w ∈ g.vertexWrites n t stride i p j,
      w.region = Region.tube ∧ w.i = i ∧ w.j = j ∧ w.base = p ∧
      (w.attr = Attr.pos → w.slot = p + w.comp) ∧
      (w.attr = Attr.normal → w.slot = p + n + w.comp ∧ n ≥ 0) ∧
      (w.attr = Attr.texcoord → w.slot = p + t + w.comp ∧ t ≥ 0) := by
  intro w hw
  unfold vertexWrites ringVertex at hw
  simp only [] at hw
  split_ifs at hw with h1 h2 h2 <;>
    simp only [List.nil_append, List.cons_append, List.mem_cons, List.mem_singleton,
      List.not_mem_nil, or_false] at hw <;>
    rcases hw with rfl | rfl | rfl | rfl | rfl | rfl | rfl | rfl <;> simp [h1, h2]


theorem vertsWritten_vertexWrites (g : GlGeomTorus) (n t stride i p j : Int) :
    vertsWritten (g.vertexWrites n t stride i p j) = [(Region.tube, i, j, p)] := by
  unfold vertexWrites ringVertex
  simp only []
  split_ifs <;> simp [vertsWritten]

theorem sideStride_eq (g : GlGeomTorus) (tc : Bool) :
    g.sideStride tc = if tc then g.numSides + 1 else g.numSides := by
  unfold sideStride
  cases tc <;> simp

theorem ringCount_eq (g : GlGeomTorus) (tc : Bool) :
    g.ringCount tc = if tc then g.numRings + 1 else g.numRings := by
  unfold ringCount
  cases tc <;> simp

theorem vertexCount_eq (g : GlGeomTorus) (tc : Bool) :
    g.vertexCount tc = g.ringCount tc * g.sideStride tc := by
  rw [sideStride_eq, ringCount_eq]
  unfold vertexCount GetNumVerticesTexCoords GetNumVerticesNoTexCoords
  cases tc <;> simp

theorem torFillVbo_valid (g : GlGeomTorus) (hv : g.ValidResolution) (p n t stride : Int) :
    g.fillVbo p n t stride =
      (loopRange 0 (g.ringCount (decide (t ≥ 0)))).flatMap (fun i =>
        (loopRange 0 (g.sideStride (decide (t ≥ 0)))).flatMap (fun j =>
          g.vertexWrites n t stride i ((i * g.sideStride (decide (t ≥ 0)) + j) * stride) j)) := by
  obtain ⟨⟨hR3, hR⟩, ⟨hS3, hS⟩⟩ := hv
  have hss : 0 ≤ g.sideStride (decide (t ≥ 0)) := by
    rw [sideStride_eq]
    split_ifs <;> omega
  rw [torFillVbo_eq]
  congr 1
  funext i
  congr 1
  funext j
  congr 1
  rw [sub_zero (g.sideStride (decide (t ≥ 0))), Int.toNat_of_nonneg hss]
  ring

theorem mem_vertsWritten (g : GlGeomTorus) (hv : g.ValidResolution) (p n t stride : Int)
    (v : Region × Int × Int × Int) :
    v ∈ vertsWritten (g.fillVbo p n t stride) ↔
      v.1 = Region.tube ∧ v.2.2.2 = (v.2.1 * g.sideStride (decide (t ≥ 0)) + v.2.2.1) * stride ∧
        (0 ≤ v.2.1 ∧ v.2.1 < g.ringCount (decide (t ≥ 0))) ∧
        (0 ≤ v.2.2.1 ∧ v.2.2.1 < g.sideStride (decide (t ≥ 0))) := by
  rw [torFillVbo_valid g hv, vertsWritten_flatMap]
  simp only [vertsWritten_flatMap, vertsWritten_vertexWrites, List.mem_flatMap, mem_loopRange,
    List.mem_singleton]
  obtain ⟨r, i, j, b⟩ := v
  constructor
  · rintro ⟨i', hi, j', hj, h⟩
    simp only [Prod.mk.injEq] at h
    obtain ⟨rfl, rfl, rfl, rfl⟩ := h
    exact ⟨rfl, rfl, hi, hj⟩
  · rintro ⟨h1, h2, hi, hj⟩
    simp only [] at h1 h2 hi hj
    subst h1 h2
    exact ⟨i, hi, j, hj, rfl⟩

theorem length_vertsWritten (g : GlGeomTorus) (hv : g.ValidResolution) (p n t stride : Int) :
    (vertsWritten (g.fillVbo p n t stride)).length = (g.vertexCount (decide (t ≥ 0))).toNat := by
  obtain ⟨hvc0, -⟩ := g.torVertexCount_bounds hv (decide (t ≥ 0))
  rw [torFillVbo_valid g hv, vertsWritten_flatMap,
    length_flatMap_const _ _ (g.sideStride (decide (t ≥ 0))).toNat, length_loopRange]
  · obtain ⟨⟨hR3, hR⟩, ⟨hS3, hS⟩⟩ := hv
    have h1 := g.vertexCount_eq (decide (t ≥ 0))
    have hss : 0 ≤ g.sideStride (decide (t ≥ 0)) := by
      rw [sideStride_eq]
      split_ifs <;> omega
    have hrc : 0 ≤ g.ringCount (decide (t ≥ 0)) := by
      rw [ringCount_eq]
      split_ifs <;> omega
    zify
    rw [sub_zero, Int.toNat_of_nonneg hss, Int.toNat_of_nonneg hrc,
      Int.toNat_of_nonneg (le_of_lt hvc0), h1]
  · intro i _
    rw [vertsWritten_flatMap, length_flatMap_const _ _ 1, length_loopRange]
    · simp
    · intro j _
      rw [vertsWritten_vertexWrites]
      rfl

end GlGeomTorus

/-- C7. Torus vertex numbering and coverage: for a valid resolution and a layout
that passes the assertion, with sideStride = sides+1 when texture coordinates
are requested and sides otherwise, every store of the vertex fill is made
relative to the record base (i*sideStride + j)*stride of the vertex (ring i,
side j) it belongs to; the vertices written are exactly those with
0 <= i <= rings and 0 <= j <= sides in texcoord mode (0 <= i < rings,
0 <= j < sides otherwise); and the record bases of the vertices written are,
up to order, k*stride for k = 0 .. vertexCount-1 of the matching mode, each
exactly once. -/
theorem torus_vertex_numbering (g : GlGeomTorus) (hv : g.ValidResolution)
    (vertPosOffset vertNormalOffset vertTexCoordsOffset : Int) (stride : Nat)
    (hp : vertPosOffset ≥ 0) (hs : stride > 0) :
    ∃ vbo ebo,
      g.CalcVboAndEbo vertPosOffset vertNormalOffset vertTexCoordsOffset stride =
        some (vbo, ebo) ∧
      (∀ w ∈ vbo, w.region = Region.tube ∧
        w.base = (w.i * (if vertTexCoordsOffset ≥ 0 then g.numSides + 1 else g.numSides) + w.j) *
          stride) ∧
      (∀ i j b, (Region.tube, i, j, b) ∈ vertsWritten vbo ↔
        b = (i * (if vertTexCoordsOffset ≥ 0 then g.numSides + 1 else g.numSides) + j) * stride ∧
        (0 ≤ i ∧ i < (if vertTexCoordsOffset ≥ 0 then g.numRings + 1 else g.numRings)) ∧
        (0 ≤ j ∧ j < (if vertTexCoordsOffset ≥ 0 then g.numSides + 1 else g.numSides))) ∧
      List.Perm ((vertsWritten vbo).map (fun v => v.2.2.2))
        ((List.range (if vertTexCoordsOffset ≥ 0 then g.GetNumVerticesTexCoords
            else g.GetNumVerticesNoTexCoords).toNat).map (fun k : Nat => (k : Int) * stride)) := by
  have hss := g.sideStride_eq (decide (vertTexCoordsOffset ≥ 0))
  have hrc := g.ringCount_eq (decide (vertTexCoordsOffset ≥ 0))
  have hvc : g.vertexCount (decide (vertTexCoordsOffset ≥ 0)) =
      if vertTexCoordsOffset ≥ 0 then g.GetNumVerticesTexCoords
        else g.GetNumVerticesNoTexCoords := by
    unfold GlGeomTorus.vertexCount
    simp only [decide_eq_true_eq]
  simp only [decide_eq_true_eq] at hss hrc
  rw [← hss, ← hrc, ← hvc]
  have hmem := g.mem_vertsWritten hv vertPosOffset vertNormalOffset vertTexCoordsOffset stride
  have hss0 : 0 < g.sideStride (decide (vertTexCoordsOffset ≥ 0)) := by
    obtain ⟨⟨hR3, hR⟩, ⟨hS3, hS⟩⟩ := hv
    rw [hss]
    split_ifs <;> omega
  obtain ⟨hvc0, -⟩ := g.torVertexCount_bounds hv (decide (vertTexCoordsOffset ≥ 0))
  refine ⟨_, _, by unfold GlGeomTorus.CalcVboAndEbo; rw [if_pos ⟨hp, hs⟩], ?_, ?_, ?_⟩
  · intro w hw
    rw [g.torFillVbo_valid hv] at hw
    simp only [List.mem_flatMap] at hw
    obtain ⟨i, -, j, -, hw⟩ := hw
    obtain ⟨h1, h2, h3, h4, -⟩ := g.vertexWrites_spec _ _ _ _ _ _ w hw
    rw [h2, h3, h4]
    exact ⟨h1, rfl⟩
  · intro i j b
    rw [hmem]
    simp
  · apply perm_of_cover
    · refine (List.nodup_range _).map ?_
      intro a b hab
      simp only [] at hab
      have hs' : (0 : Int) < (stride : Int) := by exact_mod_cast hs
      have := mul_right_cancel₀ (ne_of_gt hs') hab
      exact_mod_cast this
    · intro x hx
      rw [List.mem_map] at hx
      obtain ⟨k, hk, rfl⟩ := hx
      rw [List.mem_range] at hk
      have hk' : (k : Int) < g.ringCount (decide (vertTexCoordsOffset ≥ 0)) *
          g.sideStride (decide (vertTexCoordsOffset ≥ 0)) := by
        rw [← g.vertexCount_eq]
        omega
      rw [List.mem_map]
      refine ⟨(Region.tube, (k : Int) / g.sideStride (decide (vertTexCoordsOffset ≥ 0)),
        (k : Int) % g.sideStride (decide (vertTexCoordsOffset ≥ 0)), (k : Int) * stride), ?_, rfl⟩
      rw [hmem]
      refine ⟨rfl, ?_, ⟨Int.ediv_nonneg (by omega) (le_of_lt hss0),
        Int.ediv_lt_of_lt_mul hss0 hk'⟩, ⟨Int.emod_nonneg _ (ne_of_gt hss0),
        Int.emod_lt_of_pos _ hss0⟩⟩
      simp only []
      rw [Int.ediv_add_emod']
    · rw [List.length_map, List.length_map, List.length_range, g.length_vertsWritten hv]

theorem torus_vertex_numbering_witness :
    (⟨3, 4, FExpr.half, false⟩ : GlGeomTorus).ValidResolution ∧ (0 : Int) ≥ 0 ∧ 8 > 0 ∧
    ∃ vbo ebo,
      (⟨3, 4, FExpr.half, false⟩ : GlGeomTorus).CalcVboAndEbo 0 3 6 8 = some (vbo, ebo) ∧
      (∀ w ∈ vbo, w.region = Region.tube ∧
        w.base = (w.i * (if (6 : Int) ≥ 0 then (3 : Int) + 1 else 3) + w.j) * (8 : Nat)) ∧
      (∀ i j b, (Region.tube, i, j, b) ∈ vertsWritten vbo ↔
        b = (i * (if (6 : Int) ≥ 0 then (3 : Int) + 1 else 3) + j) * (8 : Nat) ∧
        (0 ≤ i ∧ i < (if (6 : Int) ≥ 0 then (4 : Int) + 1 else 4)) ∧
        (0 ≤ j ∧ j < (if (6 : Int) ≥ 0 then (3 : Int) + 1 else 3))) ∧
      List.Perm ((vertsWritten vbo).map (fun v => v.2.2.2))
        ((List.range (if (6 : Int) ≥ 0
            then (⟨3, 4, FExpr.half, false⟩ : GlGeomTorus).GetNumVerticesTexCoords
            else (⟨3, 4, FExpr.half, false⟩ : GlGeomTorus).GetNumVerticesNoTexCoords).toNat).map
          (fun k : Nat => (k : Int) * (8 : Nat))) :=
  ⟨by decide, by decide, by decide,
    torus_vertex_numbering ⟨3, 4, FExpr.half, false⟩ (by decide) 0 3 6 8 (by decide) (by decide)⟩

/-- Every position store of the torus vertex fill goes to the record base plus the
component number, whatever `vertPosOffset` is. -/
theorem torus_pos_slot (g : GlGeomTorus) (p n t stride : Int) :
    ∀ w ∈ g.fillVbo p n t stride, w.attr = Attr.pos → w.slot = w.base + w.comp := by
  intro w hw hattr
  rw [g.torFillVbo_eq] at hw
  simp only [List.mem_flatMap] at hw
  obtain ⟨i, -, j, -, hw⟩ := hw
  obtain ⟨-, -, -, h4, h5, -⟩ := g.vertexWrites_spec _ _ _ _ _ _ w hw
  rw [h4, h5 hattr]

/-- C8 (the code at a failing input). Torus with rings = sides = 3 and the layout
posOffset = 3, normalOffset = 0, no texture coordinates, stride = 6: the fill
returns, every position component is stored at record base + component and
never at record base + posOffset + component, and the first position component
of vertex (0, 0), whose record is 0, is stored in slot 0, not in slot 3. -/
theorem torus_position_offset_ignored :
    ∃ vbo ebo,
      (⟨3, 3, FExpr.half, false⟩ : GlGeomTorus).CalcVboAndEbo 3 0 (-1) 6 = some (vbo, ebo) ∧
      (∀ w ∈ vbo, w.attr = Attr.pos → w.slot = w.base + w.comp ∧ w.slot ≠ w.base + 3 + w.comp) ∧
      (∃ w ∈ vbo, w.i = 0 ∧ w.j = 0 ∧ w.attr = Attr.pos ∧ w.comp = 0 ∧ w.base = 0 * 6 ∧
        w.slot = 0) := by
  refine ⟨_, _, rfl, ?_, ?_⟩
  · intro w hw hattr
    have h := torus_pos_slot _ _ _ _ _ w hw hattr
    exact ⟨h, by omega⟩
  · decide

/-! ### Sub-mesh addressing -/

/-- C9 (the code at a failing input). Cylinder with slices = 3, stacks = 1,
rings = 1, so that `GetNumVerticesDisk()` = 4, filled without normals and texture
coordinates: the position stores give y = -1 to the records 0..3 and y = +1 to
the records 4..7; the sub-range that `RenderTop` hands to `RenderEBO` holds the
indices 0,2,1,0,3,2,0,1,3, all of bottom-disk records, and the sub-range that
`RenderBase` hands over holds 4,5,6,4,6,7,4,7,5, all of top-disk records; the
sub-range of `RenderSide` holds only indices from 8 on. -/
theorem cylinder_render_top_base_swapped :
    ∃ vbo ebo,
      ({ numSlices := 3, numStacks := 1, numRings := 1, VboEboLoaded := false } :
        GlGeomCylinder).CalcVboAndEbo 0 (-1) (-1) 3 = some (vbo, ebo) ∧
      ({ numSlices := 3, numStacks := 1, numRings := 1, VboEboLoaded := false } :
        GlGeomCylinder).GetNumVerticesDisk = 4 ∧
      (∀ w ∈ vbo, w.attr = Attr.pos → w.comp = 1 →
        (w.base < 4 * 3 → w.val = FExpr.neg (FExpr.ofInt 1)) ∧
        (4 * 3 ≤ w.base → w.base < 8 * 3 → w.val = FExpr.ofInt 1)) ∧
      RenderEBO ebo ({ numSlices := 3, numStacks := 1, numRings := 1, VboEboLoaded := false } :
        GlGeomCylinder).RenderTop = [0, 2, 1, 0, 3, 2, 0, 1, 3] ∧
      RenderEBO ebo ({ numSlices := 3, numStacks := 1, numRings := 1, VboEboLoaded := false } :
        GlGeomCylinder).RenderBase = [4, 5, 6, 4, 6, 7, 4, 7, 5] ∧
      RenderEBO ebo ({ numSlices := 3, numStacks := 1, numRings := 1, VboEboLoaded := false } :
        GlGeomCylinder).RenderSide =
        [10, 9, 8, 10, 11, 9, 12, 11, 10, 12, 13, 11, 8, 13, 12, 8, 9, 13] := by
  refine ⟨_, _, rfl, by decide, by decide, by decide, by decide, by decide⟩

/-- C10 (the code at a failing input). Torus with rings = 4 and sides = 3, texture
coordinates not in use, so that the vertex count is 12 and the vertex of ring i,
column c has index 3*i + c: `RenderSideStrip(2)` builds the array
3,2,6,5,9,8,12,11,3,2.  Its entries 2i are 3*(i+1) for i = 0..3, the index of
ring i+1, column 0 (and 12, no vertex at all, for i = 3), where the vertex of ring
i in column (2+1) mod 3 = 0 has index 3*i. -/
theorem torus_side_strip_wrong_wrap :
    ({ numSides := 3, numRings := 4, radius := FExpr.half, VboEboLoaded := true } :
        GlGeomTorus).RenderSideStrip false 2 =
      some (10, { eboPtr := 10, written := [(0, 3), (1, 2), (2, 6), (3, 5), (4, 9), (5, 8),
        (6, 12), (7, 11), (8, 3), (9, 2)] }) ∧
    ({ numSides := 3, numRings := 4, radius := FExpr.half, VboEboLoaded := true } :
        GlGeomTorus).GetNumVerticesNoTexCoords = 12 := by
  decide

/-! ### Concrete scenario, resolution model, count queries -/

/-- C11 (as stated, at the scenario itself). For the cylinder with slices = 4,
stacks = 1, rings = 1 filled with no normals and no texture coordinates,
`GetNumVerticesNoTexCoords()` is 18, not 14, and the fill stores the index 17,
which is outside [0, 14). -/
theorem cylinder_scenario_count_not_14 :
    (⟨4, 1, 1, false⟩ : GlGeomCylinder).GetNumVerticesNoTexCoords = 18 ∧
    (⟨4, 1, 1, false⟩ : GlGeomCylinder).GetNumVerticesNoTexCoords ≠ 14 ∧
    ∃ vbo ebo,
      (⟨4, 1, 1, false⟩ : GlGeomCylinder).CalcVboAndEbo 0 (-1) (-1) 3 = some (vbo, ebo) ∧
      (40, 17) ∈ ebo.written ∧ ¬ ((17 : Int) < 14) :=
  ⟨by decide, by decide, _, _, rfl, by decide, by decide⟩

/-- C11 (amended). Concrete cylinder scenario: for a cylinder with slices = 4,
stacks = 1, rings = 1 filled with a layout that passes the assertion and requests
neither normals nor texture coordinates, `GetNumVerticesNoTexCoords()` is
2*(1 + 1*4) + (1 + 1)*4 = 18, `CalcVboAndEbo` returns, and every index it stores
lies in [0, 18); the fill makes 48 index stores and writes 18 vertices. -/
theorem cylinder_scenario_4_1_1 (loaded : Bool)
    (vertPosOffset vertNormalOffset vertTexCoordsOffset : Int) (stride : Nat)
    (hp : vertPosOffset ≥ 0) (hs : stride > 0)
    (_hn : vertNormalOffset < 0) (ht : vertTexCoordsOffset < 0) :
    (⟨4, 1, 1, loaded⟩ : GlGeomCylinder).GetNumVerticesNoTexCoords = 18 ∧
    ∃ vbo ebo,
      (⟨4, 1, 1, loaded⟩ : GlGeomCylinder).CalcVboAndEbo vertPosOffset vertNormalOffset
        vertTexCoordsOffset stride = some (vbo, ebo) ∧
      (∀ e ∈ ebo.written, (0 : Int) ≤ ((e.2 : Nat) : Int) ∧ ((e.2 : Nat) : Int) < 18) ∧
      ebo.written.length = 48 ∧ (vertsWritten vbo).length = 18 := by
  have hv : (⟨4, 1, 1, loaded⟩ : GlGeomCylinder).ValidResolution := by
    unfold GlGeomCylinder.ValidResolution
    simp
  have htc : decide (vertTexCoordsOffset ≥ 0) = false := by
    rw [decide_eq_false_iff_not]
    omega
  have h18' : (⟨4, 1, 1, loaded⟩ : GlGeomCylinder).GetNumVerticesNoTexCoords = 18 := by
    simp [GlGeomCylinder.GetNumVerticesNoTexCoords, GlGeomCylinder.GetNumVerticesDisk,
      GlGeomCylinder.GetNumVerticesSideNoTexCoords]
  have h18 : (⟨4, 1, 1, loaded⟩ : GlGeomCylinder).vertexCount false = 18 := by
    simpa [GlGeomCylinder.vertexCount] using h18'
  refine ⟨h18', _, _, by unfold GlGeomCylinder.CalcVboAndEbo; rw [if_pos ⟨hp, hs⟩], ?_, ?_, ?_⟩
  · intro e he
    rw [htc, GlGeomCylinder.cylFillEbo_eq] at he
    have hlt := written_lt_of_tris _ 18 (by omega)
      (fun t ht => by
        have := (GlGeomCylinder.cylTris_ok _ hv false t ht).1
        rwa [h18] at this) e he
    exact ⟨by omega, hlt⟩
  · have hlen := GlGeomCylinder.cylTris_length _ hv false
    have h48 : (⟨4, 1, 1, loaded⟩ : GlGeomCylinder).GetNumElements = 48 := by
      simp [GlGeomCylinder.GetNumElements, GlGeomCylinder.GetNumElementsDisk,
        GlGeomCylinder.GetNumElementsSide]
    rw [htc, GlGeomCylinder.cylFillEbo_eq, written_length, length_flat3]
    omega
  · rw [GlGeomCylinder.cyl_length_vertsWritten _ hv, htc, h18]
    rfl

theorem cylinder_scenario_4_1_1_witness :
    (0 : Int) ≥ 0 ∧ 3 > 0 ∧ (-1 : Int) < 0 ∧ (-1 : Int) < 0 ∧
    (⟨4, 1, 1, false⟩ : GlGeomCylinder).GetNumVerticesNoTexCoords = 18 ∧
    ∃ vbo ebo,
      (⟨4, 1, 1, false⟩ : GlGeomCylinder).CalcVboAndEbo 0 (-1) (-1) 3 = some (vbo, ebo) ∧
      (∀ e ∈ ebo.written, (0 : Int) ≤ ((e.2 : Nat) : Int) ∧ ((e.2 : Nat) : Int) < 18) ∧
      ebo.written.length = 48 ∧ (vertsWritten vbo).length = 18 :=
  ⟨by decide, by decide, by decide, by decide,
    cylinder_scenario_4_1_1 false 0 (-1) (-1) 3 (by decide) (by decide) (by decide) (by decide)⟩

theorem ClampRange_mem (x lo hi : Int) (h : lo ≤ hi) :
    lo ≤ ClampRange x lo hi ∧ ClampRange x lo hi ≤ hi := by
  unfold ClampRange
  split_ifs <;> omega

theorem ClampRange_of_mem (x lo hi : Int) (h1 : lo ≤ x) (h2 : x ≤ hi) :
    ClampRange x lo hi = x := by
  unfold ClampRange
  split_ifs <;> omega

/-- C12 (as stated, at a failing input). In the state built by
`GlGeomCylinder(1, 1, 1)`, `Remesh(1, 1, 1)` returns early and leaves
`numSlices` = 1, which is not the clamp 3 of the request; likewise the torus
built by `GlGeomTorus(1, 1, 0.5)` keeps `numRings` = 1 after
`Remesh(1, 1, 0.5)`. -/
theorem remesh_clamp_counterexample :
    ((GlGeomCylinder.construct 1 1 1).Remesh 1 1 1).numSlices = 1 ∧
    ((GlGeomCylinder.construct 1 1 1).Remesh 1 1 1).numSlices ≠ ClampRange 1 3 255 ∧
    ((GlGeomTorus.construct 1 1 FExpr.half).Remesh (fun a b => decide (a = b)) 1 1
      FExpr.half).numRings ≠ ClampRange 1 3 255 := by
  decide

/-- C12 (amended). Resolution clamping on `Remesh`: for a cylinder state and a
request such that the held resolution is valid or the request differs from the
held values, after `Remesh(slices, stacks, rings)` the held values are
`ClampRange(slices, 3, 255)`, `ClampRange(stacks, 1, 255)`,
`ClampRange(rings, 1, 255)`, each within its range; a request with slices = 1
yields 3 slices and a request with rings = 0 yields 1 ring.  Likewise for a torus
state and a request such that the held resolution is valid or the early return
is not taken, `numRings` and `numSides` are the clamps of the request into
[3, 255]. -/
theorem remesh_clamps (gc : GlGeomCylinder) (slices stacks' rings : Int)
    (gt : GlGeomTorus) (floatEq : FExpr → FExpr → Bool) (tRings tSides : Int)
    (minorRadius : FExpr)
    (hc : gc.ValidResolution ∨
      ¬ (slices = gc.numSlices ∧ stacks' = gc.numStacks ∧ rings = gc.numRings))
    (ht : gt.ValidResolution ∨
      ¬ (tSides = gt.numSides ∧ tRings = gt.numRings ∧ floatEq minorRadius gt.radius = true)) :
    ((gc.Remesh slices stacks' rings).numSlices = ClampRange slices 3 255 ∧
      (gc.Remesh slices stacks' rings).numStacks = ClampRange stacks' 1 255 ∧
      (gc.Remesh slices stacks' rings).numRings = ClampRange rings 1 255) ∧
    (gc.Remesh slices stacks' rings).ValidResolution ∧
    (slices = 1 → (gc.Remesh slices stacks' rings).numSlices = 3) ∧
    (rings = 0 → (gc.Remesh slices stacks' rings).numRings = 1) ∧
    ((gt.Remesh floatEq tRings tSides minorRadius).numRings = ClampRange tRings 3 255 ∧
      (gt.Remesh floatEq tRings tSides minorRadius).numSides = ClampRange tSides 3 255) ∧
    (gt.Remesh floatEq tRings tSides minorRadius).ValidResolution := by
  have hcyl : (gc.Remesh slices stacks' rings).numSlices = ClampRange slices 3 255 ∧
      (gc.Remesh slices stacks' rings).numStacks = ClampRange stacks' 1 255 ∧
      (gc.Remesh slices stacks' rings).numRings = ClampRange rings 1 255 := by
    unfold GlGeomCylinder.Remesh
    split_ifs with h
    · rcases hc with hv | hne
      · obtain ⟨⟨h1, h2⟩, ⟨h3, h4⟩, ⟨h5, h6⟩⟩ := hv
        obtain ⟨rfl, rfl, rfl⟩ := h
        exact ⟨(ClampRange_of_mem _ _ _ h1 h2).symm, (ClampRange_of_mem _ _ _ h3 h4).symm,
          (ClampRange_of_mem _ _ _ h5 h6).symm⟩
      · exact absurd h hne
    · exact ⟨rfl, rfl, rfl⟩
  have htor : (gt.Remesh floatEq tRings tSides minorRadius).numRings = ClampRange tRings 3 255 ∧
      (gt.Remesh floatEq tRings tSides minorRadius).numSides = ClampRange tSides 3 255 := by
    unfold GlGeomTorus.Remesh
    split_ifs with h
    · rcases ht with hv | hne
      · obtain ⟨⟨h1, h2⟩, ⟨h3, h4⟩⟩ := hv
        obtain ⟨rfl, rfl, -⟩ := h
        exact ⟨(ClampRange_of_mem _ _ _ h1 h2).symm, (ClampRange_of_mem _ _ _ h3 h4).symm⟩
      · exact absurd h hne
    · exact ⟨rfl, rfl⟩
  refine ⟨hcyl, ?_, ?_, ?_, htor, ?_⟩
  · unfold GlGeomCylinder.ValidResolution
    rw [hcyl.1, hcyl.2.1, hcyl.2.2]
    exact ⟨ClampRange_mem _ _ _ (by decide), ClampRange_mem _ _ _ (by decide),
      ClampRange_mem _ _ _ (by decide)⟩
  · intro h1
    rw [hcyl.1, h1]
    rfl
  · intro h0
    rw [hcyl.2.2, h0]
    rfl
  · unfold GlGeomTorus.ValidResolution
    rw [htor.1, htor.2]
    exact ⟨ClampRange_mem _ _ _ (by decide), ClampRange_mem _ _ _ (by decide)⟩

theorem remesh_clamps_witness :
    ((⟨3, 1, 1, true⟩ : GlGeomCylinder).ValidResolution ∨
      ¬ ((1 : Int) = (⟨3, 1, 1, true⟩ : GlGeomCylinder).numSlices ∧
        (7 : Int) = (⟨3, 1, 1, true⟩ : GlGeomCylinder).numStacks ∧
        (0 : Int) = (⟨3, 1, 1, true⟩ : GlGeomCylinder).numRings)) ∧
    ((⟨8, 8, FExpr.half, true⟩ : GlGeomTorus).ValidResolution ∨
      ¬ ((300 : Int) = (⟨8, 8, FExpr.half, true⟩ : GlGeomTorus).numSides ∧
        (2 : Int) = (⟨8, 8, FExpr.half, true⟩ : GlGeomTorus).numRings ∧
        (fun a b : FExpr => decide (a = b)) FExpr.half
          (⟨8, 8, FExpr.half, true⟩ : GlGeomTorus).radius = true)) ∧
    (((⟨3, 1, 1, true⟩ : GlGeomCylinder).Remesh 1 7 0).numSlices = ClampRange 1 3 255 ∧
      ((⟨3, 1, 1, true⟩ : GlGeomCylinder).Remesh 1 7 0).numStacks = ClampRange 7 1 255 ∧
      ((⟨3, 1, 1, true⟩ : GlGeomCylinder).Remesh 1 7 0).numRings = ClampRange 0 1 255) ∧
    ((⟨3, 1, 1, true⟩ : GlGeomCylinder).Remesh 1 7 0).ValidResolution ∧
    ((1 : Int) = 1 → ((⟨3, 1, 1, true⟩ : GlGeomCylinder).Remesh 1 7 0).numSlices = 3) ∧
    ((0 : Int) = 0 → ((⟨3, 1, 1, true⟩ : GlGeomCylinder).Remesh 1 7 0).numRings = 1) ∧
    (((⟨8, 8, FExpr.half, true⟩ : GlGeomTorus).Remesh (fun a b => decide (a = b)) 2 300
        FExpr.half).numRings = ClampRange 2 3 255 ∧
      ((⟨8, 8, FExpr.half, true⟩ : GlGeomTorus).Remesh (fun a b => decide (a = b)) 2 300
        FExpr.half).numSides = ClampRange 300 3 255) ∧
    ((⟨8, 8, FExpr.half, true⟩ : GlGeomTorus).Remesh (fun a b => decide (a = b)) 2 300
      FExpr.half).ValidResolution :=
  ⟨by decide, by decide,
    remesh_clamps ⟨3, 1, 1, true⟩ 1 7 0 ⟨8, 8, FExpr.half, true⟩ (fun a b => decide (a = b))
      2 300 FExpr.half (by decide) (by decide)⟩

/-- C13 (the code at a failing input). The constructors store their arguments
unclamped: the state built by `GlGeomCylinder(1)`, that is
`GlGeomCylinder(1, 1, 1)`, is reachable and holds `numSlices` = 1, outside
[3, 255], and it still does after `Remesh(1, 1, 1)`; the state built by
`GlGeomTorus(1, 1)`, that is `GlGeomTorus(1, 1, 0.5)`, is reachable and holds
`numRings` = `numSides` = 1, outside [3, 255]. -/
theorem constructor_does_not_clamp :
    GlGeomCylinder.Reachable (GlGeomCylinder.construct 1 1 1) ∧
    (GlGeomCylinder.construct 1 1 1).numSlices = 1 ∧
    ¬ (GlGeomCylinder.construct 1 1 1).ValidResolution ∧
    GlGeomCylinder.Reachable ((GlGeomCylinder.construct 1 1 1).Remesh 1 1 1) ∧
    ¬ ((GlGeomCylinder.construct 1 1 1).Remesh 1 1 1).ValidResolution ∧
    (∀ floatEq, GlGeomTorus.Reachable floatEq (GlGeomTorus.construct 1 1 FExpr.half)) ∧
    (GlGeomTorus.construct 1 1 FExpr.half).numRings = 1 ∧
    (GlGeomTorus.construct 1 1 FExpr.half).numSides = 1 ∧
    ¬ (GlGeomTorus.construct 1 1 FExpr.half).ValidResolution :=
  ⟨GlGeomCylinder.Reachable.init 1 1 1, rfl, by decide,
    GlGeomCylinder.Reachable.remesh _ 1 1 1 (GlGeomCylinder.Reachable.init 1 1 1), by decide,
    fun _ => GlGeomTorus.Reachable.init 1 1 FExpr.half, rfl, rfl, by decide⟩

/-- C14. `Remesh` with unchanged parameters is a no-op: for every cylinder state,
`Remesh(numSlices, numStacks, numRings)` with the held values returns the state
as it was, so `numSlices`, `numStacks`, `numRings` and `VboEboLoaded` are all
unchanged; and for every torus state, `Remesh(numRings, numSides, minorRadius)`
with the held integers and a `minorRadius` that compares equal to the held
radius returns the state as it was. -/
theorem remesh_same_is_noop (gc : GlGeomCylinder) (gt : GlGeomTorus)
    (floatEq : FExpr → FExpr → Bool) (minorRadius : FExpr)
    (hf : floatEq minorRadius gt.radius = true) :
    gc.Remesh gc.numSlices gc.numStacks gc.numRings = gc ∧
    (gc.Remesh gc.numSlices gc.numStacks gc.numRings).VboEboLoaded = gc.VboEboLoaded ∧
    gt.Remesh floatEq gt.numRings gt.numSides minorRadius = gt ∧
    (gt.Remesh floatEq gt.numRings gt.numSides minorRadius).VboEboLoaded = gt.VboEboLoaded := by
  have h1 : gc.Remesh gc.numSlices gc.numStacks gc.numRings = gc := by
    unfold GlGeomCylinder.Remesh
    rw [if_pos ⟨rfl, rfl, rfl⟩]
  have h2 : gt.Remesh floatEq gt.numRings gt.numSides minorRadius = gt := by
    unfold GlGeomTorus.Remesh
    rw [if_pos ⟨rfl, rfl, hf⟩]
  exact ⟨h1, by rw [h1], h2, by rw [h2]⟩

theorem remesh_same_is_noop_witness :
    (fun a b : FExpr => decide (a = b)) FExpr.half
      (⟨8, 8, FExpr.half, true⟩ : GlGeomTorus).radius = true ∧
    (⟨3, 1, 1, true⟩ : GlGeomCylinder).Remesh 3 1 1 = ⟨3, 1, 1, true⟩ ∧
    ((⟨3, 1, 1, true⟩ : GlGeomCylinder).Remesh 3 1 1).VboEboLoaded = true ∧
    (⟨8, 8, FExpr.half, true⟩ : GlGeomTorus).Remesh (fun a b => decide (a = b)) 8 8 FExpr.half =
      ⟨8, 8, FExpr.half, true⟩ ∧
    ((⟨8, 8, FExpr.half, true⟩ : GlGeomTorus).Remesh (fun a b => decide (a = b)) 8 8
      FExpr.half).VboEboLoaded = true :=
  ⟨by decide,
    remesh_same_is_noop ⟨3, 1, 1, true⟩ ⟨8, 8, FExpr.half, true⟩ (fun a b => decide (a = b))
      FExpr.half (by decide)⟩

/-- C15. `Remesh` with different parameters marks the buffers stale: for every
cylinder state and every request that differs from the held
(`numSlices`, `numStacks`, `numRings`) in at least one component, after `Remesh`
`VboEboLoaded` is false and the held values are `ClampRange(slices, 3, 255)`,
`ClampRange(stacks, 1, 255)`, `ClampRange(rings, 1, 255)`: each lies in its
range and equals the requested value when that lies in the range. -/
theorem remesh_different_marks_stale (g : GlGeomCylinder) (slices stacks' rings : Int)
    (h : ¬ (slices = g.numSlices ∧ stacks' = g.numStacks ∧ rings = g.numRings)) :
    (g.Remesh slices stacks' rings).VboEboLoaded = false ∧
    (g.Remesh slices stacks' rings).numSlices = ClampRange slices 3 255 ∧
    (g.Remesh slices stacks' rings).numStacks = ClampRange stacks' 1 255 ∧
    (g.Remesh slices stacks' rings).numRings = ClampRange rings 1 255 ∧
    (g.Remesh slices stacks' rings).ValidResolution ∧
    (3 ≤ slices → slices ≤ 255 → (g.Remesh slices stacks' rings).numSlices = slices) ∧
    (1 ≤ stacks' → stacks' ≤ 255 → (g.Remesh slices stacks' rings).numStacks = stacks') ∧
    (1 ≤ rings → rings ≤ 255 → (g.Remesh slices stacks' rings).numRings = rings) := by
  unfold GlGeomCylinder.Remesh
  rw [if_neg h]
  refine ⟨rfl, rfl, rfl, rfl, ?_, ?_, ?_, ?_⟩
  · exact ⟨ClampRange_mem _ _ _ (by decide), ClampRange_mem _ _ _ (by decide),
      ClampRange_mem _ _ _ (by decide)⟩
  · exact fun h1 h2 => ClampRange_of_mem _ _ _ h1 h2
  · exact fun h1 h2 => ClampRange_of_mem _ _ _ h1 h2
  · exact fun h1 h2 => ClampRange_of_mem _ _ _ h1 h2

theorem remesh_different_marks_stale_witness :
    ¬ ((1 : Int) = (⟨3, 1, 1, true⟩ : GlGeomCylinder).numSlices ∧
      (1 : Int) = (⟨3, 1, 1, true⟩ : GlGeomCylinder).numStacks ∧
      (300 : Int) = (⟨3, 1, 1, true⟩ : GlGeomCylinder).numRings) ∧
    ((⟨3, 1, 1, true⟩ : GlGeomCylinder).Remesh 1 1 300).VboEboLoaded = false ∧
    ((⟨3, 1, 1, true⟩ : GlGeomCylinder).Remesh 1 1 300).numSlices = ClampRange 1 3 255 ∧
    ((⟨3, 1, 1, true⟩ : GlGeomCylinder).Remesh 1 1 300).numStacks = ClampRange 1 1 255 ∧
    ((⟨3, 1, 1, true⟩ : GlGeomCylinder).Remesh 1 1 300).numRings = ClampRange 300 1 255 ∧
    ((⟨3, 1, 1, true⟩ : GlGeomCylinder).Remesh 1 1 300).ValidResolution ∧
    ((3 : Int) ≤ 1 → (1 : Int) ≤ 255 →
      ((⟨3, 1, 1, true⟩ : GlGeomCylinder).Remesh 1 1 300).numSlices = 1) ∧
    ((1 : Int) ≤ 1 → (1 : Int) ≤ 255 →
      ((⟨3, 1, 1, true⟩ : GlGeomCylinder).Remesh 1 1 300).numStacks = 1) ∧
    ((1 : Int) ≤ 300 → (300 : Int) ≤ 255 →
      ((⟨3, 1, 1, true⟩ : GlGeomCylinder).Remesh 1 1 300).numRings = 300) :=
  ⟨by decide, remesh_different_marks_stale ⟨3, 1, 1, true⟩ 1 1 300 (by decide)⟩

/-- C16. Seam duplication raises the vertex count: for a valid cylinder
resolution `GetNumVerticesTexCoords()` exceeds `GetNumVerticesNoTexCoords()` by
exactly stacks+1, one seam column, and for a valid torus resolution by exactly
rings+sides+1; both excesses are positive. -/
theorem seam_duplication_counts (gc : GlGeomCylinder) (gt : GlGeomTorus)
    (hc : gc.ValidResolution) (ht : gt.ValidResolution) :
    gc.GetNumVerticesTexCoords > gc.GetNumVerticesNoTexCoords ∧
    gc.GetNumVerticesTexCoords - gc.GetNumVerticesNoTexCoords = gc.numStacks + 1 ∧
    gt.GetNumVerticesTexCoords > gt.GetNumVerticesNoTexCoords ∧
    gt.GetNumVerticesTexCoords - gt.GetNumVerticesNoTexCoords =
      gt.numRings + gt.numSides + 1 := by
  obtain ⟨⟨hS3, hS⟩, ⟨hT1, hT⟩, ⟨hR1, hR⟩⟩ := hc
  obtain ⟨⟨hr3, hr⟩, ⟨hs3, hs⟩⟩ := ht
  have h1 : gc.GetNumVerticesTexCoords - gc.GetNumVerticesNoTexCoords = gc.numStacks + 1 := by
    unfold GlGeomCylinder.GetNumVerticesTexCoords GlGeomCylinder.GetNumVerticesNoTexCoords
      GlGeomCylinder.GetNumVerticesSideTexCoords GlGeomCylinder.GetNumVerticesSideNoTexCoords
    ring
  have h2 : gt.GetNumVerticesTexCoords - gt.GetNumVerticesNoTexCoords =
      gt.numRings + gt.numSides + 1 := by
    unfold GlGeomTorus.GetNumVerticesTexCoords GlGeomTorus.GetNumVerticesNoTexCoords
    ring
  exact ⟨by omega, h1, by omega, h2⟩

theorem seam_duplication_counts_witness :
    (⟨4, 1, 1, false⟩ : GlGeomCylinder).ValidResolution ∧
    (⟨3, 4, FExpr.half, false⟩ : GlGeomTorus).ValidResolution ∧
    (⟨4, 1, 1, false⟩ : GlGeomCylinder).GetNumVerticesTexCoords >
      (⟨4, 1, 1, false⟩ : GlGeomCylinder).GetNumVerticesNoTexCoords ∧
    (⟨4, 1, 1, false⟩ : GlGeomCylinder).GetNumVerticesTexCoords -
      (⟨4, 1, 1, false⟩ : GlGeomCylinder).GetNumVerticesNoTexCoords = 1 + 1 ∧
    (⟨3, 4, FExpr.half, false⟩ : GlGeomTorus).GetNumVerticesTexCoords >
      (⟨3, 4, FExpr.half, false⟩ : GlGeomTorus).GetNumVerticesNoTexCoords ∧
    (⟨3, 4, FExpr.half, false⟩ : GlGeomTorus).GetNumVerticesTexCoords -
      (⟨3, 4, FExpr.half, false⟩ : GlGeomTorus).GetNumVerticesNoTexCoords = 4 + 3 + 1 :=
  ⟨by decide, by decide,
    seam_duplication_counts ⟨4, 1, 1, false⟩ ⟨3, 4, FExpr.half, false⟩ (by decide) (by decide)⟩

/-! ### Stored values: seam duplicates and texture coordinates -/

theorem exact_div_self (n : Int) (hn : n ≠ 0) :
    (FExpr.div (FExpr.ofInt n) (FExpr.ofInt n)).exact = some 1 := by
  have h : (n : ℚ) ≠ 0 := by exact_mod_cast hn
  simp [FExpr.exact, h]

theorem exact_div_zero (n : Int) (hn : n ≠ 0) :
    (FExpr.div (FExpr.ofInt 0) (FExpr.ofInt n)).exact = some 0 := by
  have h : (n : ℚ) ≠ 0 := by exact_mod_cast hn
  simp [FExpr.exact, h]

theorem exact_div_ofInt (a n : Int) (hn : n ≠ 0) :
    (FExpr.div (FExpr.ofInt a) (FExpr.ofInt n)).exact = some ((a : ℚ) / (n : ℚ)) := by
  have h : (n : ℚ) ≠ 0 := by exact_mod_cast hn
  simp [FExpr.exact, h]

namespace GlGeomTorus

/-- Two vertices of the torus fill whose ring numbers agree modulo `numRings` and
whose side numbers agree modulo `numSides`: stores of the same attribute
component hold the same value, except for texture coordinates, which hold
`(float)i / (float)numRings` and `(float)j / (float)numSides`. -/
theorem vertexWrites_pair (g : GlGeomTorus) (n t stride i i' p p' j j' : Int)
    (hi : i.tmod g.numRings = i'.tmod g.numRings)
    (hj : j.tmod g.numSides = j'.tmod g.numSides) :
    ∀ w ∈ g.vertexWrites n t stride i p j, ∀ w' ∈ g.vertexWrites n t stride i' p' j',
      w.attr = w'.attr → w.comp = w'.comp →
      (w.attr ≠ Attr.texcoord → w.val = w'.val) ∧
      (w.attr = Attr.texcoord → w.comp = 0 ∨ w.comp = 1) ∧
      (w.attr = Attr.texcoord → w.comp = 0 →
        w.val = FExpr.div (FExpr.ofInt i) (FExpr.ofInt g.numRings) ∧
        w'.val = FExpr.div (FExpr.ofInt i') (FExpr.ofInt g.numRings)) ∧
      (w.attr = Attr.texcoord → w.comp = 1 →
        w.val = FExpr.div (FExpr.ofInt j) (FExpr.ofInt g.numSides) ∧
        w'.val = FExpr.div (FExpr.ofInt j') (FExpr.ofInt g.numSides)) := by
  intro w hw w' hw' hattr hcomp
  unfold vertexWrites ringVertex at hw hw'
  simp only [] at hw hw'
  rw [hi, hj] at hw
  split_ifs at hw hw' with h1 h2 h2 <;>
    simp only [List.nil_append, List.cons_append, List.mem_cons, List.mem_singleton,
      List.not_mem_nil, or_false] at hw hw' <;>
    rcases hw with rfl | rfl | rfl | rfl | rfl | rfl | rfl | rfl <;>
    rcases hw' with rfl | rfl | rfl | rfl | rfl | rfl | rfl | rfl <;>
    simp at hattr hcomp ⊢

theorem vertexWrites_has_tex (g : GlGeomTorus) (n t stride i p j : Int) (ht : t ≥ 0) :
    (∃ w ∈ g.vertexWrites n t stride i p j, w.attr = Attr.texcoord ∧ w.comp = 0) ∧
    (∃ w ∈ g.vertexWrites n t stride i p j, w.attr = Attr.texcoord ∧ w.comp = 1) := by
  unfold vertexWrites ringVertex
  simp only []
  split_ifs <;> simp

theorem mem_torFillVbo (g : GlGeomTorus) (hv : g.ValidResolution) (p n t stride : Int)
    (w : VboWrite) :
    w ∈ g.fillVbo p n t stride ↔
      ∃ i, (0 ≤ i ∧ i < g.ringCount (decide (t ≥ 0))) ∧
        ∃ j, (0 ≤ j ∧ j < g.sideStride (decide (t ≥ 0))) ∧
          w ∈ g.vertexWrites n t stride i
            ((i * g.sideStride (decide (t ≥ 0)) + j) * stride) j := by
  rw [g.torFillVbo_valid hv]
  simp only [List.mem_flatMap, mem_loopRange]

end GlGeomTorus

namespace GlGeomCylinder

end GlGeomCylinder

/-- C19. Torus texture coordinates: for a valid resolution and a layout that
passes the assertion and requests texture coordinates, the fill returns; every
vertex (i, j) with 0 <= i <= rings, 0 <= j <= sides gets both texture
coordinates stored; every store of a first texture coordinate holds
`(float)i / (float)numRings` and every store of a second one
`(float)j / (float)numSides`, with exact values i/rings and j/sides; so the
vertex (0, 0) gets (0, 0) and the vertex (rings, sides) gets (1, 1). -/
theorem torus_texcoords (g : GlGeomTorus) (hv : g.ValidResolution)
    (vertPosOffset vertNormalOffset vertTexCoordsOffset : Int) (stride : Nat)
    (hp : vertPosOffset ≥ 0) (hs : stride > 0) (ht : vertTexCoordsOffset ≥ 0) :
    ∃ vbo ebo,
      g.CalcVboAndEbo vertPosOffset vertNormalOffset vertTexCoordsOffset stride =
        some (vbo, ebo) ∧
      (∀ i j, 0 ≤ i → i ≤ g.numRings → 0 ≤ j → j ≤ g.numSides →
        (∃ w ∈ vbo, w.i = i ∧ w.j = j ∧ w.attr = Attr.texcoord ∧ w.comp = 0) ∧
        (∃ w ∈ vbo, w.i = i ∧ w.j = j ∧ w.attr = Attr.texcoord ∧ w.comp = 1)) ∧
      (∀ w ∈ vbo, w.attr = Attr.texcoord →
        (w.comp = 0 ∨ w.comp = 1) ∧
        (w.comp = 0 →
          w.val = FExpr.div (FExpr.ofInt w.i) (FExpr.ofInt g.numRings) ∧
          w.val.exact = some ((w.i : ℚ) / (g.numRings : ℚ))) ∧
        (w.comp = 1 →
          w.val = FExpr.div (FExpr.ofInt w.j) (FExpr.ofInt g.numSides) ∧
          w.val.exact = some ((w.j : ℚ) / (g.numSides : ℚ)))) ∧
      (∀ w ∈ vbo, w.attr = Attr.texcoord → w.i = 0 → w.j = 0 → w.val.exact = some 0) ∧
      (∀ w ∈ vbo, w.attr = Attr.texcoord → w.i = g.numRings → w.j = g.numSides →
        w.val.exact = some 1) := by
  have hv' := hv
  obtain ⟨⟨hR3, hR⟩, ⟨hS3, hS⟩⟩ := hv'
  have hR0 : g.numRings ≠ 0 := by omega
  have hS0 : g.numSides ≠ 0 := by omega
  have hdec : decide (vertTexCoordsOffset ≥ 0) = true := decide_eq_true ht
  have hrc : g.ringCount (decide (vertTexCoordsOffset ≥ 0)) = g.numRings + 1 := by
    rw [hdec, g.ringCount_eq]
    rfl
  have hss : g.sideStride (decide (vertTexCoordsOffset ≥ 0)) = g.numSides + 1 := by
    rw [hdec, g.sideStride_eq]
    rfl
  have hval : ∀ w ∈ g.fillVbo vertPosOffset vertNormalOffset vertTexCoordsOffset stride,
      w.attr = Attr.texcoord →
      (w.comp = 0 ∨ w.comp = 1) ∧
      (w.comp = 0 → w.val = FExpr.div (FExpr.ofInt w.i) (FExpr.ofInt g.numRings)) ∧
      (w.comp = 1 → w.val = FExpr.div (FExpr.ofInt w.j) (FExpr.ofInt g.numSides)) := by
    intro w hw ha
    obtain ⟨i, -, j, -, hwm⟩ := (g.mem_torFillVbo hv _ _ _ _ w).1 hw
    obtain ⟨-, h2, h3, -⟩ := g.vertexWrites_spec _ _ _ _ _ _ w hwm
    obtain ⟨-, k2, k3, k4⟩ := g.vertexWrites_pair _ _ _ _ _ _ _ _ _ rfl rfl w hwm w hwm rfl rfl
    rw [h2, h3]
    exact ⟨k2 ha, fun h0 => (k3 ha h0).1, fun h1 => (k4 ha h1).1⟩
  refine ⟨_, _, by unfold GlGeomTorus.CalcVboAndEbo; rw [if_pos ⟨hp, hs⟩], ?_, ?_, ?_, ?_⟩
  · intro i j hi0 hi1 hj0 hj1
    have hmem := fun w => (g.mem_torFillVbo hv vertPosOffset vertNormalOffset
      vertTexCoordsOffset stride w).2
    obtain ⟨⟨w0, hw0, ha0, hc0⟩, ⟨w1, hw1, ha1, hc1⟩⟩ := g.vertexWrites_has_tex
      vertNormalOffset vertTexCoordsOffset stride i
      ((i * g.sideStride (decide (vertTexCoordsOffset ≥ 0)) + j) * stride) j ht
    obtain ⟨-, h2, h3, -⟩ := g.vertexWrites_spec _ _ _ _ _ _ w0 hw0
    obtain ⟨-, h2', h3', -⟩ := g.vertexWrites_spec _ _ _ _ _ _ w1 hw1
    exact ⟨⟨w0, hmem w0 ⟨i, ⟨hi0, by omega⟩, j, ⟨hj0, by omega⟩, hw0⟩, h2, h3, ha0, hc0⟩,
      ⟨w1, hmem w1 ⟨i, ⟨hi0, by omega⟩, j, ⟨hj0, by omega⟩, hw1⟩, h2', h3', ha1, hc1⟩⟩
  · intro w hw ha
    obtain ⟨k1, k2, k3⟩ := hval w hw ha
    refine ⟨k1, fun h0 => ⟨k2 h0, ?_⟩, fun h1 => ⟨k3 h1, ?_⟩⟩
    · rw [k2 h0]
      exact exact_div_ofInt _ _ hR0
    · rw [k3 h1]
      exact exact_div_ofInt _ _ hS0
  · intro w hw ha hi hj
    obtain ⟨k1, k2, k3⟩ := hval w hw ha
    rcases k1 with h0 | h1
    · rw [k2 h0, hi]
      exact exact_div_zero _ hR0
    · rw [k3 h1, hj]
      exact exact_div_zero _ hS0
  · intro w hw ha hi hj
    obtain ⟨k1, k2, k3⟩ := hval w hw ha
    rcases k1 with h0 | h1
    · rw [k2 h0, hi]
      exact exact_div_self _ hR0
    · rw [k3 h1, hj]
      exact exact_div_self _ hS0

theorem torus_texcoords_witness :
    (GlGeomTorus.construct 3 3 FExpr.half).ValidResolution ∧
    (0 : Int) ≥ 0 ∧ 8 > 0 ∧ (6 : Int) ≥ 0 ∧
    ∃ vbo ebo,
      (GlGeomTorus.construct 3 3 FExpr.half).CalcVboAndEbo 0 3 6 8 = some (vbo, ebo) ∧
      (∀ i j, 0 ≤ i → i ≤ (GlGeomTorus.construct 3 3 FExpr.half).numRings →
        0 ≤ j → j ≤ (GlGeomTorus.construct 3 3 FExpr.half).numSides →
        (∃ w ∈ vbo, w.i = i ∧ w.j = j ∧ w.attr = Attr.texcoord ∧ w.comp = 0) ∧
        (∃ w ∈ vbo, w.i = i ∧ w.j = j ∧ w.attr = Attr.texcoord ∧ w.comp = 1)) ∧
      (∀ w ∈ vbo, w.attr = Attr.texcoord →
        (w.comp = 0 ∨ w.comp = 1) ∧
        (w.comp = 0 →
          w.val = FExpr.div (FExpr.ofInt w.i)
            (FExpr.ofInt (GlGeomTorus.construct 3 3 FExpr.half).numRings) ∧
          w.val.exact =
            some ((w.i : ℚ) / ((GlGeomTorus.construct 3 3 FExpr.half).numRings : ℚ))) ∧
        (w.comp = 1 →
          w.val = FExpr.div (FExpr.ofInt w.j)
            (FExpr.ofInt (GlGeomTorus.construct 3 3 FExpr.half).numSides) ∧
          w.val.exact =
            some ((w.j : ℚ) / ((GlGeomTorus.construct 3 3 FExpr.half).numSides : ℚ)))) ∧
      (∀ w ∈ vbo, w.attr = Attr.texcoord → w.i = 0 → w.j = 0 → w.val.exact = some 0) ∧
      (∀ w ∈ vbo, w.attr = Attr.texcoord →
        w.i = (GlGeomTorus.construct 3 3 FExpr.half).numRings →
        w.j = (GlGeomTorus.construct 3 3 FExpr.half).numSides → w.val.exact = some 1) :=
  ⟨by decide, by decide, by decide, by decide,
    torus_texcoords (GlGeomTorus.construct 3 3 FExpr.half) (by decide) 0 3 6 8
      (by decide) (by decide) (by decide)⟩

/-! ### `RenderRing` sub-ranges -/

namespace GlGeomTorus

theorem RenderRing_eq (g : GlGeomTorus) (i : Int) (h0 : 0 ≤ i) (h1 : i < g.numRings) :
    g.RenderRing i =
      some { count := g.GetNumElementsPerRing, start := i * g.GetNumElementsPerRing } := by
  unfold RenderRing
  rw [if_pos ⟨h0, h1⟩]

theorem RenderRing_some (g : GlGeomTorus) (i : Int) (r : EboRange) (h : g.RenderRing i = some r) :
    (0 ≤ i ∧ i < g.numRings) ∧
      r = { count := g.GetNumElementsPerRing, start := i * g.GetNumElementsPerRing } := by
  unfold RenderRing at h
  split_ifs at h with hi
  simp only [Option.some.injEq] at h
  exact ⟨hi, h.symm⟩

/-- Position `k` lies in the sub-range of some ring exactly when it is a position
of the index buffer. -/
theorem ring_ranges_cover (g : GlGeomTorus) (hv : g.ValidResolution) (k : Int) :
    (0 ≤ k ∧ k < g.GetNumElements) ↔ ∃ i r, g.RenderRing i = some r ∧ r.covers k := by
  obtain ⟨⟨hR3, hR⟩, ⟨hS3, hS⟩⟩ := hv
  have hn : 0 < g.GetNumElementsPerRing := by
    unfold GetNumElementsPerRing
    omega
  have hN : g.GetNumElements = g.numRings * g.GetNumElementsPerRing := by
    unfold GetNumElements GetNumElementsPerRing
    ring
  constructor
  · rintro ⟨h0, h1⟩
    rw [hN] at h1
    have hi0 : 0 ≤ k / g.GetNumElementsPerRing := Int.ediv_nonneg h0 (le_of_lt hn)
    have hi1 := Int.ediv_lt_of_lt_mul hn h1
    refine ⟨k / g.GetNumElementsPerRing, _, g.RenderRing_eq _ hi0 hi1, ?_⟩
    unfold EboRange.covers
    dsimp only
    have h2 := Int.ediv_add_emod' k g.GetNumElementsPerRing
    have h3 := Int.emod_nonneg k (ne_of_gt hn)
    have h4 := Int.emod_lt_of_pos k hn
    omega
  · rintro ⟨i, r, hr, hk⟩
    obtain ⟨⟨hi0, hi1⟩, rfl⟩ := g.RenderRing_some i r hr
    unfold EboRange.covers at hk
    dsimp only at hk
    rw [hN]
    have h5 : 0 ≤ i * g.GetNumElementsPerRing := mul_nonneg hi0 (le_of_lt hn)
    have h6 : i * g.GetNumElementsPerRing + g.GetNumElementsPerRing ≤
        g.numRings * g.GetNumElementsPerRing := by nlinarith
    omega

end GlGeomTorus

/-- C18. `RenderRing` sub-ranges partition the torus index buffer: for a valid
resolution, `RenderRing(i)` for 0 <= i < rings hands
(`GetNumElementsPerRing()`, i * `GetNumElementsPerRing()`) to `RenderEBO`, that
is, the positions [i*n, (i+1)*n) with n = `GetNumElementsPerRing()`; the
sub-ranges of two different rings, in particular of rings i and i+1, have no
position in common; a position lies in the sub-range of some ring exactly when
it lies in [0, `GetNumElements()`); and these are exactly the positions that
`CalcVboAndEbo` stores to. -/
theorem render_ring_partition (g : GlGeomTorus) (hv : g.ValidResolution)
    (vertPosOffset vertNormalOffset vertTexCoordsOffset : Int) (stride : Nat)
    (hp : vertPosOffset ≥ 0) (hs : stride > 0) :
    (∀ i, 0 ≤ i → i < g.numRings →
      ∃ r, g.RenderRing i = some r ∧
        ∀ k, r.covers k ↔
          i * g.GetNumElementsPerRing ≤ k ∧ k < (i + 1) * g.GetNumElementsPerRing) ∧
    (∀ i i' r r', i ≠ i' → g.RenderRing i = some r → g.RenderRing i' = some r' →
      ∀ k, ¬ (r.covers k ∧ r'.covers k)) ∧
    (∀ i r r', g.RenderRing i = some r → g.RenderRing (i + 1) = some r' →
      ∀ k, ¬ (r.covers k ∧ r'.covers k)) ∧
    (∀ k : Int, (0 ≤ k ∧ k < g.GetNumElements) ↔ ∃ i r, g.RenderRing i = some r ∧ r.covers k) ∧
    ∃ vbo ebo,
      g.CalcVboAndEbo vertPosOffset vertNormalOffset vertTexCoordsOffset stride =
        some (vbo, ebo) ∧
      ∀ k : Nat, k ∈ ebo.written.map Prod.fst ↔
        ∃ i r, g.RenderRing i = some r ∧ r.covers (k : Int) := by
  have hn : 0 < g.GetNumElementsPerRing := by
    obtain ⟨-, ⟨hS3, hS⟩⟩ := hv
    unfold GlGeomTorus.GetNumElementsPerRing
    omega
  have hdisj : ∀ i i' r r', i ≠ i' → g.RenderRing i = some r → g.RenderRing i' = some r' →
      ∀ k, ¬ (r.covers k ∧ r'.covers k) := by
    intro i i' r r' hne hr hr' k ⟨hk, hk'⟩
    obtain ⟨-, rfl⟩ := g.RenderRing_some i r hr
    obtain ⟨-, rfl⟩ := g.RenderRing_some i' r' hr'
    unfold EboRange.covers at hk hk'
    dsimp only at hk hk'
    rcases lt_or_gt_of_ne hne with hlt | hgt
    · have : i * g.GetNumElementsPerRing + g.GetNumElementsPerRing ≤
          i' * g.GetNumElementsPerRing := by nlinarith
      omega
    · have : i' * g.GetNumElementsPerRing + g.GetNumElementsPerRing ≤
          i * g.GetNumElementsPerRing := by nlinarith
      omega
  refine ⟨?_, hdisj, ?_, g.ring_ranges_cover hv, ?_⟩
  · intro i h0 h1
    refine ⟨_, g.RenderRing_eq i h0 h1, ?_⟩
    intro k
    unfold EboRange.covers
    dsimp only
    have : (i + 1) * g.GetNumElementsPerRing =
        i * g.GetNumElementsPerRing + g.GetNumElementsPerRing := by ring
    rw [this]
  · intro i r r' hr hr'
    exact hdisj i (i + 1) r r' (by omega) hr hr'
  · refine ⟨_, _, by unfold GlGeomTorus.CalcVboAndEbo; rw [if_pos ⟨hp, hs⟩], ?_⟩
    intro k
    have hlen := g.torTris_length hv (decide (vertTexCoordsOffset ≥ 0))
    rw [GlGeomTorus.torFillEbo_eq, written_fst, List.mem_range, length_flat3,
      ← g.ring_ranges_cover hv]
    omega

theorem render_ring_partition_witness :
    (⟨3, 4, FExpr.half, false⟩ : GlGeomTorus).ValidResolution ∧ (0 : Int) ≥ 0 ∧ 8 > 0 ∧
    (∀ i, 0 ≤ i → i < (4 : Int) →
      ∃ r, (⟨3, 4, FExpr.half, false⟩ : GlGeomTorus).RenderRing i = some r ∧
        ∀ k, r.covers k ↔
          i * (⟨3, 4, FExpr.half, false⟩ : GlGeomTorus).GetNumElementsPerRing ≤ k ∧
          k < (i + 1) * (⟨3, 4, FExpr.half, false⟩ : GlGeomTorus).GetNumElementsPerRing) ∧
    (∀ i i' r r', i ≠ i' → (⟨3, 4, FExpr.half, false⟩ : GlGeomTorus).RenderRing i = some r →
      (⟨3, 4, FExpr.half, false⟩ : GlGeomTorus).RenderRing i' = some r' →
      ∀ k, ¬ (r.covers k ∧ r'.covers k)) ∧
    (∀ i r r', (⟨3, 4, FExpr.half, false⟩ : GlGeomTorus).RenderRing i = some r →
      (⟨3, 4, FExpr.half, false⟩ : GlGeomTorus).RenderRing (i + 1) = some r' →
      ∀ k, ¬ (r.covers k ∧ r'.covers k)) ∧
    (∀ k : Int, (0 ≤ k ∧ k < (⟨3, 4, FExpr.half, false⟩ : GlGeomTorus).GetNumElements) ↔
      ∃ i r, (⟨3, 4, FExpr.half, false⟩ : GlGeomTorus).RenderRing i = some r ∧ r.covers k) ∧
    ∃ vbo ebo,
      (⟨3, 4, FExpr.half, false⟩ : GlGeomTorus).CalcVboAndEbo 0 3 6 8 = some (vbo, ebo) ∧
      ∀ k : Nat, k ∈ ebo.written.map Prod.fst ↔
        ∃ i r, (⟨3, 4, FExpr.half, false⟩ : GlGeomTorus).RenderRing i = some r ∧
          r.covers (k : Int) :=
  ⟨by decide, by decide, by decide,
    render_ring_partition ⟨3, 4, FExpr.half, false⟩ (by decide) 0 3 6 8 (by decide) (by decide)⟩

/-! ### `Remesh` and the loaded flag -/

/-- C20 (as stated, at a failing input). Cylinder state holding (3, 1, 1) with
`VboEboLoaded` = true, request `Remesh(1, 1, 1)`: the request differs from the
held values, is clamped to (3, 1, 1), so the held values after the call equal
those before it, and `VboEboLoaded` has changed from true to false. -/
theorem remesh_clamped_request_invalidates :
    ((⟨3, 1, 1, true⟩ : GlGeomCylinder).Remesh 1 1 1).numSlices =
      (⟨3, 1, 1, true⟩ : GlGeomCylinder).numSlices ∧
    ((⟨3, 1, 1, true⟩ : GlGeomCylinder).Remesh 1 1 1).numStacks =
      (⟨3, 1, 1, true⟩ : GlGeomCylinder).numStacks ∧
    ((⟨3, 1, 1, true⟩ : GlGeomCylinder).Remesh 1 1 1).numRings =
      (⟨3, 1, 1, true⟩ : GlGeomCylinder).numRings ∧
    ((⟨3, 1, 1, true⟩ : GlGeomCylinder).Remesh 1 1 1).VboEboLoaded ≠
      (⟨3, 1, 1, true⟩ : GlGeomCylinder).VboEboLoaded := by
  decide

/-- C20 (amended). `Remesh` leaves the loaded flag alone exactly when the request
repeats the held values: for every cylinder state and every request, if
(slices, stacks, rings) equals the held (`numSlices`, `numStacks`, `numRings`)
then the held values and `VboEboLoaded` are unchanged by the call, and if the
request differs from them in some component then `VboEboLoaded` is false after
the call, whether or not the clamped request equals the held resolution; so when
the held values after the call equal those before and the flag was false
before or the request repeats the held values, the flag is unchanged. -/
theorem remesh_flag_frame (g : GlGeomCylinder) (slices stacks' rings : Int) :
    ((slices = g.numSlices ∧ stacks' = g.numStacks ∧ rings = g.numRings) →
      g.Remesh slices stacks' rings = g) ∧
    (¬ (slices = g.numSlices ∧ stacks' = g.numStacks ∧ rings = g.numRings) →
      (g.Remesh slices stacks' rings).VboEboLoaded = false) ∧
    ((slices = g.numSlices ∧ stacks' = g.numStacks ∧ rings = g.numRings) ∨
        g.VboEboLoaded = false →
      (g.Remesh slices stacks' rings).VboEboLoaded = g.VboEboLoaded) := by
  unfold GlGeomCylinder.Remesh
  refine ⟨fun h => by rw [if_pos h], fun h => by rw [if_neg h], ?_⟩
  rintro (h | h)
  · rw [if_pos h]
  · split_ifs
    · rfl
    · exact h.symm

theorem remesh_flag_frame_witness :
    (((3 : Int) = (⟨3, 1, 1, true⟩ : GlGeomCylinder).numSlices ∧
        (1 : Int) = (⟨3, 1, 1, true⟩ : GlGeomCylinder).numStacks ∧
        (1 : Int) = (⟨3, 1, 1, true⟩ : GlGeomCylinder).numRings) ∨
      (⟨3, 1, 1, true⟩ : GlGeomCylinder).VboEboLoaded = false) ∧
    ((⟨3, 1, 1, true⟩ : GlGeomCylinder).Remesh 3 1 1).VboEboLoaded =
      (⟨3, 1, 1, true⟩ : GlGeomCylinder).VboEboLoaded :=
  ⟨by decide, (remesh_flag_frame ⟨3, 1, 1, true⟩ 3 1 1).2.2 (by decide)⟩

/-! ### Positions of the index stores -/

/-- Entry `i * c + k` of a concatenation of chunks of length `c` is entry `k` of
chunk `i`. -/
theorem getElem_flatMap_chunk {α β : Type} (l : List α) (f : α → List β) (c : Nat)
    (h : ∀ x ∈ l, (f x).length = c) (i k : Nat) (hk : k < c) (x : α) (hx : l[i]? = some x) :
    (l.flatMap f)[i * c + k]? = (f x)[k]? := by
  induction l generalizing i with
  | nil => simp at hx
  | cons a l ih =>
    have ha : (f a).length = c := h a (List.mem_cons_self _ _)
    rw [List.flatMap_cons, List.getElem?_append]
    cases i with
    | zero =>
      simp only [List.getElem?_cons_zero, Option.some.injEq] at hx
      subst hx
      rw [if_pos (by omega)]
      simp
    | succ i =>
      simp only [List.getElem?_cons_succ] at hx
      rw [if_neg (by rw [ha]; nlinarith), ha]
      have : (i + 1) * c + k - c = i * c + k := by
        have : (i + 1) * c = i * c + c := by ring
        omega
      rw [this]
      exact ih (fun y hy => h y (List.mem_cons_of_mem _ hy)) i hx

theorem getElem_loopRange (lo hi : Int) (i : Nat) (hi' : (i : Int) < hi - lo) :
    (loopRange lo hi)[i]? = some (lo + (i : Int)) := by
  unfold loopRange
  rw [List.getElem?_map, List.getElem?_range (by omega)]
  rfl

/-- A store of a fill is the store of the value at its position. -/
theorem written_entry (vals : List Int) (e : Nat × Nat)
    (he : e ∈ (EboState.putAll ⟨0, []⟩ vals).written) :
    ∃ v, vals[e.1]? = some v ∧ e.2 = toUnsigned v := by
  rw [written_init, List.mem_iff_getElem?] at he
  obtain ⟨k, hk⟩ := he
  rw [List.getElem?_zip_eq_some] at hk
  obtain ⟨h1, h2⟩ := hk
  rw [List.getElem?_map] at h2
  have hlt : k < vals.length := by
    rcases Nat.lt_or_ge k vals.length with h | h
    · exact h
    · rw [List.getElem?_eq_none (by simpa using h)] at h1
      cases h1
  rw [List.getElem?_range hlt] at h1
  simp only [Option.some.injEq] at h1
  rw [← h1]
  rw [List.getElem?_eq_getElem hlt] at h2 ⊢
  simp only [Option.map_some', Option.some.injEq] at h2
  exact ⟨_, rfl, h2.symm⟩

namespace GlGeomTorus

/-- Triangle number `i * (2 * sides) + 2 * j + m` of the torus fill is triangle
`m` of quad `j` of ring `i`. -/
theorem tris_quad (g : GlGeomTorus) (tc : Bool) (i j m : Nat)
    (hi : (i : Int) < g.numRings) (hj : (j : Int) < g.numSides) (hm : m < 2) :
    (g.tris tc)[i * (g.numSides.toNat * 2) + (j * 2 + m)]? =
      (g.quadTris tc ((i : Int) * (if tc then g.numSides + 1 else g.numSides))
        ((if tc then (i : Int) + 1 else ((i : Int) + 1).tmod g.numRings) *
          (if tc then g.numSides + 1 else g.numSides)) (j : Int))[m]? := by
  have hlen : ∀ ii ∈ loopRange 0 g.numRings,
      (g.ringTris tc (if tc then g.numSides + 1 else g.numSides) ii).length =
        g.numSides.toNat * 2 := by
    intro ii _
    unfold ringTris
    simp only []
    rw [length_flatMap_const _ (g.quadTris tc _ _) 2 (fun _ _ => rfl), length_loopRange]
    simp
  unfold tris
  rw [getElem_flatMap_chunk _ _ _ hlen i (j * 2 + m) (by omega) (0 + (i : Int))
    (getElem_loopRange 0 _ i (by omega))]
  unfold ringTris
  simp only []
  rw [getElem_flatMap_chunk _ (g.quadTris tc _ _) 2 (fun _ _ => rfl) j m hm (0 + (j : Int))
    (getElem_loopRange 0 _ j (by omega))]
  simp only [zero_add]

end GlGeomTorus

/-- The three stores of triangle number `k` of a fill whose triangles lie within
`[0, n)`: positions `3k`, `3k+1`, `3k+2` hold the three indices of the triangle. -/
theorem written_tri (ts : List (Int × Int × Int)) (n : Int) (hn : n < 4294967296)
    (h : ∀ t ∈ ts, TriIn 0 n t) (k : Nat) (t : Int × Int × Int) (hk : ts[k]? = some t) :
    ∃ a b c : Nat,
      (EboState.putAll ⟨0, []⟩ (ts.flatMap flat3)).written[3 * k]? = some (3 * k, a) ∧
      (EboState.putAll ⟨0, []⟩ (ts.flatMap flat3)).written[3 * k + 1]? = some (3 * k + 1, b) ∧
      (EboState.putAll ⟨0, []⟩ (ts.flatMap flat3)).written[3 * k + 2]? = some (3 * k + 2, c) ∧
      (a : Int) = t.1 ∧ (b : Int) = t.2.1 ∧ (c : Int) = t.2.2 := by
  obtain ⟨h1, h2, h3⟩ := flat3_get ts k t hk
  have hin := h t (List.getElem?_mem hk)
  unfold TriIn at hin
  exact ⟨_, _, _, written_get _ _ _ h1, written_get _ _ _ h2, written_get _ _ _ h3,
    toUnsigned_cast _ (by omega) (by omega), toUnsigned_cast _ (by omega) (by omega),
    toUnsigned_cast _ (by omega) (by omega)⟩

theorem written_at (vals : List Int) (k : Nat) :
    (EboState.putAll ⟨0, []⟩ vals).written[k]? =
      (vals[k]?).map (fun v => (k, toUnsigned v)) := by
  cases h : vals[k]? with
  | none =>
    rw [List.getElem?_eq_none_iff] at h
    rw [List.getElem?_eq_none (by rw [written_length]; exact h)]
    rfl
  | some v => exact written_get vals k v h

theorem getElem_append3 {α : Type} (A B C : List α) (k : Nat) (v : α)
    (h : (A ++ B ++ C)[k]? = some v) :
    (k < A.length ∧ v ∈ A) ∨ (A.length ≤ k ∧ k < A.length + B.length ∧ v ∈ B) ∨
      (A.length + B.length ≤ k ∧ k < A.length + B.length + C.length ∧ v ∈ C) := by
  have hk : k < (A ++ B ++ C).length := by
    rcases Nat.lt_or_ge k (A ++ B ++ C).length with h1 | h1
    · exact h1
    · rw [List.getElem?_eq_none h1] at h
      cases h
  simp only [List.length_append] at hk
  rw [List.append_assoc, List.getElem?_append] at h
  split_ifs at h with h1
  · exact Or.inl ⟨h1, List.getElem?_mem h⟩
  · rw [List.getElem?_append] at h
    split_ifs at h with h2
    · exact Or.inr (Or.inl ⟨by omega, by omega, List.getElem?_mem h⟩)
    · exact Or.inr (Or.inr ⟨by omega, by omega, List.getElem?_mem h⟩)

theorem mem_flat3_TriIn (ts : List (Int × Int × Int)) (lo hi : Int)
    (h : ∀ t ∈ ts, TriIn lo hi t) (v : Int) (hv : v ∈ ts.flatMap flat3) : lo ≤ v ∧ v < hi := by
  obtain ⟨t, ht, hvt⟩ := mem_flat3 ts v hv
  have hin := h t ht
  unfold TriIn at hin
  rcases hvt with rfl | rfl | rfl <;> omega

namespace GlGeomCylinder

theorem bottomTris_length (g : GlGeomCylinder) (i : Int) :
    (g.bottomTris i).length = 1 + (g.numRings - 1).toNat * 2 := by
  unfold bottomTris
  simp only [List.length_cons]
  rw [length_flatMap_const _ _ 2]
  · rw [length_loopRange]
    simp
    omega
  · intro _ _
    rfl

theorem topTris_length (g : GlGeomCylinder) (delta i : Int) :
    (g.topTris delta i).length = 1 + (g.numRings - 1).toNat * 2 := by
  unfold topTris
  simp only [List.length_cons]
  rw [length_flatMap_const _ _ 2]
  · rw [length_loopRange]
    simp
    omega
  · intro _ _
    rfl

theorem sideTris_length (g : GlGeomCylinder) (tc : Bool) (delta i : Int) :
    (g.sideTris tc delta i).length = g.numStacks.toNat * 2 := by
  unfold sideTris
  simp only []
  rw [length_flatMap_const _ _ 2]
  · rw [length_loopRange]
    simp
  · intro _ _
    rfl

/-- The three blocks of the cylinder index buffer have `GetNumElementsDisk()`,
`GetNumElementsDisk()` and `GetNumElementsSide()` entries. -/
theorem block_lengths (g : GlGeomCylinder) (hv : g.ValidResolution) (tc : Bool) :
    (((g.bottomBlock.flatMap flat3).length : Nat) : Int) = g.GetNumElementsDisk ∧
    (((g.topBlock.flatMap flat3).length : Nat) : Int) = g.GetNumElementsDisk ∧
    ((((g.sideBlock tc).flatMap flat3).length : Nat) : Int) = g.GetNumElementsSide := by
  obtain ⟨⟨hS3, hS⟩, ⟨hT1, hT⟩, ⟨hR1, hR⟩⟩ := hv
  have hb : g.bottomBlock.length = g.numSlices.toNat * (1 + (g.numRings - 1).toNat * 2) := by
    unfold bottomBlock
    rw [length_flatMap_const _ _ _ (fun i _ => g.bottomTris_length i), length_loopRange]
    simp
  have ht : g.topBlock.length = g.numSlices.toNat * (1 + (g.numRings - 1).toNat * 2) := by
    unfold topBlock
    rw [length_flatMap_const _ _ _ (fun i _ => g.topTris_length _ i), length_loopRange]
    simp
  have hs : (g.sideBlock tc).length = g.numSlices.toNat * (g.numStacks.toNat * 2) := by
    unfold sideBlock
    rw [length_flatMap_const _ _ _ (fun i _ => g.sideTris_length tc _ i), length_loopRange]
    simp
  rw [length_flat3, length_flat3, length_flat3, hb, ht, hs]
  unfold GetNumElementsDisk GetNumElementsSide
  push_cast
  rw [Int.toNat_of_nonneg (by omega : (0 : Int) ≤ g.numSlices),
    Int.toNat_of_nonneg (by omega : (0 : Int) ≤ g.numRings - 1),
    Int.toNat_of_nonneg (by omega : (0 : Int) ≤ g.numStacks)]
  refine ⟨by ring, by ring, by ring⟩

/-- The fan triangle of slice `i` is the first triangle of the slice, in the
bottom block and in the top block. -/
theorem fan_tris (g : GlGeomCylinder) (tc : Bool) (i : Nat) (hi : (i : Int) < g.numSlices) :
    (g.tris tc)[i * (1 + (g.numRings - 1).toNat * 2)]? =
      some (0, (((i : Int) + 1).tmod g.numSlices) * g.numRings + 1, (i : Int) * g.numRings + 1) ∧
    (g.tris tc)[g.bottomBlock.length + i * (1 + (g.numRings - 1).toNat * 2)]? =
      some (g.GetNumVerticesDisk, g.GetNumVerticesDisk + (i : Int) * g.numRings + 1,
        g.GetNumVerticesDisk + (((i : Int) + 1).tmod g.numSlices) * g.numRings + 1) := by
  have hb := getElem_flatMap_chunk (loopRange 0 g.numSlices) g.bottomTris _
    (fun x _ => g.bottomTris_length x) i 0 (by omega) (0 + (i : Int))
    (getElem_loopRange 0 _ i (by omega))
  have ht := getElem_flatMap_chunk (loopRange 0 g.numSlices) (g.topTris g.GetNumVerticesDisk) _
    (fun x _ => g.topTris_length _ x) i 0 (by omega) (0 + (i : Int))
    (getElem_loopRange 0 _ i (by omega))
  have hlt : i * (1 + (g.numRings - 1).toNat * 2) < g.bottomBlock.length := by
    unfold bottomBlock
    rw [length_flatMap_const _ _ _ (fun x _ => g.bottomTris_length x), length_loopRange]
    have : i < (g.numSlices - 0).toNat := by omega
    nlinarith
  have hlt' : i * (1 + (g.numRings - 1).toNat * 2) < g.topBlock.length := by
    unfold topBlock
    rw [length_flatMap_const _ _ _ (fun x _ => g.topTris_length _ x), length_loopRange]
    have : i < (g.numSlices - 0).toNat := by omega
    nlinarith
  simp only [Nat.add_zero, zero_add] at hb ht
  constructor
  · unfold tris
    rw [List.append_assoc, List.getElem?_append_left hlt]
    unfold bottomBlock
    rw [hb]
    unfold bottomTris
    simp
  · unfold tris
    rw [List.getElem?_append_left (by rw [List.length_append]; omega),
      List.getElem?_append_right (by omega)]
    simp only [Nat.add_sub_cancel_left]
    unfold topBlock
    rw [ht]
    unfold topTris
    simp

end GlGeomCylinder

/-- C21. Cylinder index buffer block structure: for a valid resolution and a
layout that passes the assertion (either texcoord mode), the fill returns and
stores 2n + 6*stacks*slices index entries, n = GetNumElementsDisk() and
D = GetNumVerticesDisk(); entries at positions [0, n) have values in [0, D),
entries at positions [n, 2n) have values in [D, 2D), the remaining entries lie at
positions [2n, 2n + 6*stacks*slices) and have values >= 2D; the entries of the two
disk blocks are the same in both texcoord modes, and the fan triangle of slice i
is (0, ((i+1) mod slices)*rings + 1, i*rings + 1) at position 3*(2*rings-1)*i in
the bottom block and (D, D + i*rings + 1, D + ((i+1) mod slices)*rings + 1) at
position n + 3*(2*rings-1)*i in the top block: the slice index wraps modulo slices
also when texture coordinates are requested. -/
theorem cylinder_index_blocks (g : GlGeomCylinder) (hv : g.ValidResolution)
    (vertPosOffset vertNormalOffset vertTexCoordsOffset : Int) (stride : Nat)
    (hp : vertPosOffset ≥ 0) (hs : stride > 0) :
    ∃ vbo ebo,
      g.CalcVboAndEbo vertPosOffset vertNormalOffset vertTexCoordsOffset stride =
        some (vbo, ebo) ∧
      (ebo.written.length : Int) =
        2 * g.GetNumElementsDisk + 6 * g.numStacks * g.numSlices ∧
      (∀ e ∈ ebo.written,
        ((e.1 : Int) < g.GetNumElementsDisk →
          0 ≤ (e.2 : Int) ∧ (e.2 : Int) < g.GetNumVerticesDisk) ∧
        (g.GetNumElementsDisk ≤ (e.1 : Int) → (e.1 : Int) < 2 * g.GetNumElementsDisk →
          g.GetNumVerticesDisk ≤ (e.2 : Int) ∧ (e.2 : Int) < 2 * g.GetNumVerticesDisk) ∧
        (2 * g.GetNumElementsDisk ≤ (e.1 : Int) →
          (e.1 : Int) < 2 * g.GetNumElementsDisk + 6 * g.numStacks * g.numSlices ∧
          2 * g.GetNumVerticesDisk ≤ (e.2 : Int))) ∧
      (∀ k : Nat, (k : Int) < 2 * g.GetNumElementsDisk →
        ebo.written[k]? = (g.fillEbo true).written[k]? ∧
        ebo.written[k]? = (g.fillEbo false).written[k]?) ∧
      (∀ i : Nat, (i : Int) < g.numSlices →
        ∃ pb pt a b c a' b' c' : Nat,
          (pb : Int) = 3 * (2 * g.numRings - 1) * i ∧
          (pt : Int) = g.GetNumElementsDisk + 3 * (2 * g.numRings - 1) * i ∧
          ebo.written[pb]? = some (pb, a) ∧ ebo.written[pb + 1]? = some (pb + 1, b) ∧
          ebo.written[pb + 2]? = some (pb + 2, c) ∧
          ebo.written[pt]? = some (pt, a') ∧ ebo.written[pt + 1]? = some (pt + 1, b') ∧
          ebo.written[pt + 2]? = some (pt + 2, c') ∧
          (a : Int) = 0 ∧ (b : Int) = (((i : Int) + 1) % g.numSlices) * g.numRings + 1 ∧
          (c : Int) = (i : Int) * g.numRings + 1 ∧
          (a' : Int) = g.GetNumVerticesDisk ∧
          (b' : Int) = g.GetNumVerticesDisk + (i : Int) * g.numRings + 1 ∧
          (c' : Int) =
            g.GetNumVerticesDisk + (((i : Int) + 1) % g.numSlices) * g.numRings + 1) := by
  refine ⟨_, _, by unfold GlGeomCylinder.CalcVboAndEbo; rw [if_pos ⟨hp, hs⟩], ?_⟩
  have hR : 1 ≤ g.numRings := hv.2.2.1
  have hS : 3 ≤ g.numSlices := hv.1.1
  have hsplit : ∀ tc, (g.tris tc).flatMap flat3 =
      g.bottomBlock.flatMap flat3 ++ g.topBlock.flatMap flat3 ++
        (g.sideBlock tc).flatMap flat3 := by
    intro tc
    unfold GlGeomCylinder.tris
    rw [List.flatMap_append, List.flatMap_append]
  obtain ⟨hA, hB, -⟩ := g.block_lengths hv true
  have hC : ∀ tc, ((((g.sideBlock tc).flatMap flat3).length : Nat) : Int) =
      6 * g.numStacks * g.numSlices := fun tc => (g.block_lengths hv tc).2.2
  have hbnd := g.cylVertexCount_bounds hv (decide (vertTexCoordsOffset ≥ 0))
  have hdisk : ∀ tc (k : Nat), (k : Int) < 2 * g.GetNumElementsDisk →
      ((g.tris tc).flatMap flat3)[k]? =
        (g.bottomBlock.flatMap flat3 ++ g.topBlock.flatMap flat3)[k]? := by
    intro tc k hk
    rw [hsplit tc, List.getElem?_append_left]
    rw [List.length_append]
    omega
  refine ⟨?_, ?_, ?_, ?_⟩
  · rw [GlGeomCylinder.cylFillEbo_eq, written_length, hsplit, List.length_append,
      List.length_append]
    push_cast
    rw [hA, hB, hC]
    ring
  · intro e he
    rw [GlGeomCylinder.cylFillEbo_eq] at he
    obtain ⟨v, hv1, hv2⟩ := written_entry _ e he
    rw [hsplit] at hv1
    have hCl := hC (decide (vertTexCoordsOffset ≥ 0))
    rcases getElem_append3 _ _ _ _ _ hv1 with ⟨h1, hm⟩ | ⟨h1, h2, hm⟩ | ⟨h1, h2, hm⟩
    · have hin := mem_flat3_TriIn _ _ _ (fun t ht => (g.bottomBlock_ok hv t ht).1) v hm
      have hc := toUnsigned_cast v (by omega) (by omega)
      rw [← hv2] at hc
      refine ⟨fun _ => by omega, fun _ _ => by omega, fun _ => by omega⟩
    · have hin := mem_flat3_TriIn _ _ _ (fun t ht => (g.topBlock_ok hv t ht).1) v hm
      have hc := toUnsigned_cast v (by omega) (by omega)
      rw [← hv2] at hc
      refine ⟨fun _ => by omega, fun _ _ => by omega, fun _ => by omega⟩
    · have hin := mem_flat3_TriIn _ _ _ (fun t ht => (g.sideBlock_ok hv _ t ht).1) v hm
      have hc := toUnsigned_cast v (by omega) (by omega)
      rw [← hv2] at hc
      refine ⟨fun _ => by omega, fun _ _ => by omega, fun _ => by omega⟩
  · intro k hk
    rw [GlGeomCylinder.cylFillEbo_eq, GlGeomCylinder.cylFillEbo_eq,
      GlGeomCylinder.cylFillEbo_eq, written_at, written_at, written_at,
      hdisk _ k hk, hdisk true k hk, hdisk false k hk]
    exact ⟨rfl, rfl⟩
  · intro i hi
    obtain ⟨hf1, hf2⟩ := g.fan_tris (decide (vertTexCoordsOffset ≥ 0)) i hi
    have hin : ∀ t ∈ g.tris (decide (vertTexCoordsOffset ≥ 0)),
        TriIn 0 (g.vertexCount (decide (vertTexCoordsOffset ≥ 0))) t :=
      fun t ht => (g.cylTris_ok hv _ t ht).1
    obtain ⟨a, b, c, h1, h2, h3, ha, hb, hc⟩ := written_tri _ _ hbnd.2.2 hin _ _ hf1
    obtain ⟨a', b', c', h1', h2', h3', ha', hb', hc'⟩ :=
      written_tri _ _ hbnd.2.2 hin _ _ hf2
    rw [GlGeomCylinder.cylFillEbo_eq]
    have hmod : ((i : Int) + 1).tmod g.numSlices = ((i : Int) + 1) % g.numSlices :=
      Int.tmod_eq_emod (by omega) (by omega)
    rw [hmod] at hb hc'
    have hAl : ((g.bottomBlock.length : Nat) : Int) * 3 = g.GetNumElementsDisk := by
      rw [← hA, length_flat3]
      push_cast
      ring
    refine ⟨_, _, a, b, c, a', b', c', ?_, ?_, h1, h2, h3, h1', h2', h3',
      ha, hb, hc, ha', hb', hc'⟩
    · push_cast
      rw [Int.toNat_of_nonneg (by omega : (0 : Int) ≤ g.numRings - 1)]
      ring
    · push_cast
      rw [Int.toNat_of_nonneg (by omega : (0 : Int) ≤ g.numRings - 1)]
      linarith

theorem cylinder_index_blocks_witness :
    (⟨4, 2, 2, false⟩ : GlGeomCylinder).ValidResolution ∧ (0 : Int) ≥ 0 ∧ 8 > 0 ∧
    ∃ vbo ebo,
      (⟨4, 2, 2, false⟩ : GlGeomCylinder).CalcVboAndEbo 0 3 6 8 =
        some (vbo, ebo) ∧
      (ebo.written.length : Int) =
        2 * (⟨4, 2, 2, false⟩ : GlGeomCylinder).GetNumElementsDisk + 6 * (⟨4, 2, 2, false⟩ : GlGeomCylinder).numStacks * (⟨4, 2, 2, false⟩ : GlGeomCylinder).numSlices ∧
      (∀ e ∈ ebo.written,
        ((e.1 : Int) < (⟨4, 2, 2, false⟩ : GlGeomCylinder).GetNumElementsDisk →
          0 ≤ (e.2 : Int) ∧ (e.2 : Int) < (⟨4, 2, 2, false⟩ : GlGeomCylinder).GetNumVerticesDisk) ∧
        ((⟨4, 2, 2, false⟩ : GlGeomCylinder).GetNumElementsDisk ≤ (e.1 : Int) → (e.1 : Int) < 2 * (⟨4, 2, 2, false⟩ : GlGeomCylinder).GetNumElementsDisk →
          (⟨4, 2, 2, false⟩ : GlGeomCylinder).GetNumVerticesDisk ≤ (e.2 : Int) ∧ (e.2 : Int) < 2 * (⟨4, 2, 2, false⟩ : GlGeomCylinder).GetNumVerticesDisk) ∧
        (2 * (⟨4, 2, 2, false⟩ : GlGeomCylinder).GetNumElementsDisk ≤ (e.1 : Int) →
          (e.1 : Int) < 2 * (⟨4, 2, 2, false⟩ : GlGeomCylinder).GetNumElementsDisk + 6 * (⟨4, 2, 2, false⟩ : GlGeomCylinder).numStacks * (⟨4, 2, 2, false⟩ : GlGeomCylinder).numSlices ∧
          2 * (⟨4, 2, 2, false⟩ : GlGeomCylinder).GetNumVerticesDisk ≤ (e.2 : Int))) ∧
      (∀ k : Nat, (k : Int) < 2 * (⟨4, 2, 2, false⟩ : GlGeomCylinder).GetNumElementsDisk →
        ebo.written[k]? = ((⟨4, 2, 2, false⟩ : GlGeomCylinder).fillEbo true).written[k]? ∧
        ebo.written[k]? = ((⟨4, 2, 2, false⟩ : GlGeomCylinder).fillEbo false).written[k]?) ∧
      (∀ i : Nat, (i : Int) < (⟨4, 2, 2, false⟩ : GlGeomCylinder).numSlices →
        ∃ pb pt a b c a' b' c' : Nat,
          (pb : Int) = 3 * (2 * (⟨4, 2, 2, false⟩ : GlGeomCylinder).numRings - 1) * i ∧
          (pt : Int) = (⟨4, 2, 2, false⟩ : GlGeomCylinder).GetNumElementsDisk + 3 * (2 * (⟨4, 2, 2, false⟩ : GlGeomCylinder).numRings - 1) * i ∧
          ebo.written[pb]? = some (pb, a) ∧ ebo.written[pb + 1]? = some (pb + 1, b) ∧
          ebo.written[pb + 2]? = some (pb + 2, c) ∧
          ebo.written[pt]? = some (pt, a') ∧ ebo.written[pt + 1]? = some (pt + 1, b') ∧
          ebo.written[pt + 2]? = some (pt + 2, c') ∧
          (a : Int) = 0 ∧ (b : Int) = (((i : Int) + 1) % (⟨4, 2, 2, false⟩ : GlGeomCylinder).numSlices) * (⟨4, 2, 2, false⟩ : GlGeomCylinder).numRings + 1 ∧
          (c : Int) = (i : Int) * (⟨4, 2, 2, false⟩ : GlGeomCylinder).numRings + 1 ∧
          (a' : Int) = (⟨4, 2, 2, false⟩ : GlGeomCylinder).GetNumVerticesDisk ∧
          (b' : Int) = (⟨4, 2, 2, false⟩ : GlGeomCylinder).GetNumVerticesDisk + (i : Int) * (⟨4, 2, 2, false⟩ : GlGeomCylinder).numRings + 1 ∧
          (c' : Int) =
            (⟨4, 2, 2, false⟩ : GlGeomCylinder).GetNumVerticesDisk + (((i : Int) + 1) % (⟨4, 2, 2, false⟩ : GlGeomCylinder).numSlices) * (⟨4, 2, 2, false⟩ : GlGeomCylinder).numRings + 1) :=
  ⟨by decide, by decide, by decide,
    cylinder_index_blocks ⟨4, 2, 2, false⟩ (by decide) 0 3 6 8 (by decide) (by decide)⟩

/-- C22. Torus ring block content: for a valid resolution and a layout that passes
the assertion (either texcoord mode), the fill returns, and for each ring
0 <= i < rings and each 0 <= j < sides the six index entries at positions
6*(i*sides + j) .. 6*(i*sides + j) + 5, which lie in the block
[i*6*sides, (i+1)*6*sides) of ring i, are the two triangles (R+j, L+j', L+j) and
(R+j, R+j', L+j') with L = i*sideStride, R = i'*sideStride, sideStride = sides+1,
i' = i+1, j' = j+1 with texture coordinates and sideStride = sides,
i' = (i+1) mod rings, j' = (j+1) mod sides without; L+j and L+j' are vertices of
ring i and R+j, R+j' vertices of ring i'. -/
theorem torus_ring_block (g : GlGeomTorus) (hv : g.ValidResolution)
    (vertPosOffset vertNormalOffset vertTexCoordsOffset : Int) (stride : Nat)
    (hp : vertPosOffset ≥ 0) (hs : stride > 0)
    (i j : Nat) (hi : (i : Int) < g.numRings) (hj : (j : Int) < g.numSides)
    (sideStride i' j' : Int)
    (hss : sideStride = if vertTexCoordsOffset ≥ 0 then g.numSides + 1 else g.numSides)
    (hi' : i' = if vertTexCoordsOffset ≥ 0 then (i : Int) + 1 else ((i : Int) + 1) % g.numRings)
    (hj' : j' = if vertTexCoordsOffset ≥ 0 then (j : Int) + 1 else ((j : Int) + 1) % g.numSides) :
    ∃ vbo ebo,
      g.CalcVboAndEbo vertPosOffset vertNormalOffset vertTexCoordsOffset stride =
        some (vbo, ebo) ∧
      ((i : Int) * (6 * g.numSides) ≤ ((6 * (i * g.numSides.toNat + j) : Nat) : Int) ∧
        ((6 * (i * g.numSides.toNat + j) + 5 : Nat) : Int) < ((i : Int) + 1) * (6 * g.numSides)) ∧
      (∃ a b c d e f : Nat,
        ebo.written[6 * (i * g.numSides.toNat + j)]? =
          some (6 * (i * g.numSides.toNat + j), a) ∧
        ebo.written[6 * (i * g.numSides.toNat + j) + 1]? =
          some (6 * (i * g.numSides.toNat + j) + 1, b) ∧
        ebo.written[6 * (i * g.numSides.toNat + j) + 2]? =
          some (6 * (i * g.numSides.toNat + j) + 2, c) ∧
        ebo.written[6 * (i * g.numSides.toNat + j) + 3]? =
          some (6 * (i * g.numSides.toNat + j) + 3, d) ∧
        ebo.written[6 * (i * g.numSides.toNat + j) + 4]? =
          some (6 * (i * g.numSides.toNat + j) + 4, e) ∧
        ebo.written[6 * (i * g.numSides.toNat + j) + 5]? =
          some (6 * (i * g.numSides.toNat + j) + 5, f) ∧
        (a : Int) = i' * sideStride + j ∧ (b : Int) = i * sideStride + j' ∧
        (c : Int) = i * sideStride + j ∧
        (d : Int) = i' * sideStride + j ∧ (e : Int) = i' * sideStride + j' ∧
        (f : Int) = i * sideStride + j') ∧
      ((i : Int) * sideStride ≤ i * sideStride + j ∧
        (i : Int) * sideStride + j < (i + 1) * sideStride) ∧
      ((i : Int) * sideStride ≤ i * sideStride + j' ∧
        (i : Int) * sideStride + j' < (i + 1) * sideStride) ∧
      (i' * sideStride ≤ i' * sideStride + j ∧ i' * sideStride + j < (i' + 1) * sideStride) ∧
      (i' * sideStride ≤ i' * sideStride + j' ∧
        i' * sideStride + j' < (i' + 1) * sideStride) ∧
      (i' = (i : Int) + 1 ∨ i' = 0) := by
  have hv' := hv
  obtain ⟨⟨hR3, hR⟩, ⟨hS3, hS⟩⟩ := hv'
  have hSn : ((g.numSides.toNat : Nat) : Int) = g.numSides := Int.toNat_of_nonneg (by omega)
  have hmi := tmod_succ (i : Int) g.numRings (by omega) hi
  have hmj := tmod_succ (j : Int) g.numSides (by omega) hj
  have hei : ((i : Int) + 1).tmod g.numRings = ((i : Int) + 1) % g.numRings :=
    Int.tmod_eq_emod (by omega) (by omega)
  have hej : ((j : Int) + 1).tmod g.numSides = ((j : Int) + 1) % g.numSides :=
    Int.tmod_eq_emod (by omega) (by omega)
  have hj'r : 0 ≤ j' ∧ j' < sideStride := by
    rw [hj', hss]
    split_ifs
    · omega
    · rw [← hej]
      rcases hmj with ⟨h, h2⟩ | ⟨h, h2⟩ <;> rw [h] <;> omega
  have hi'r : i' = (i : Int) + 1 ∨ i' = 0 := by
    rw [hi']
    split_ifs
    · exact Or.inl rfl
    · rw [← hei]
      rcases hmi with ⟨h, -⟩ | ⟨h, -⟩
      · exact Or.inl h
      · exact Or.inr h
  have hjr : (j : Int) < sideStride := by
    rw [hss]
    split_ifs <;> omega
  have hq0 := g.tris_quad (decide (vertTexCoordsOffset ≥ 0)) i j 0 hi hj (by omega)
  have hq1 := g.tris_quad (decide (vertTexCoordsOffset ≥ 0)) i j 1 hi hj (by omega)
  unfold GlGeomTorus.quadTris at hq0 hq1
  simp only [decide_eq_true_eq, ← hss, hei, hej, ← hi', ← hj', List.getElem?_cons_zero,
    List.getElem?_cons_succ] at hq0 hq1
  have hok := fun t ht => (g.torTris_ok hv (decide (vertTexCoordsOffset ≥ 0)) t ht).1
  obtain ⟨a, b, c, ha, hb, hc, va, vb, vc⟩ := written_tri _ _
    (g.torVertexCount_bounds hv _).2 hok _ _ hq0
  obtain ⟨d, e, f, hd, he, hf, vd, ve, vf⟩ := written_tri _ _
    (g.torVertexCount_bounds hv _).2 hok _ _ hq1
  have e0 : 3 * (i * (g.numSides.toNat * 2) + (j * 2 + 0)) = 6 * (i * g.numSides.toNat + j) := by
    ring
  have e1 : 3 * (i * (g.numSides.toNat * 2) + (j * 2 + 1)) =
      6 * (i * g.numSides.toNat + j) + 3 := by
    ring
  rw [e0] at ha hb hc
  rw [e1] at hd he hf
  refine ⟨_, _, by unfold GlGeomTorus.CalcVboAndEbo; rw [if_pos ⟨hp, hs⟩], ?_, ?_, ?_, ?_, ?_, ?_,
    hi'r⟩
  · push_cast
    rw [hSn]
    constructor
    · nlinarith
    · nlinarith
  · rw [GlGeomTorus.torFillEbo_eq]
    exact ⟨a, b, c, d, e, f, ha, hb, hc, hd, he, hf, va, vb, vc, vd, ve, vf⟩
  · constructor
    · omega
    · have : ((i : Int) + 1) * sideStride = i * sideStride + sideStride := by ring
      omega
  · constructor
    · omega
    · have : ((i : Int) + 1) * sideStride = i * sideStride + sideStride := by ring
      omega
  · constructor
    · omega
    · have : (i' + 1) * sideStride = i' * sideStride + sideStride := by ring
      omega
  · constructor
    · omega
    · have : (i' + 1) * sideStride = i' * sideStride + sideStride := by ring
      omega

theorem torus_ring_block_witness :
    (⟨3, 3, FExpr.half, false⟩ : GlGeomTorus).ValidResolution ∧ (0 : Int) ≥ 0 ∧ 6 > 0 ∧
    (((2 : Nat) : Int) < (⟨3, 3, FExpr.half, false⟩ : GlGeomTorus).numRings) ∧ (((2 : Nat) : Int) < (⟨3, 3, FExpr.half, false⟩ : GlGeomTorus).numSides) ∧
    ((3 : Int) = if (-1 : Int) ≥ 0 then (⟨3, 3, FExpr.half, false⟩ : GlGeomTorus).numSides + 1 else (⟨3, 3, FExpr.half, false⟩ : GlGeomTorus).numSides) ∧
    ((0 : Int) = if (-1 : Int) ≥ 0 then ((2 : Nat) : Int) + 1
      else (((2 : Nat) : Int) + 1) % (⟨3, 3, FExpr.half, false⟩ : GlGeomTorus).numRings) ∧
    ((0 : Int) = if (-1 : Int) ≥ 0 then ((2 : Nat) : Int) + 1
      else (((2 : Nat) : Int) + 1) % (⟨3, 3, FExpr.half, false⟩ : GlGeomTorus).numSides) ∧
    ∃ vbo ebo,
      (⟨3, 3, FExpr.half, false⟩ : GlGeomTorus).CalcVboAndEbo 0 3 (-1) 6 =
        some (vbo, ebo) ∧
      (((2 : Nat) : Int) * (6 * (⟨3, 3, FExpr.half, false⟩ : GlGeomTorus).numSides) ≤ ((6 * ((2 : Nat) * (⟨3, 3, FExpr.half, false⟩ : GlGeomTorus).numSides.toNat + (2 : Nat)) : Nat) : Int) ∧
        ((6 * ((2 : Nat) * (⟨3, 3, FExpr.half, false⟩ : GlGeomTorus).numSides.toNat + (2 : Nat)) + 5 : Nat) : Int) < (((2 : Nat) : Int) + 1) * (6 * (⟨3, 3, FExpr.half, false⟩ : GlGeomTorus).numSides)) ∧
      (∃ a b c d e f : Nat,
        ebo.written[6 * ((2 : Nat) * (⟨3, 3, FExpr.half, false⟩ : GlGeomTorus).numSides.toNat + (2 : Nat))]? =
          some (6 * ((2 : Nat) * (⟨3, 3, FExpr.half, false⟩ : GlGeomTorus).numSides.toNat + (2 : Nat)), a) ∧
        ebo.written[6 * ((2 : Nat) * (⟨3, 3, FExpr.half, false⟩ : GlGeomTorus).numSides.toNat + (2 : Nat)) + 1]? =
          some (6 * ((2 : Nat) * (⟨3, 3, FExpr.half, false⟩ : GlGeomTorus).numSides.toNat + (2 : Nat)) + 1, b) ∧
        ebo.written[6 * ((2 : Nat) * (⟨3, 3, FExpr.half, false⟩ : GlGeomTorus).numSides.toNat + (2 : Nat)) + 2]? =
          some (6 * ((2 : Nat) * (⟨3, 3, FExpr.half, false⟩ : GlGeomTorus).numSides.toNat + (2 : Nat)) + 2, c) ∧
        ebo.written[6 * ((2 : Nat) * (⟨3, 3, FExpr.half, false⟩ : GlGeomTorus).numSides.toNat + (2 : Nat)) + 3]? =
          some (6 * ((2 : Nat) * (⟨3, 3, FExpr.half, false⟩ : GlGeomTorus).numSides.toNat + (2 : Nat)) + 3, d) ∧
        ebo.written[6 * ((2 : Nat) * (⟨3, 3, FExpr.half, false⟩ : GlGeomTorus).numSides.toNat + (2 : Nat)) + 4]? =
          some (6 * ((2 : Nat) * (⟨3, 3, FExpr.half, false⟩ : GlGeomTorus).numSides.toNat + (2 : Nat)) + 4, e) ∧
        ebo.written[6 * ((2 : Nat) * (⟨3, 3, FExpr.half, false⟩ : GlGeomTorus).numSides.toNat + (2 : Nat)) + 5]? =
          some (6 * ((2 : Nat) * (⟨3, 3, FExpr.half, false⟩ : GlGeomTorus).numSides.toNat + (2 : Nat)) + 5, f) ∧
        (a : Int) = (0 : Int) * (3 : Int) + (2 : Nat) ∧ (b : Int) = (2 : Nat) * (3 : Int) + (0 : Int) ∧
        (c : Int) = (2 : Nat) * (3 : Int) + (2 : Nat) ∧
        (d : Int) = (0 : Int) * (3 : Int) + (2 : Nat) ∧ (e : Int) = (0 : Int) * (3 : Int) + (0 : Int) ∧
        (f : Int) = (2 : Nat) * (3 : Int) + (0 : Int)) ∧
      (((2 : Nat) : Int) * (3 : Int) ≤ (2 : Nat) * (3 : Int) + (2 : Nat) ∧
        ((2 : Nat) : Int) * (3 : Int) + (2 : Nat) < ((2 : Nat) + 1) * (3 : Int)) ∧
      (((2 : Nat) : Int) * (3 : Int) ≤ (2 : Nat) * (3 : Int) + (0 : Int) ∧
        ((2 : Nat) : Int) * (3 : Int) + (0 : Int) < ((2 : Nat) + 1) * (3 : Int)) ∧
      ((0 : Int) * (3 : Int) ≤ (0 : Int) * (3 : Int) + (2 : Nat) ∧ (0 : Int) * (3 : Int) + (2 : Nat) < ((0 : Int) + 1) * (3 : Int)) ∧
      ((0 : Int) * (3 : Int) ≤ (0 : Int) * (3 : Int) + (0 : Int) ∧
        (0 : Int) * (3 : Int) + (0 : Int) < ((0 : Int) + 1) * (3 : Int)) ∧
      ((0 : Int) = ((2 : Nat) : Int) + 1 ∨ (0 : Int) = 0) :=
  ⟨by decide, by decide, by decide, by decide, by decide, by decide, by decide, by decide,
    torus_ring_block ⟨3, 3, FExpr.half, false⟩ (by decide) 0 3 (-1) 6 (by decide) (by decide)
      2 2 (by decide) (by decide) 3 0 0 (by decide) (by decide) (by decide)⟩

/-! ### Extent of the vertex stores -/

/-- A slot `base + off + comp` of the record number `r` lies within the `vc`
records of `stride` floats when the field fits the record. -/
theorem slot_in_buffer (r vc stride off comp width : Int) (hr0 : 0 ≤ r) (hr : r < vc)
    (ho : 0 ≤ off) (hw : off + width ≤ stride) (hc0 : 0 ≤ comp) (hc : comp < width) :
    0 ≤ r * stride + off + comp ∧ r * stride + off + comp < stride * vc := by
  have hs : 0 ≤ stride := by omega
  have h1 : 0 ≤ r * stride := mul_nonneg hr0 hs
  have h2 : (r + 1) * stride ≤ vc * stride := mul_le_mul_of_nonneg_right (by omega) hs
  constructor
  · omega
  · linarith

namespace GlGeomCylinder

theorem SetDiscVerts_comp (g : GlGeomCylinder) (x z : FExpr) (i j p n t stride : Int) :
    ∀ w ∈ g.SetDiscVerts x z i j p n t stride [],
      0 ≤ w.comp ∧ (w.attr ≠ Attr.texcoord → w.comp < 3) ∧
        (w.attr = Attr.texcoord → w.comp < 2) := by
  intro w hw
  unfold SetDiscVerts at hw
  simp only [] at hw
  split_ifs at hw with h1 h2 h2 <;>
    simp only [List.nil_append, List.cons_append, List.mem_cons, List.mem_singleton,
      List.not_mem_nil, or_false] at hw <;>
    rcases hw with rfl | rfl | rfl | rfl | rfl | rfl | rfl | rfl | rfl | rfl | rfl | rfl |
      rfl | rfl | rfl | rfl <;>
    simp

theorem sideWrites_comp (g : GlGeomCylinder) (p n t stride i b j : Int) :
    ∀ w ∈ g.sideWrites p n t stride i b j,
      0 ≤ w.comp ∧ (w.attr ≠ Attr.texcoord → w.comp < 3) ∧
        (w.attr = Attr.texcoord → w.comp < 2) := by
  intro w hw
  unfold sideWrites sideVertex at hw
  simp only [] at hw
  split_ifs at hw with h1 h2 h2 <;>
    simp only [List.nil_append, List.cons_append, List.mem_cons, List.mem_singleton,
      List.not_mem_nil, or_false] at hw <;>
    rcases hw with rfl | rfl | rfl | rfl | rfl | rfl | rfl | rfl <;>
    simp

/-- The vertices `SetDiscVerts` is called for have record numbers below
`GetNumVerticesDisk()` in the bottom disk. -/
theorem disc_record (g : GlGeomCylinder) (hv : g.ValidResolution) (i j : Int)
    (h : (i = 0 ∧ j = 0) ∨ ((0 ≤ i ∧ i < g.numSlices) ∧ (1 ≤ j ∧ j ≤ g.numRings))) :
    0 ≤ i * g.numRings + j ∧ i * g.numRings + j < g.GetNumVerticesDisk := by
  obtain ⟨⟨hS3, hS⟩, ⟨hT1, hT⟩, ⟨hR1, hR⟩⟩ := hv
  unfold GetNumVerticesDisk
  rcases h with ⟨rfl, rfl⟩ | ⟨⟨hi0, hi1⟩, ⟨hj1, hj2⟩⟩
  · have : 0 < g.numRings * g.numSlices := by positivity
    omega
  · have h1 : 0 ≤ i * g.numRings := by positivity
    have h2 : (i + 1) * g.numRings ≤ g.numSlices * g.numRings :=
      mul_le_mul_of_nonneg_right (by omega) (by omega)
    constructor
    · omega
    · linarith

/-- Every store of the vertex fill belongs to a record below the vertex count of
the texcoord mode, and writes a component of its field. -/
theorem cylFillVbo_record (g : GlGeomCylinder) (hv : g.ValidResolution) (p n t stride : Int) :
    ∀ w ∈ g.fillVbo p n t stride,
      (0 ≤ g.recordOf w.region w.i w.j ∧
        g.recordOf w.region w.i w.j < g.vertexCount (decide (t ≥ 0))) ∧
      0 ≤ w.comp ∧ (w.attr ≠ Attr.texcoord → w.comp < 3) ∧
        (w.attr = Attr.texcoord → w.comp < 2) := by
  intro w hw
  obtain ⟨hD, hD2, -⟩ := g.cylVertexCount_bounds hv (decide (t ≥ 0))
  have hvc : g.vertexCount (decide (t ≥ 0)) = 2 * g.GetNumVerticesDisk +
      ((if t ≥ 0 then g.numSlices else g.numSlices - 1) + 1) * (g.numStacks + 1) := by
    unfold vertexCount GetNumVerticesTexCoords GetNumVerticesNoTexCoords
      GetNumVerticesSideTexCoords GetNumVerticesSideNoTexCoords
    simp only [decide_eq_true_eq]
    split_ifs <;> ring
  rw [cylFillVbo_eq, List.mem_append, List.mem_flatMap] at hw
  rcases hw with hw | ⟨i, hi, hw⟩
  · obtain ⟨h1, h2, h3, -⟩ := g.SetDiscVerts_spec _ _ _ _ _ _ _ _ w hw
    have hr := g.disc_record hv 0 0 (Or.inl ⟨rfl, rfl⟩)
    refine ⟨?_, g.SetDiscVerts_comp _ _ _ _ _ _ _ _ w hw⟩
    rw [h1, h2]
    rcases h3 with h3 | h3 <;> rw [h3] <;> simp only [recordOf] <;> omega
  · rw [mem_loopRange] at hi
    unfold sliceWrites at hw
    rw [List.mem_append] at hw
    rcases hw with hw | hw
    · split_ifs at hw with hlt
      · rw [List.mem_flatMap] at hw
        obtain ⟨j, hj, hw⟩ := hw
        rw [mem_loopRange] at hj
        obtain ⟨h1, h2, h3, -⟩ := g.SetDiscVerts_spec _ _ _ _ _ _ _ _ w hw
        have hr := g.disc_record hv i j (Or.inr ⟨⟨hi.1, hlt⟩, ⟨hj.1, by omega⟩⟩)
        refine ⟨?_, g.SetDiscVerts_comp _ _ _ _ _ _ _ _ w hw⟩
        rw [h1, h2]
        rcases h3 with h3 | h3 <;> rw [h3] <;> simp only [recordOf] <;> omega
      · simp at hw
    · rw [List.mem_flatMap] at hw
      obtain ⟨j, hj, hw⟩ := hw
      rw [mem_loopRange] at hj
      obtain ⟨h1, h2, h3, -⟩ := g.sideWrites_spec _ _ _ _ _ _ _ w hw
      refine ⟨?_, g.sideWrites_comp _ _ _ _ _ _ _ w hw⟩
      rw [h1, h2, h3, hvc]
      simp only [recordOf]
      have hT : 0 ≤ g.numStacks + 1 := by have := hv.2.1.1; omega
      have ha : 0 ≤ i * (g.numStacks + 1) := mul_nonneg hi.1 hT
      have hb : (i + 1) * (g.numStacks + 1) ≤
          ((if t ≥ 0 then g.numSlices else g.numSlices - 1) + 1) * (g.numStacks + 1) :=
        mul_le_mul_of_nonneg_right (by omega) hT
      constructor
      · omega
      · linarith

end GlGeomCylinder

namespace GlGeomTorus

theorem vertexWrites_comp (g : GlGeomTorus) (n t stride i p j : Int) :
    ∀ w ∈ g.vertexWrites n t stride i p j,
      0 ≤ w.comp ∧ (w.attr ≠ Attr.texcoord → w.comp < 3) ∧
        (w.attr = Attr.texcoord → w.comp < 2) := by
  intro w hw
  unfold vertexWrites ringVertex at hw
  simp only [] at hw
  split_ifs at hw with h1 h2 h2 <;>
    simp only [List.nil_append, List.cons_append, List.mem_cons, List.mem_singleton,
      List.not_mem_nil, or_false] at hw <;>
    rcases hw with rfl | rfl | rfl | rfl | rfl | rfl | rfl | rfl <;> simp


/-- Every store of the torus vertex fill is made at the record `i * sideStride + j`
of a vertex with record number below the vertex count of the texcoord mode. -/
theorem torFillVbo_record (g : GlGeomTorus) (hv : g.ValidResolution) (p n t stride : Int) :
    ∀ w ∈ g.fillVbo p n t stride, ∃ r : Int,
      (0 ≤ r ∧ r < g.vertexCount (decide (t ≥ 0))) ∧ w.base = r * stride ∧
      (w.attr = Attr.pos → w.slot = w.base + w.comp) ∧
      (w.attr = Attr.normal → w.slot = w.base + n + w.comp ∧ n ≥ 0) ∧
      (w.attr = Attr.texcoord → w.slot = w.base + t + w.comp ∧ t ≥ 0) ∧
      0 ≤ w.comp ∧ (w.attr ≠ Attr.texcoord → w.comp < 3) ∧
        (w.attr = Attr.texcoord → w.comp < 2) := by
  intro w hw
  rw [g.mem_torFillVbo hv] at hw
  obtain ⟨i, hi, j, hj, hw⟩ := hw
  obtain ⟨-, -, -, h4, h5, h6, h7⟩ := g.vertexWrites_spec _ _ _ _ _ _ w hw
  refine ⟨i * g.sideStride (decide (t ≥ 0)) + j, ?_, h4, ?_, ?_, ?_,
    g.vertexWrites_comp _ _ _ _ _ _ w hw⟩
  · rw [vertexCount_eq]
    have h1 : 0 ≤ i * g.sideStride (decide (t ≥ 0)) := mul_nonneg hi.1 (by omega)
    have h2 : (i + 1) * g.sideStride (decide (t ≥ 0)) ≤
        g.ringCount (decide (t ≥ 0)) * g.sideStride (decide (t ≥ 0)) :=
      mul_le_mul_of_nonneg_right (by omega) (by omega)
    constructor
    · omega
    · linarith
  · rw [h4]
    exact h5
  · rw [h4]
    exact h6
  · rw [h4]
    exact h7

end GlGeomTorus

/-! ### Machine-level runs and the fills -/

theorem toInt32_of_range (x : Int) (h0 : -2147483648 ≤ x) (h1 : x < 2147483648) :
    toInt32 x = x := by
  unfold toInt32
  omega

theorem cmod_of_ne (a b : Int) (hb : b ≠ 0) : cmod a b = some (a.tmod b) := by
  unfold cmod
  rw [if_neg hb]

/-- A loop whose body does not abort on the values of the loop variable is the
loop of the stores of the body. -/
theorem forLoopT_ok {σ : Type} (lo hi : Int) (bodyM : σ → Int → σ × Option Abort)
    (body : σ → Int → σ)
    (h : ∀ s i, lo ≤ i → i < hi → bodyM s i = (body s i, none)) (st : σ) :
    forLoopT lo hi bodyM st = (forLoop lo hi body st, none) := by
  unfold forLoopT forLoop
  have key : ∀ (l : List Nat), (∀ k ∈ l, k < (hi - lo).toNat) → ∀ st : σ,
      l.foldl (fun acc (k : Nat) =>
        match acc.2 with
        | none => bodyM acc.1 (lo + (k : Int))
        | some _ => acc) (st, none) =
      (l.foldl (fun s (k : Nat) => body s (lo + (k : Int))) st, none) := by
    intro l
    induction l with
    | nil => intro _ st; rfl
    | cons a l ih =>
      intro hl st
      have ha : a < (hi - lo).toNat := hl a (List.mem_cons_self _ _)
      simp only [List.foldl_cons]
      rw [h st (lo + (a : Int)) (by omega) (by omega)]
      exact ih (fun k hk => hl k (List.mem_cons_of_mem _ hk)) _
  exact key _ (fun k hk => List.mem_range.mp hk) st

theorem forLoopT_returns {σ : Type} (lo hi : Int) (bodyM : σ → Int → σ × Option Abort)
    (h : ∀ s i, lo ≤ i → i < hi → (bodyM s i).2 = none) (st : σ) :
    (forLoopT lo hi bodyM st).2 = none := by
  rw [forLoopT_ok lo hi bodyM (fun s i => (bodyM s i).1)
    (fun s i h0 h1 => Prod.ext rfl (h s i h0 h1))]

theorem forLoop_congr {σ : Type} (lo hi : Int) (b1 b2 : σ → Int → σ)
    (h : ∀ s i, lo ≤ i → i < hi → b1 s i = b2 s i) (st : σ) :
    forLoop lo hi b1 st = forLoop lo hi b2 st := by
  unfold forLoop
  have key : ∀ (l : List Nat), (∀ k ∈ l, k < (hi - lo).toNat) → ∀ st : σ,
      l.foldl (fun s (k : Nat) => b1 s (lo + (k : Int))) st =
      l.foldl (fun s (k : Nat) => b2 s (lo + (k : Int))) st := by
    intro l
    induction l with
    | nil => intro _ st; rfl
    | cons a l ih =>
      intro hl st
      have ha : a < (hi - lo).toNat := hl a (List.mem_cons_self _ _)
      simp only [List.foldl_cons]
      rw [h st (lo + (a : Int)) (by omega) (by omega)]
      exact ih (fun k hk => hl k (List.mem_cons_of_mem _ hk)) _
  exact key _ (fun k hk => List.mem_range.mp hk) st

namespace GlGeomCylinder

/-- Where its two `int` products are within the range of `int`, the run of
`SetDiscVerts` makes the stores of `SetDiscVerts`. -/
theorem SetDiscVertsM_eq (g : GlGeomCylinder) (x z : FExpr) (i j p n t stride : Int)
    (log : List VboWrite)
    (h1 : -2147483648 ≤ stride * (i * g.numRings + j) ∧
      stride * (i * g.numRings + j) < 2147483648)
    (h2 : -2147483648 ≤ g.GetNumVerticesDisk * stride ∧
      g.GetNumVerticesDisk * stride < 2147483648) :
    g.SetDiscVertsM x z i j p n t stride log = g.SetDiscVerts x z i j p n t stride log := by
  unfold SetDiscVertsM SetDiscVerts
  rw [toInt32_of_range _ h1.1 h1.2, toInt32_of_range _ h2.1 h2.2]

/-- The products with `stride` of a fill whose buffer has fewer than 2^31 floats. -/
theorem stride_products (g : GlGeomCylinder) (hv : g.ValidResolution) (t : Int)
    (stride : Nat) (hb : (stride : Int) * g.vertexCount (decide (t ≥ 0)) < 2147483648) :
    (stride : Int) < 2147483648 ∧
    (0 ≤ g.GetNumVerticesDisk * stride ∧ g.GetNumVerticesDisk * stride < 2147483648) ∧
    (∀ r : Int, 0 ≤ r → r < g.vertexCount (decide (t ≥ 0)) →
      0 ≤ (stride : Int) * r ∧ (stride : Int) * r < 2147483648) := by
  obtain ⟨hD, hD2, -⟩ := g.cylVertexCount_bounds hv (decide (t ≥ 0))
  have hs0 : (0 : Int) ≤ stride := Int.ofNat_nonneg _
  have hr : ∀ r : Int, 0 ≤ r → r < g.vertexCount (decide (t ≥ 0)) →
      0 ≤ (stride : Int) * r ∧ (stride : Int) * r < 2147483648 := by
    intro r h0 h1
    have := mul_le_mul_of_nonneg_left (le_of_lt h1) hs0
    exact ⟨mul_nonneg hs0 h0, by omega⟩
  refine ⟨?_, ?_, hr⟩
  · have := (hr 1 (by omega) (by omega)).2
    omega
  · have := hr g.GetNumVerticesDisk (by omega) (by omega)
    rw [mul_comm]
    exact this

theorem sliceVerticesM_eq (g : GlGeomCylinder) (hv : g.ValidResolution) (p n t : Int)
    (stride : Nat) (hb : (stride : Int) * g.vertexCount (decide (t ≥ 0)) < 2147483648)
    (log : List VboWrite) (i : Int) (hi0 : 0 ≤ i)
    (hi1 : i < (if t ≥ 0 then g.numSlices else g.numSlices - 1) + 1) :
    g.sliceVerticesM p n t stride log i = (g.sliceVertices p n t stride log i, none) := by
  obtain ⟨hst, hdelta, hprod⟩ := g.stride_products hv t stride hb
  obtain ⟨hD, hD2, -⟩ := g.cylVertexCount_bounds hv (decide (t ≥ 0))
  have hS : g.numSlices ≠ 0 := by have := hv.1.1; omega
  have hT : 0 ≤ g.numStacks + 1 := by have := hv.2.1.1; omega
  have hvc : g.vertexCount (decide (t ≥ 0)) = 2 * g.GetNumVerticesDisk +
      ((if t ≥ 0 then g.numSlices else g.numSlices - 1) + 1) * (g.numStacks + 1) := by
    unfold vertexCount GetNumVerticesTexCoords GetNumVerticesNoTexCoords
      GetNumVerticesSideTexCoords GetNumVerticesSideNoTexCoords
    simp only [decide_eq_true_eq]
    split_ifs <;> ring
  have hside : 0 ≤ 2 * g.GetNumVerticesDisk + i * (g.numStacks + 1) ∧
      2 * g.GetNumVerticesDisk + i * (g.numStacks + 1) < g.vertexCount (decide (t ≥ 0)) := by
    have ha : 0 ≤ i * (g.numStacks + 1) := mul_nonneg hi0 hT
    have hb' : (i + 1) * (g.numStacks + 1) ≤
        ((if t ≥ 0 then g.numSlices else g.numSlices - 1) + 1) * (g.numStacks + 1) :=
      mul_le_mul_of_nonneg_right (by omega) hT
    rw [hvc]
    constructor
    · omega
    · have hT1 : 1 ≤ g.numStacks + 1 := by have := hv.2.1.1; omega
      linarith
  have hbase : ((2 * g.GetNumVerticesDisk + i * (g.numStacks + 1)) * (stride : Int)) %
      4294967296 = (2 * g.GetNumVerticesDisk + i * (g.numStacks + 1)) * (stride : Int) := by
    have := hprod _ hside.1 hside.2
    rw [mul_comm] at this
    exact Int.emod_eq_of_lt this.1 (by omega)
  have hdisc : ∀ (s c : FExpr), i < g.numSlices →
      forLoop 1 (g.numRings + 1) (fun log j =>
        g.SetDiscVertsM (FExpr.mul s (FExpr.div (FExpr.ofInt j) (FExpr.ofInt g.numRings)))
          (FExpr.mul c (FExpr.div (FExpr.ofInt j) (FExpr.ofInt g.numRings))) i j
          p n t (toInt32 stride) log) log =
      forLoop 1 (g.numRings + 1) (fun log j =>
        g.SetDiscVerts (FExpr.mul s (FExpr.div (FExpr.ofInt j) (FExpr.ofInt g.numRings)))
          (FExpr.mul c (FExpr.div (FExpr.ofInt j) (FExpr.ofInt g.numRings))) i j
          p n t stride log) log := by
    intro s c hlt
    apply forLoop_congr
    intro l j hj0 hj1
    rw [toInt32_of_range _ (by omega) hst]
    have hr := g.disc_record hv i j (Or.inr ⟨⟨hi0, hlt⟩, ⟨hj0, by omega⟩⟩)
    have := hprod _ hr.1 (by omega)
    exact g.SetDiscVertsM_eq _ _ _ _ _ _ _ _ _ ⟨by omega, this.2⟩ ⟨by omega, hdelta.2⟩
  unfold sliceVerticesM sliceVertices
  rw [cmod_of_ne _ _ hS]
  simp only []
  rw [hbase]
  by_cases hlt : i < g.numSlices
  · rw [if_pos hlt, if_pos hlt, hdisc _ _ hlt]
  · rw [if_neg hlt, if_neg hlt]

theorem sliceVerticesM_returns (g : GlGeomCylinder) (hS : g.numSlices ≠ 0) (p n t : Int)
    (stride : Nat) (log : List VboWrite) (i : Int) :
    (g.sliceVerticesM p n t stride log i).2 = none := by
  unfold sliceVerticesM
  rw [cmod_of_ne _ _ hS]

/-- With a valid resolution and a buffer of fewer than 2^31 floats, the run of the
vertex fill does not abort and makes the stores of `fillVbo`. -/
theorem fillVboM_eq (g : GlGeomCylinder) (hv : g.ValidResolution) (p n t : Int)
    (stride : Nat) (hb : (stride : Int) * g.vertexCount (decide (t ≥ 0)) < 2147483648) :
    g.fillVboM p n t stride = (g.fillVbo p n t stride, none) := by
  obtain ⟨hst, hdelta, hprod⟩ := g.stride_products hv t stride hb
  unfold fillVboM fillVbo
  simp only [decide_eq_true_eq]
  rw [toInt32_of_range _ (by omega) hst,
    g.SetDiscVertsM_eq _ _ _ _ _ _ _ _ _ (by simp) ⟨by omega, hdelta.2⟩]
  exact forLoopT_ok _ _ _ _
    (fun s i h0 h1 => g.sliceVerticesM_eq hv p n t stride hb s i h0 h1) _

theorem cylFillVboM_returns (g : GlGeomCylinder) (hS : g.numSlices ≠ 0) (p n t : Int)
    (stride : Nat) : (g.fillVboM p n t stride).2 = none := by
  unfold fillVboM
  exact forLoopT_returns _ _ _ (fun s i _ _ => g.sliceVerticesM_returns hS p n t stride s i) _

/-- With slices different from zero the run of the index fill does not abort and
makes the stores of `fillEbo`. -/
theorem fillEboM_eq (g : GlGeomCylinder) (hS : g.numSlices ≠ 0) (tc : Bool) :
    g.fillEboM tc = (g.fillEbo tc, none) := by
  unfold fillEboM fillEbo
  simp only []
  rw [forLoopT_ok 0 g.numSlices g.bottomSliceM g.bottomSlice
    (fun s i _ _ => by unfold bottomSliceM; rw [cmod_of_ne _ _ hS])]
  simp only []
  rw [forLoopT_ok 0 g.numSlices (g.topSliceM _) (g.topSlice _)
    (fun s i _ _ => by unfold topSliceM; rw [cmod_of_ne _ _ hS])]
  simp only []
  exact forLoopT_ok 0 g.numSlices (g.sideSliceM tc _) (g.sideSlice tc _)
    (fun s i _ _ => by
      unfold sideSliceM
      rw [cmod_of_ne _ _ hS]
      cases tc <;> rfl) _

theorem cylRun_violation (g : GlGeomCylinder) (p n t : Int) (stride : Nat)
    (h : p < 0 ∨ stride = 0) :
    g.CalcVboAndEboM p n t stride =
      { vbo := [], ebo := ⟨0, []⟩, abort := some Abort.assertion } := by
  unfold CalcVboAndEboM
  rw [if_neg (by omega)]

theorem cylRun_returns (g : GlGeomCylinder) (hS : g.numSlices ≠ 0) (p n t : Int)
    (stride : Nat) (h : p ≥ 0 ∧ stride > 0) :
    (g.CalcVboAndEboM p n t stride).abort = none := by
  unfold CalcVboAndEboM
  rw [if_pos h]
  simp only []
  rw [g.cylFillVboM_returns hS, g.fillEboM_eq hS]

theorem cylRun_eq (g : GlGeomCylinder) (hv : g.ValidResolution) (p n t : Int)
    (stride : Nat) (h : p ≥ 0 ∧ stride > 0)
    (hb : (stride : Int) * g.vertexCount (decide (t ≥ 0)) < 2147483648) :
    g.CalcVboAndEboM p n t stride =
      { vbo := g.fillVbo p n t stride, ebo := g.fillEbo (decide (t ≥ 0)), abort := none } := by
  have hS : g.numSlices ≠ 0 := by have := hv.1.1; omega
  unfold CalcVboAndEboM
  rw [if_pos h]
  simp only []
  rw [g.fillVboM_eq hv p n t stride hb, g.fillEboM_eq hS]

end GlGeomCylinder

namespace GlGeomTorus

theorem ringVerticesM_eq (g : GlGeomTorus) (hR : g.numRings ≠ 0) (hS : g.numSides ≠ 0)
    (n t stride : Int) (st : Int × List VboWrite) (i : Int) :
    g.ringVerticesM n t stride st i = (g.ringVertices n t stride st i, none) := by
  unfold ringVerticesM ringVertices
  rw [cmod_of_ne _ _ hR]
  simp only []
  exact forLoopT_ok _ _ _ _
    (fun s j _ _ => by unfold ringVertexM; rw [cmod_of_ne _ _ hS]) _

/-- With rings and sides different from zero the run of the vertex fill does not
abort and makes the stores of `fillVbo`, whatever the stride. -/
theorem torFillVboM_eq (g : GlGeomTorus) (hR : g.numRings ≠ 0) (hS : g.numSides ≠ 0)
    (p n t : Int) (stride : Nat) :
    g.fillVboM p n t stride = (g.fillVbo p n t stride, none) := by
  unfold fillVboM fillVbo
  simp only []
  rw [forLoopT_ok _ _ _ _ (fun s i _ _ => g.ringVerticesM_eq hR hS n t stride s i)]

theorem ringIndicesM_eq (g : GlGeomTorus) (hR : g.numRings ≠ 0) (hS : g.numSides ≠ 0)
    (tc : Bool) (ringDelta : Int) (st : EboState) (ii : Int) :
    g.ringIndicesM tc ringDelta st ii = (g.ringIndices tc ringDelta st ii, none) := by
  unfold ringIndicesM ringIndices
  rw [cmod_of_ne _ _ hR]
  have hq : ∀ l r s j, g.quadIndicesM tc l r s j = (g.quadIndices tc l r s j, none) := by
    intro l r s j
    unfold quadIndicesM
    rw [cmod_of_ne _ _ hS]
    cases tc <;> rfl
  cases tc
  · exact forLoopT_ok _ _ _ _ (fun s j _ _ => hq _ _ s j) _
  · exact forLoopT_ok _ _ _ _ (fun s j _ _ => hq _ _ s j) _

theorem torFillEboM_eq (g : GlGeomTorus) (hR : g.numRings ≠ 0) (hS : g.numSides ≠ 0)
    (tc : Bool) : g.fillEboM tc = (g.fillEbo tc, none) := by
  unfold fillEboM fillEbo
  exact forLoopT_ok _ _ _ _ (fun s i _ _ => g.ringIndicesM_eq hR hS tc _ s i) _

theorem torRun_violation (g : GlGeomTorus) (p n t : Int) (stride : Nat)
    (h : p < 0 ∨ stride = 0) :
    g.CalcVboAndEboM p n t stride =
      { vbo := [], ebo := ⟨0, []⟩, abort := some Abort.assertion } := by
  unfold CalcVboAndEboM
  rw [if_neg (by omega)]

theorem torRun_eq (g : GlGeomTorus) (hR : g.numRings ≠ 0) (hS : g.numSides ≠ 0)
    (p n t : Int) (stride : Nat) (h : p ≥ 0 ∧ stride > 0) :
    g.CalcVboAndEboM p n t stride =
      { vbo := g.fillVbo p n t stride, ebo := g.fillEbo (decide (t ≥ 0)), abort := none } := by
  unfold CalcVboAndEboM
  rw [if_pos h]
  simp only []
  rw [g.torFillVboM_eq hR hS, g.torFillEboM_eq hR hS]

end GlGeomTorus

/-! ### Extent of the vertex stores: the fills -/

/-- A store at `base + fieldOffset + comp` of a record below `vc`, made for a field
that fits the record, lies in the record and in the `vc` records of the buffer. -/
theorem slot_of_field (p n t : Int) (stride : Nat)
    (hp0 : 0 ≤ p) (hp : p + 3 ≤ stride)
    (hn : n ≥ 0 → n + 3 ≤ stride) (htc : t ≥ 0 → t + 2 ≤ stride)
    (w : VboWrite) (r vc : Int) (hr : 0 ≤ r ∧ r < vc) (hb : w.base = r * stride)
    (hslot : w.slot = w.base + fieldOffset p n t w.attr + w.comp)
    (hnn : w.attr = Attr.normal → n ≥ 0) (htt : w.attr = Attr.texcoord → t ≥ 0)
    (hcomp : 0 ≤ w.comp ∧ (w.attr ≠ Attr.texcoord → w.comp < 3) ∧
      (w.attr = Attr.texcoord → w.comp < 2)) :
    (w.base ≤ w.slot ∧ w.slot < w.base + stride) ∧ 0 ≤ w.slot ∧
      w.slot < stride * vc ∧
      (n < 0 → w.attr ≠ Attr.normal) ∧ (t < 0 → w.attr ≠ Attr.texcoord) := by
  obtain ⟨hc0, hc3, hc2⟩ := hcomp
  have hattr : (w.attr = Attr.pos ∨ w.attr = Attr.normal) ∨ w.attr = Attr.texcoord := by
    cases w.attr <;> simp
  have hfield : ∃ off width : Int, 0 ≤ off ∧ off + width ≤ stride ∧ w.comp < width ∧
      w.slot = r * stride + off + w.comp := by
    rcases hattr with (ha | ha) | ha
    · refine ⟨p, 3, hp0, hp, hc3 (by rw [ha]; simp), ?_⟩
      rw [hslot, hb, ha]
      rfl
    · refine ⟨n, 3, hnn ha, hn (hnn ha), hc3 (by rw [ha]; simp), ?_⟩
      rw [hslot, hb, ha]
      rfl
    · refine ⟨t, 2, htt ha, htc (htt ha), hc2 ha, ?_⟩
      rw [hslot, hb, ha]
      rfl
  obtain ⟨off, width, ho0, ho1, hcw, hs⟩ := hfield
  have hin := slot_in_buffer r vc stride off w.comp width hr.1 hr.2 ho0 ho1 hc0 hcw
  refine ⟨?_, ?_, ?_, fun h ha => by have := hnn ha; omega,
    fun h ha => by have := htt ha; omega⟩
  · rw [hs, hb]
    constructor <;> omega
  · rw [hs]
    exact hin.1
  · rw [hs]
    exact hin.2

namespace GlGeomCylinder

theorem cylFillVbo_slots (g : GlGeomCylinder) (hv : g.ValidResolution) (p n t : Int)
    (stride : Nat) (hp0 : 0 ≤ p) (hp : p + 3 ≤ stride)
    (hn : n ≥ 0 → n + 3 ≤ stride) (htc : t ≥ 0 → t + 2 ≤ stride) :
    ∀ w ∈ g.fillVbo p n t stride,
      (w.base ≤ w.slot ∧ w.slot < w.base + stride) ∧ 0 ≤ w.slot ∧
      (t ≥ 0 → w.slot < stride * g.GetNumVerticesTexCoords) ∧
      (t < 0 → w.slot < stride * g.GetNumVerticesNoTexCoords) ∧
      (n < 0 → w.attr ≠ Attr.normal) ∧ (t < 0 → w.attr ≠ Attr.texcoord) := by
  intro w hw
  obtain ⟨hb, hslot, hnn, htt⟩ := g.fillVbo_spec _ _ _ _ w hw
  obtain ⟨hr, hcomp⟩ := g.cylFillVbo_record hv _ _ _ _ w hw
  obtain ⟨h1, h2, h3, h4, h5⟩ :=
    slot_of_field p n t stride hp0 hp hn htc w _ _ hr hb hslot hnn htt hcomp
  refine ⟨h1, h2, ?_, ?_, h4, h5⟩
  · intro h
    simpa [vertexCount, h] using h3
  · intro h
    have h' : ¬ t ≥ 0 := by omega
    simpa [vertexCount, h'] using h3

theorem SetDiscVerts_slots (g : GlGeomCylinder) (hv : g.ValidResolution) (p n t : Int)
    (stride : Nat) (hp0 : 0 ≤ p) (hp : p + 3 ≤ stride)
    (hn : n ≥ 0 → n + 3 ≤ stride) (htc : t ≥ 0 → t + 2 ≤ stride)
    (x z : FExpr) (i j : Int)
    (hij : (i = 0 ∧ j = 0) ∨ ((0 ≤ i ∧ i < g.numSlices) ∧ (1 ≤ j ∧ j ≤ g.numRings))) :
    ∀ w ∈ g.SetDiscVerts x z i j p n t stride [],
      (w.base ≤ w.slot ∧ w.slot < w.base + stride) ∧ 0 ≤ w.slot ∧
      w.slot < stride * (2 * g.GetNumVerticesDisk) ∧
      (n < 0 → w.attr ≠ Attr.normal) ∧ (t < 0 → w.attr ≠ Attr.texcoord) := by
  intro w hw
  obtain ⟨h1, h2, h3, hb, hslot, hnn, htt⟩ := g.SetDiscVerts_spec _ _ _ _ _ _ _ _ w hw
  have hr := g.disc_record hv i j hij
  have hrec : 0 ≤ g.recordOf w.region i j ∧
      g.recordOf w.region i j < 2 * g.GetNumVerticesDisk := by
    rcases h3 with h3 | h3 <;> rw [h3] <;> simp only [recordOf] <;> omega
  exact slot_of_field p n t stride hp0 hp hn htc w _ _ hrec hb hslot hnn htt
    (g.SetDiscVerts_comp _ _ _ _ _ _ _ _ w hw)

end GlGeomCylinder

namespace GlGeomTorus

theorem torFillVbo_slots (g : GlGeomTorus) (hv : g.ValidResolution) (p n t : Int)
    (stride : Nat) (hs : stride ≥ 1) (hp0 : 0 ≤ p) (hp : p + 3 ≤ stride)
    (hn : n ≥ 0 → n + 3 ≤ stride) (htc : t ≥ 0 → t + 2 ≤ stride) :
    ∀ w ∈ g.fillVbo p n t stride,
      (w.base ≤ w.slot ∧ w.slot < w.base + stride) ∧ 0 ≤ w.slot ∧
      (t ≥ 0 → w.slot < stride * g.GetNumVerticesTexCoords) ∧
      (t < 0 → w.slot < stride * g.GetNumVerticesNoTexCoords) ∧
      (n < 0 → w.attr ≠ Attr.normal) ∧ (t < 0 → w.attr ≠ Attr.texcoord) := by
  intro w hw
  obtain ⟨r, hr, hb, hpp, hnn, htt, hcomp⟩ := g.torFillVbo_record hv _ _ _ _ w hw
  have hattr : (w.attr = Attr.pos ∨ w.attr = Attr.normal) ∨ w.attr = Attr.texcoord := by
    cases w.attr <;> simp
  have hbase : 0 ≤ w.base ∧ w.base + stride ≤ stride * g.vertexCount (decide (t ≥ 0)) := by
    have := slot_in_buffer r _ stride 0 0 1 hr.1 hr.2 (le_refl _) (by omega) (le_refl _)
      (by omega)
    have h2 : (r + 1) * (stride : Int) ≤ g.vertexCount (decide (t ≥ 0)) * stride :=
      mul_le_mul_of_nonneg_right (by omega) (by omega)
    rw [hb]
    constructor
    · linarith [this.1]
    · linarith
  have hin : (w.base ≤ w.slot ∧ w.slot < w.base + stride) ∧
      (n < 0 → w.attr ≠ Attr.normal) ∧ (t < 0 → w.attr ≠ Attr.texcoord) := by
    obtain ⟨hc0, hc3, hc2⟩ := hcomp
    refine ⟨?_, fun h ha => by have := (hnn ha).2; omega,
      fun h ha => by have := (htt ha).2; omega⟩
    rcases hattr with (ha | ha) | ha
    · have h3 := hc3 (by rw [ha]; simp)
      have := hpp ha
      omega
    · have h3 := hc3 (by rw [ha]; simp)
      obtain ⟨h4, h5⟩ := hnn ha
      have := hn h5
      omega
    · have h3 := hc2 ha
      obtain ⟨h4, h5⟩ := htt ha
      have := htc h5
      omega
  have h3 : w.slot < stride * g.vertexCount (decide (t ≥ 0)) := by
    omega
  refine ⟨hin.1, by omega, ?_, ?_, hin.2.1, hin.2.2⟩
  · intro h
    simpa [vertexCount, h] using h3
  · intro h
    have h' : ¬ t ≥ 0 := by omega
    simpa [vertexCount, h'] using h3

end GlGeomTorus

/-- C23 (as stated, at a failing input). Cylinder (3, 1, 1), stride 2^29,
offsets (0, -1, -1): the resolution is valid, stride >= 1, 0 <= posOffset and
posOffset + 3 <= stride.  `SetDiscVerts(0.0, 0.0, 0, 0, …)` forms
`delta = GetNumVerticesDisk()*stride` = 4 * 2^29 in `int`, which is -2^31, and
stores the x coordinate of the top centre through `vPtrTop` at float index -2^31,
before the start of the caller's buffer; the call returns. -/
theorem vbo_write_before_buffer :
    (⟨3, 1, 1, false⟩ : GlGeomCylinder).ValidResolution ∧ (536870912 : Nat) ≥ 1 ∧
    (0 : Int) ≤ 0 ∧ (0 : Int) + 3 ≤ ((536870912 : Nat) : Int) ∧
    ((⟨3, 1, 1, false⟩ : GlGeomCylinder).CalcVboAndEboM 0 (-1) (-1) 536870912).abort = none ∧
    (∃ w ∈ ((⟨3, 1, 1, false⟩ : GlGeomCylinder).CalcVboAndEboM 0 (-1) (-1) 536870912).vbo,
      w.region = Region.top ∧ w.i = 0 ∧ w.j = 0 ∧ w.attr = Attr.pos ∧ w.comp = 0 ∧
      w.slot = -2147483648) ∧
    ¬ (∀ w ∈ ((⟨3, 1, 1, false⟩ : GlGeomCylinder).CalcVboAndEboM 0 (-1) (-1) 536870912).vbo,
      0 ≤ w.slot ∧
      w.slot < 536870912 * (⟨3, 1, 1, false⟩ : GlGeomCylinder).GetNumVerticesNoTexCoords) := by
  decide

/-- C23 (amended). Vertex-buffer writes stay inside the caller's buffer: for valid
resolutions, a stride >= 1 and offsets with 0 <= posOffset, posOffset + 3 <= stride,
normalOffset + 3 <= stride and texcoordOffset + 2 <= stride for each requested
(non-negative) field: when stride * vertexCount < 2^31, vertexCount being the
count query of the texcoord mode, the run of `GlGeomCylinder::CalcVboAndEbo`
returns and every vertex-buffer slot it writes lies within the record of `stride`
floats at its base pointer, is non-negative and is below stride * vertexCount, and
so does every store of a `SetDiscVerts` call with the arguments the fill calls it
with, with 2 * GetNumVerticesDisk() for the count; for every stride the run of
`GlGeomTorus::CalcVboAndEbo` returns with the same bounds; and no normal (resp.
texcoord) is written when normalOffset < 0 (resp. texcoordOffset < 0). -/
theorem vbo_writes_within_buffer (gc : GlGeomCylinder) (gt : GlGeomTorus)
    (hc : gc.ValidResolution) (ht : gt.ValidResolution)
    (vertPosOffset vertNormalOffset vertTexCoordsOffset : Int) (stride : Nat)
    (hs : stride ≥ 1) (hp0 : 0 ≤ vertPosOffset) (hp : vertPosOffset + 3 ≤ stride)
    (hn : vertNormalOffset ≥ 0 → vertNormalOffset + 3 ≤ stride)
    (htc : vertTexCoordsOffset ≥ 0 → vertTexCoordsOffset + 2 ≤ stride) :
    ((stride : Int) * gc.vertexCount (decide (vertTexCoordsOffset ≥ 0)) < 2147483648 →
      (gc.CalcVboAndEboM vertPosOffset vertNormalOffset vertTexCoordsOffset stride).abort =
        none ∧
      (∀ w ∈ (gc.CalcVboAndEboM vertPosOffset vertNormalOffset vertTexCoordsOffset
          stride).vbo,
        (w.base ≤ w.slot ∧ w.slot < w.base + stride) ∧ 0 ≤ w.slot ∧
        (vertTexCoordsOffset ≥ 0 → w.slot < stride * gc.GetNumVerticesTexCoords) ∧
        (vertTexCoordsOffset < 0 → w.slot < stride * gc.GetNumVerticesNoTexCoords) ∧
        (vertNormalOffset < 0 → w.attr ≠ Attr.normal) ∧
        (vertTexCoordsOffset < 0 → w.attr ≠ Attr.texcoord)) ∧
      (∀ (x z : FExpr) (i j : Int),
        ((i = 0 ∧ j = 0) ∨ ((0 ≤ i ∧ i < gc.numSlices) ∧ (1 ≤ j ∧ j ≤ gc.numRings))) →
        ∀ w ∈ gc.SetDiscVertsM x z i j vertPosOffset vertNormalOffset vertTexCoordsOffset
            (toInt32 stride) [],
          (w.base ≤ w.slot ∧ w.slot < w.base + stride) ∧ 0 ≤ w.slot ∧
          w.slot < stride * (2 * gc.GetNumVerticesDisk) ∧
          (vertNormalOffset < 0 → w.attr ≠ Attr.normal) ∧
          (vertTexCoordsOffset < 0 → w.attr ≠ Attr.texcoord))) ∧
    ((gt.CalcVboAndEboM vertPosOffset vertNormalOffset vertTexCoordsOffset stride).abort =
        none ∧
      ∀ w ∈ (gt.CalcVboAndEboM vertPosOffset vertNormalOffset vertTexCoordsOffset
          stride).vbo,
        (w.base ≤ w.slot ∧ w.slot < w.base + stride) ∧ 0 ≤ w.slot ∧
        (vertTexCoordsOffset ≥ 0 → w.slot < stride * gt.GetNumVerticesTexCoords) ∧
        (vertTexCoordsOffset < 0 → w.slot < stride * gt.GetNumVerticesNoTexCoords) ∧
        (vertNormalOffset < 0 → w.attr ≠ Attr.normal) ∧
        (vertTexCoordsOffset < 0 → w.attr ≠ Attr.texcoord)) := by
  have hpos : vertPosOffset ≥ 0 ∧ stride > 0 := ⟨hp0, by omega⟩
  constructor
  · intro hb
    rw [gc.cylRun_eq hc _ _ _ _ hpos hb]
    refine ⟨rfl, gc.cylFillVbo_slots hc _ _ _ _ hp0 hp hn htc, ?_⟩
    intro x z i j hij
    obtain ⟨hst, hdelta, hprod⟩ := gc.stride_products hc _ stride hb
    obtain ⟨hD, hD2, -⟩ := gc.cylVertexCount_bounds hc (decide (vertTexCoordsOffset ≥ 0))
    have hr := gc.disc_record hc i j hij
    have hpr := hprod _ hr.1 (by omega)
    rw [toInt32_of_range _ (by omega) hst,
      gc.SetDiscVertsM_eq _ _ _ _ _ _ _ _ _ ⟨by omega, hpr.2⟩ ⟨by omega, hdelta.2⟩]
    exact gc.SetDiscVerts_slots hc _ _ _ _ hp0 hp hn htc x z i j hij
  · have hR : gt.numRings ≠ 0 := by have := ht.1.1; omega
    have hS : gt.numSides ≠ 0 := by have := ht.2.1; omega
    rw [gt.torRun_eq hR hS _ _ _ _ hpos]
    exact ⟨rfl, gt.torFillVbo_slots ht _ _ _ _ hs hp0 hp hn htc⟩

theorem vbo_writes_within_buffer_witness :
    (⟨3, 1, 1, false⟩ : GlGeomCylinder).ValidResolution ∧
    (⟨3, 3, FExpr.half, false⟩ : GlGeomTorus).ValidResolution ∧
    (8 : Nat) ≥ 1 ∧ (0 : Int) ≤ 0 ∧ (0 : Int) + 3 ≤ ((8 : Nat) : Int) ∧
    ((3 : Int) ≥ 0 → (3 : Int) + 3 ≤ ((8 : Nat) : Int)) ∧
    ((6 : Int) ≥ 0 → (6 : Int) + 2 ≤ ((8 : Nat) : Int)) ∧
    ((8 : Nat) : Int) * (⟨3, 1, 1, false⟩ : GlGeomCylinder).vertexCount (decide ((6 : Int) ≥ 0)) < 2147483648 ∧
    (((⟨3, 1, 1, false⟩ : GlGeomCylinder).CalcVboAndEboM (0 : Int) (3 : Int) (6 : Int) (8 : Nat)).abort =
        none ∧
      (∀ w ∈ ((⟨3, 1, 1, false⟩ : GlGeomCylinder).CalcVboAndEboM (0 : Int) (3 : Int) (6 : Int)
          (8 : Nat)).vbo,
        (w.base ≤ w.slot ∧ w.slot < w.base + (8 : Nat)) ∧ 0 ≤ w.slot ∧
        ((6 : Int) ≥ 0 → w.slot < (8 : Nat) * (⟨3, 1, 1, false⟩ : GlGeomCylinder).GetNumVerticesTexCoords) ∧
        ((6 : Int) < 0 → w.slot < (8 : Nat) * (⟨3, 1, 1, false⟩ : GlGeomCylinder).GetNumVerticesNoTexCoords) ∧
        ((3 : Int) < 0 → w.attr ≠ Attr.normal) ∧
        ((6 : Int) < 0 → w.attr ≠ Attr.texcoord)) ∧
      (∀ (x z : FExpr) (i j : Int),
        ((i = 0 ∧ j = 0) ∨ ((0 ≤ i ∧ i < (⟨3, 1, 1, false⟩ : GlGeomCylinder).numSlices) ∧ (1 ≤ j ∧ j ≤ (⟨3, 1, 1, false⟩ : GlGeomCylinder).numRings))) →
        ∀ w ∈ (⟨3, 1, 1, false⟩ : GlGeomCylinder).SetDiscVertsM x z i j (0 : Int) (3 : Int) (6 : Int)
            (toInt32 (8 : Nat)) [],
          (w.base ≤ w.slot ∧ w.slot < w.base + (8 : Nat)) ∧ 0 ≤ w.slot ∧
          w.slot < (8 : Nat) * (2 * (⟨3, 1, 1, false⟩ : GlGeomCylinder).GetNumVerticesDisk) ∧
          ((3 : Int) < 0 → w.attr ≠ Attr.normal) ∧
          ((6 : Int) < 0 → w.attr ≠ Attr.texcoord))) ∧
    (((⟨3, 3, FExpr.half, false⟩ : GlGeomTorus).CalcVboAndEboM (0 : Int) (3 : Int) (6 : Int) (8 : Nat)).abort =
        none ∧
      ∀ w ∈ ((⟨3, 3, FExpr.half, false⟩ : GlGeomTorus).CalcVboAndEboM (0 : Int) (3 : Int) (6 : Int)
          (8 : Nat)).vbo,
        (w.base ≤ w.slot ∧ w.slot < w.base + (8 : Nat)) ∧ 0 ≤ w.slot ∧
        ((6 : Int) ≥ 0 → w.slot < (8 : Nat) * (⟨3, 3, FExpr.half, false⟩ : GlGeomTorus).GetNumVerticesTexCoords) ∧
        ((6 : Int) < 0 → w.slot < (8 : Nat) * (⟨3, 3, FExpr.half, false⟩ : GlGeomTorus).GetNumVerticesNoTexCoords) ∧
        ((3 : Int) < 0 → w.attr ≠ Attr.normal) ∧
        ((6 : Int) < 0 → w.attr ≠ Attr.texcoord)) :=
  ⟨by decide, by decide, by decide, by decide, by decide, by decide, by decide, by decide,
    (vbo_writes_within_buffer ⟨3, 1, 1, false⟩ ⟨3, 3, FExpr.half, false⟩ (by decide)
      (by decide) 0 3 6 8 (by decide) (by decide) (by decide) (by decide) (by decide)).1
      (by decide),
    (vbo_writes_within_buffer ⟨3, 1, 1, false⟩ ⟨3, 3, FExpr.half, false⟩ (by decide)
      (by decide) 0 3 6 8 (by decide) (by decide) (by decide) (by decide) (by decide)).2⟩

/-- C24 (as stated, at a failing input). The cylinder built by
`GlGeomCylinder(0, 1, 1)` and the layout (0, 3, 6) with stride 8: vertPosOffset >= 0
and stride > 0, and the call does not return: after the stores of the two disk
centres the slice loop evaluates `i%numSlices` with `numSlices` = 0.  Likewise the
torus built by `GlGeomTorus(0, 3, 0.5)`, at `i % numRings`. -/
theorem layout_ok_call_aborts :
    (0 : Int) ≥ 0 ∧ (8 : Nat) > 0 ∧
    ((GlGeomCylinder.construct 0 1 1).CalcVboAndEboM 0 3 6 8).abort =
      some Abort.divideByZero ∧
    ((GlGeomCylinder.construct 0 1 1).CalcVboAndEboM 0 3 6 8).vbo.length = 16 ∧
    ((GlGeomTorus.construct 0 3 FExpr.half).CalcVboAndEboM 0 3 6 8).abort =
      some Abort.divideByZero := by
  decide

/-- C24 (amended). Layout contract violations abort before any write: for both
generators and every resolution, if vertPosOffset < 0 or stride = 0 then the run
of `CalcVboAndEbo` ends at its assertion and has made no store into the vertex
buffer or the index buffer; and if vertPosOffset >= 0 and stride > 0 and the
resolution is valid, the run does not abort: the call returns. -/
theorem layout_contract (gc : GlGeomCylinder) (gt : GlGeomTorus)
    (vertPosOffset vertNormalOffset vertTexCoordsOffset : Int) (stride : Nat) :
    ((vertPosOffset < 0 ∨ stride = 0) →
      ((gc.CalcVboAndEboM vertPosOffset vertNormalOffset vertTexCoordsOffset stride).abort =
          some Abort.assertion ∧
        (gc.CalcVboAndEboM vertPosOffset vertNormalOffset vertTexCoordsOffset stride).vbo =
          [] ∧
        (gc.CalcVboAndEboM vertPosOffset vertNormalOffset vertTexCoordsOffset
          stride).ebo.written = []) ∧
      ((gt.CalcVboAndEboM vertPosOffset vertNormalOffset vertTexCoordsOffset stride).abort =
          some Abort.assertion ∧
        (gt.CalcVboAndEboM vertPosOffset vertNormalOffset vertTexCoordsOffset stride).vbo =
          [] ∧
        (gt.CalcVboAndEboM vertPosOffset vertNormalOffset vertTexCoordsOffset
          stride).ebo.written = [])) ∧
    ((vertPosOffset ≥ 0 ∧ stride > 0) →
      (gc.ValidResolution →
        (gc.CalcVboAndEboM vertPosOffset vertNormalOffset vertTexCoordsOffset
          stride).abort = none) ∧
      (gt.ValidResolution →
        (gt.CalcVboAndEboM vertPosOffset vertNormalOffset vertTexCoordsOffset
          stride).abort = none)) := by
  constructor
  · intro h
    rw [gc.cylRun_violation _ _ _ _ h, gt.torRun_violation _ _ _ _ h]
    exact ⟨⟨rfl, rfl, rfl⟩, ⟨rfl, rfl, rfl⟩⟩
  · intro h
    constructor
    · intro hc
      exact gc.cylRun_returns (by have := hc.1.1; omega) _ _ _ _ h
    · intro ht
      rw [gt.torRun_eq (by have := ht.1.1; omega) (by have := ht.2.1; omega) _ _ _ _ h]

theorem layout_contract_witness :
    (((-1 : Int) < 0 ∨ (8 : Nat) = 0) ∧
      (((⟨3, 1, 1, false⟩ : GlGeomCylinder).CalcVboAndEboM (-1) 3 6 8).abort =
          some Abort.assertion ∧
        ((⟨3, 1, 1, false⟩ : GlGeomCylinder).CalcVboAndEboM (-1) 3 6 8).vbo = [] ∧
        ((⟨3, 1, 1, false⟩ : GlGeomCylinder).CalcVboAndEboM (-1) 3 6 8).ebo.written = []) ∧
      (((⟨3, 3, FExpr.half, false⟩ : GlGeomTorus).CalcVboAndEboM (-1) 3 6 8).abort =
          some Abort.assertion ∧
        ((⟨3, 3, FExpr.half, false⟩ : GlGeomTorus).CalcVboAndEboM (-1) 3 6 8).vbo = [] ∧
        ((⟨3, 3, FExpr.half, false⟩ : GlGeomTorus).CalcVboAndEboM (-1) 3 6 8).ebo.written =
          [])) ∧
    (((0 : Int) < 0 ∨ (0 : Nat) = 0) ∧
      (((⟨3, 1, 1, false⟩ : GlGeomCylinder).CalcVboAndEboM 0 3 6 0).abort =
          some Abort.assertion ∧
        ((⟨3, 1, 1, false⟩ : GlGeomCylinder).CalcVboAndEboM 0 3 6 0).vbo = [] ∧
        ((⟨3, 1, 1, false⟩ : GlGeomCylinder).CalcVboAndEboM 0 3 6 0).ebo.written = []) ∧
      (((⟨3, 3, FExpr.half, false⟩ : GlGeomTorus).CalcVboAndEboM 0 3 6 0).abort =
          some Abort.assertion ∧
        ((⟨3, 3, FExpr.half, false⟩ : GlGeomTorus).CalcVboAndEboM 0 3 6 0).vbo = [] ∧
        ((⟨3, 3, FExpr.half, false⟩ : GlGeomTorus).CalcVboAndEboM 0 3 6 0).ebo.written =
          [])) ∧
    (((0 : Int) ≥ 0 ∧ (8 : Nat) > 0) ∧
      (⟨3, 1, 1, false⟩ : GlGeomCylinder).ValidResolution ∧
      ((⟨3, 1, 1, false⟩ : GlGeomCylinder).CalcVboAndEboM 0 3 6 8).abort = none ∧
      (⟨3, 3, FExpr.half, false⟩ : GlGeomTorus).ValidResolution ∧
      ((⟨3, 3, FExpr.half, false⟩ : GlGeomTorus).CalcVboAndEboM 0 3 6 8).abort = none) :=
  ⟨⟨by decide, (layout_contract ⟨3, 1, 1, false⟩ ⟨3, 3, FExpr.half, false⟩
      (-1) 3 6 8).1 (by decide)⟩,
    ⟨by decide, (layout_contract ⟨3, 1, 1, false⟩ ⟨3, 3, FExpr.half, false⟩
      0 3 6 0).1 (by decide)⟩,
    ⟨by decide, by decide,
      ((layout_contract ⟨3, 1, 1, false⟩ ⟨3, 3, FExpr.half, false⟩
        0 3 6 8).2 (by decide)).1 (by decide),
      by decide,
      ((layout_contract ⟨3, 1, 1, false⟩ ⟨3, 3, FExpr.half, false⟩
        0 3 6 8).2 (by decide)).2 (by decide)⟩⟩
